import Mathlib

/-!
# Human-Activity-Recognition frontend: the Live page streaming pipeline

A shallow embedding of `frontend/src/pages/Live.jsx`, `frontend/src/config.js`,
the keypoint extraction of `frontend/src/utils/featureExtraction.js` and the parts
of `frontend/src/components/CameraCapture.jsx` that acquire the camera and merge
the extractor results.

Conventions of the embedding:

* React state (`useState`) and refs (`useRef`) of the `Live` component are the
  fields of `LiveState`; the browser objects the component talks to (sockets,
  interval timers, issued requests, alerts, console, router) are further fields
  of the same record, so that every handler is a pure function on `LiveState`.
* An `async` handler is split at its `await`: `..._call` is the synchronous
  prefix, `..._resume` the continuation, which receives the outcome of the
  awaited operation as an argument.
* `Date.now()` is an argument (`now`).
* JavaScript strings that come out of `JSON.parse` are lists of UTF-16 code
  units (`JsString`), numbers coming out of `JSON.parse` are kept as the decimal
  literal that was read (`Decimal`).
* Keypoints are rational numbers. `JSON.stringify` is a printer whose way of
  writing a single number (the built-in `Number::toString`) is an argument.
-/

namespace HAR

/-! ## JSON values and `JSON.parse` -/

/-- A JavaScript string as its sequence of UTF-16 code units. -/
abbrev JsString := List Nat

/-- UTF-16 code units of one Unicode scalar value. -/
def utf16Char (c : Char) : List Nat :=
  if c.toNat < 0x10000 then [c.toNat]
  else [0xD800 + (c.toNat - 0x10000) / 0x400, 0xDC00 + (c.toNat - 0x10000) % 0x400]

/-- UTF-16 code units of a string literal of the source. -/
def utf16 (s : String) : JsString :=
  s.toList.foldr (fun c acc => utf16Char c ++ acc) []

/-- A number as read from a JSON text: `mantissa * 10 ^ exponent`. -/
structure Decimal where
  mantissa : Int
  exponent : Int
deriving DecidableEq, Repr

/-- The rational value denoted by a decimal literal. -/
def Decimal.toRat (d : Decimal) : Rat :=
  (d.mantissa : Rat) * (10 : Rat) ^ d.exponent

/-- Values produced by `JSON.parse`. An object keeps its members in source order. -/
inductive Json where
  | null
  | bool (b : Bool)
  | num (d : Decimal)
  | str (s : JsString)
  | arr (items : List Json)
  | obj (members : List (JsString × Json))
deriving Repr

/-- JSON whitespace: space, tab, line feed, carriage return. -/
def isJsonWs (c : Char) : Bool :=
  c == ' ' || c == '\t' || c == '\n' || c == '\r'

/-- Drop leading JSON whitespace. -/
def skipWs : List Char → List Char
  | [] => []
  | c :: cs => if isJsonWs c then skipWs cs else c :: cs

/-- Consume the literal `lit` from the front of the input. -/
def dropLit : List Char → List Char → Option (List Char)
  | [], cs => some cs
  | _ :: _, [] => none
  | l :: ls, c :: cs => if l == c then dropLit ls cs else none

/-- Value of a hexadecimal digit. -/
def hexVal (c : Char) : Option Nat :=
  if '0' ≤ c ∧ c ≤ '9' then some (c.toNat - '0'.toNat)
  else if 'a' ≤ c ∧ c ≤ 'f' then some (c.toNat - 'a'.toNat + 10)
  else if 'A' ≤ c ∧ c ≤ 'F' then some (c.toNat - 'A'.toNat + 10)
  else none

/-- Where the scanner stands inside a string literal. -/
inductive StrMode where
  | plain
  | escape
  | hex (left : Nat) (acc : Nat)

/-- Scan a string literal after its opening quote; returns the code units and the rest. -/
def parseStringBody : StrMode → JsString → List Char → Option (JsString × List Char)
  | _, _, [] => none
  | .plain, out, c :: cs =>
      if c == '"' then some (out, cs)
      else if c == '\\' then parseStringBody .escape out cs
      else if c.toNat < 0x20 then none
      else parseStringBody .plain (out ++ utf16Char c) cs
  | .escape, out, c :: cs =>
      if c == '"' then parseStringBody .plain (out ++ [0x22]) cs
      else if c == '\\' then parseStringBody .plain (out ++ [0x5C]) cs
      else if c == '/' then parseStringBody .plain (out ++ [0x2F]) cs
      else if c == 'b' then parseStringBody .plain (out ++ [0x08]) cs
      else if c == 'f' then parseStringBody .plain (out ++ [0x0C]) cs
      else if c == 'n' then parseStringBody .plain (out ++ [0x0A]) cs
      else if c == 'r' then parseStringBody .plain (out ++ [0x0D]) cs
      else if c == 't' then parseStringBody .plain (out ++ [0x09]) cs
      else if c == 'u' then parseStringBody (.hex 4 0) out cs
      else none
  | .hex left acc, out, c :: cs =>
      match hexVal c with
      | none => none
      | some v =>
          if left ≤ 1 then parseStringBody .plain (out ++ [acc * 16 + v]) cs
          else parseStringBody (.hex (left - 1) (acc * 16 + v)) out cs

/-- Value of a run of decimal digits. -/
def digitsToNat (ds : List Char) : Nat :=
  ds.foldl (fun n c => 10 * n + (c.toNat - '0'.toNat)) 0

/-- Scan a JSON number: `-? (0 | [1-9][0-9]*) (. [0-9]+)? ([eE] [+-]? [0-9]+)?`. -/
def parseNumber (cs : List Char) : Option (Decimal × List Char) :=
  let (neg, cs0) := match cs with
    | '-' :: r => (true, r)
    | _ => (false, cs)
  let (intDs, cs1) := cs0.span Char.isDigit
  if intDs.isEmpty || (intDs.length > 1 && intDs.head? == some '0') then none
  else
    let frac : Option (List Char × List Char) := match cs1 with
      | '.' :: r =>
          let (fd, r1) := r.span Char.isDigit
          if fd.isEmpty then none else some (fd, r1)
      | _ => some ([], cs1)
    match frac with
    | none => none
    | some (fracDs, cs2) =>
        let expo : Option (Int × List Char) :=
          match cs2 with
          | c :: r =>
              if c == 'e' || c == 'E' then
                let (eneg, r0) := match r with
                  | '-' :: r1 => (true, r1)
                  | '+' :: r1 => (false, r1)
                  | _ => (false, r)
                let (ed, r2) := r0.span Char.isDigit
                if ed.isEmpty then none
                else some (if eneg then - (digitsToNat ed : Int) else (digitsToNat ed : Int), r2)
              else some (0, cs2)
          | [] => some (0, cs2)
        match expo with
        | none => none
        | some (e, cs3) =>
            let m : Int := (digitsToNat (intDs ++ fracDs) : Int)
            some (⟨if neg then - m else m, e - (fracDs.length : Int)⟩, cs3)

mutual
/-- Parse one JSON value (recursive descent, bounded by `fuel`). -/
def parseValue : Nat → List Char → Option (Json × List Char)
  | 0, _ => none
  | fuel + 1, cs =>
      match skipWs cs with
      | [] => none
      | c :: r =>
          if c == 'n' then (dropLit "ull".toList r).map (fun r1 => (Json.null, r1))
          else if c == 't' then (dropLit "rue".toList r).map (fun r1 => (Json.bool true, r1))
          else if c == 'f' then (dropLit "alse".toList r).map (fun r1 => (Json.bool false, r1))
          else if c == '"' then
            (parseStringBody .plain [] r).map (fun p => (Json.str p.1, p.2))
          else if c == '[' then
            match skipWs r with
            | ']' :: r1 => some (Json.arr [], r1)
            | r1 => parseElements fuel r1 []
          else if c == '{' then
            match skipWs r with
            | '}' :: r1 => some (Json.obj [], r1)
            | r1 => parseMembers fuel r1 []
          else if c == '-' || c.isDigit then
            (parseNumber (c :: r)).map (fun p => (Json.num p.1, p.2))
          else none
/-- Parse the elements of a non-empty array, up to and including `]`. -/
def parseElements : Nat → List Char → List Json → Option (Json × List Char)
  | 0, _, _ => none
  | fuel + 1, cs, acc =>
      match parseValue fuel cs with
      | none => none
      | some (v, r) =>
          match skipWs r with
          | ',' :: r1 => parseElements fuel r1 (acc ++ [v])
          | ']' :: r1 => some (Json.arr (acc ++ [v]), r1)
          | _ => none
/-- Parse the members of a non-empty object, up to and including `}`. -/
def parseMembers : Nat → List Char → List (JsString × Json) → Option (Json × List Char)
  | 0, _, _ => none
  | fuel + 1, cs, acc =>
      match skipWs cs with
      | '"' :: r =>
          match parseStringBody .plain [] r with
          | none => none
          | some (k, r1) =>
              match skipWs r1 with
              | ':' :: r2 =>
                  match parseValue fuel r2 with
                  | none => none
                  | some (v, r3) =>
                      match skipWs r3 with
                      | ',' :: r4 => parseMembers fuel r4 (acc ++ [(k, v)])
                      | '}' :: r4 => some (Json.obj (acc ++ [(k, v)]), r4)
                      | _ => none
              | _ => none
      | _ => none
end

/-- The built-in `JSON.parse(text)`: `none` stands for the `SyntaxError` it throws. -/
def JSON_parse (text : String) : Option Json :=
  match parseValue (2 * text.length + 2) text.toList with
  | none => none
  | some (v, r) => if (skipWs r).isEmpty then some v else none

/-- Last member with the given key, if any (a later duplicate key overrides an earlier one). -/
def lookupMember (key : JsString) : List (JsString × Json) → Option Json
  | [] => none
  | (k, v) :: rest =>
      match lookupMember key rest with
      | some w => some w
      | none => if k = key then some v else none

/-- Outcome of the property read `data.name` on a parsed value. -/
inductive PropRead where
  | throws
  | undefined
  | value (v : Json)

/-- Property read `data[name]` for a property name that no built-in prototype defines:
`null` has no properties (a `TypeError`), an object yields its own member, every
other parsed value yields `undefined`. -/
def Json.getProp (data : Json) (name : JsString) : PropRead :=
  match data with
  | .null => .throws
  | .obj members =>
      match lookupMember name members with
      | some v => .value v
      | none => .undefined
  | _ => .undefined

/-! ## `config.js` -/

/-- The build-time environment read by `config.js` (`import.meta.env`). -/
structure Env where
  VITE_API_URL : Option String
  VITE_WS_URL : Option String

/-- Settings under `config.featureExtraction`. -/
structure FeatureExtractionConfig where
  faceDetectionConfidence : Rat
  poseDetectionConfidence : Rat
  extractionIntervalMs : Nat

/-- Settings under `config.ui`. -/
structure UiConfig where
  stressMeterUpdateMs : Nat
  emotionHistoryLength : Nat

/-- The exported `config` object. -/
structure Config where
  apiUrl : String
  wsUrl : String
  featureExtraction : FeatureExtractionConfig
  ui : UiConfig

/-- JavaScript `v || d` for an environment string: the default is taken when the
variable is undefined or the empty string. -/
def orDefault (v : Option String) (d : String) : String :=
  match v with
  | some s => if s.isEmpty then d else s
  | none => d

/-- The object built by `config.js`. -/
def config (env : Env) : Config :=
  { apiUrl := orDefault env.VITE_API_URL "http://localhost:8000"
    wsUrl := orDefault env.VITE_WS_URL "ws://localhost:8000"
    featureExtraction :=
      { faceDetectionConfidence := 1 / 2
        poseDetectionConfidence := 1 / 2
        extractionIntervalMs := 500 }
    ui := { stressMeterUpdateMs := 100, emotionHistoryLength := 20 } }

/-! ## State of the Live page -/

/-- The object built by `combineFeatures`: one frame of keypoints. -/
structure FeatureFrame where
  face_kp : List Rat
  pose_kp : List Rat
deriving DecidableEq, Repr

/-- The object handed to `JSON.stringify` in `sendQueuedFeatures`. -/
structure OutboundMessage where
  type : String
  timestamp : Nat
  features : FeatureFrame
deriving DecidableEq, Repr

/-- The values of `WebSocket.readyState`. -/
inductive ReadyState where
  | CONNECTING
  | OPEN
  | CLOSING
  | CLOSED
deriving DecidableEq, Repr

/-- A browser `WebSocket` object. -/
structure WebSocket where
  url : String
  readyState : ReadyState
deriving DecidableEq, Repr

/-- An armed `setInterval` timer. -/
structure Timer where
  id : Nat
  ms : Nat
deriving DecidableEq, Repr

/-- A request issued with `fetch`. -/
structure Request where
  method : String
  url : String
deriving DecidableEq, Repr

/-- An `async` handler suspended at its `await fetch(...)`. -/
inductive Continuation where
  | startSession
  | endSession
deriving DecidableEq, Repr

/-- State of the `Live` component together with the browser objects it drives.

`sessionId` .. `duration` are the `useState` cells, `wsRef`, `featureQueueRef`,
`sendIntervalRef` the `useRef` cells. `wsRef` holds the socket object itself;
sockets created earlier and no longer referenced are in `detached` (their
handlers stay registered). `wire` logs every `send` as (socket url, message),
`navigations` every call of `navigate`: while it is empty the component is
mounted; once it is not, the component is unmounted and the cells above are no
longer held by anything (see `navigate`, `mounted`, `heldCells`). -/
structure LiveState where
  sessionId : Option String
  isActive : Bool
  prediction : Option Json
  isConnecting : Bool
  connectionStatus : String
  startTime : Option Nat
  duration : Int
  wsRef : Option WebSocket
  featureQueueRef : List FeatureFrame
  sendIntervalRef : Option Nat
  detached : List WebSocket
  wire : List (String × OutboundMessage)
  timers : List Timer
  nextTimerId : Nat
  requests : List Request
  awaiting : List Continuation
  alerts : List String
  consoleErrors : List String
  navigations : List String

/-- The state right after `Live` is mounted. Timer ids handed out by the browser
are positive. -/
def LiveState.initial : LiveState :=
  { sessionId := none
    isActive := false
    prediction := none
    isConnecting := false
    connectionStatus := "disconnected"
    startTime := none
    duration := 0
    wsRef := none
    featureQueueRef := []
    sendIntervalRef := none
    detached := []
    wire := []
    timers := []
    nextTimerId := 1
    requests := []
    awaiting := []
    alerts := []
    consoleErrors := []
    navigations := [] }

/-! ## Handlers of `Live.jsx` -/

/-- Outcome of the create-session exchange awaited by `startSession`
(`await fetch(...)` followed by `await response.json()`).

* `networkError`: `fetch` rejects;
* `notOk`: `response.ok` is false;
* `badBody`: `response.json()` rejects, or yields `null` (reading its `session_id`
  then throws);
* `created sid`: the read `data.session_id` yields `sid`.

The response body is typed as the endpoint declares it: `session_id` is a string
or absent (`none`, the JavaScript `undefined`). -/
inductive CreateResult where
  | networkError
  | notOk
  | badBody
  | created (session_id : Option String)
deriving DecidableEq, Repr

/-- Outcome of `await fetch(.../end)` in `endSession`: the promise resolves (with
any HTTP status, which the code never inspects) or rejects. -/
inductive EndResult where
  | resolved
  | rejected
deriving DecidableEq, Repr

/-- Text substituted for `sid` by the template literal of `connectWebSocket`. -/
def templateText (sid : Option String) : String :=
  match sid with
  | some s => s
  | none => "undefined"

/-- The built-in `setInterval(f, ms)`: arms a timer and returns its id. -/
def setInterval (ms : Nat) (st : LiveState) : Nat × LiveState :=
  (st.nextTimerId,
    { st with timers := st.timers ++ [⟨st.nextTimerId, ms⟩], nextTimerId := st.nextTimerId + 1 })

/-- The built-in `clearInterval(id)`. -/
def clearInterval (id : Nat) (st : LiveState) : LiveState :=
  { st with timers := st.timers.filter (fun t => t.id != id) }

/-- The method `ws.close()`: an open or connecting socket starts closing. -/
def WebSocket.close (ws : WebSocket) : WebSocket :=
  match ws.readyState with
  | .CONNECTING => { ws with readyState := .CLOSING }
  | .OPEN => { ws with readyState := .CLOSING }
  | _ => ws

/-- The built-in `WebSocket` constructor, as far as the page depends on it:
`accepts url` tells whether `new WebSocket(url)` returns a socket. When it does
not, the constructor throws `SyntaxError` (the address cannot be parsed, is no
`ws` or `wss` address, or has a fragment). Which addresses are accepted is the
browser's matter; what is stated below with `[Browser]` holds for every browser. -/
class Browser where
  accepts : String → Bool

/-- The browser of the sample runs: it accepts the addresses that begin with
`ws://` or `wss://` and have no fragment (no `#`). A run or a state that names no
browser is one in this browser. -/
instance sampleBrowser : Browser where
  accepts url :=
    (url.toList.take 5 == "ws://".toList || url.toList.take 6 == "wss://".toList)
      && !url.toList.contains '#'

/-- The function `connectWebSocket(sid)` (Live.jsx 77-108): a new socket at
`config.wsUrl/ws/sid` replaces the one held in `wsRef`. The four handlers it
registers are `ws_onopen`, `ws_onmessage`, `ws_onerror`, `ws_onclose` below. When
the constructor throws (Live.jsx 78) nothing has been changed yet; that is the
result `none`. -/
def connectWebSocket [Browser] (cfg : Config) (sid : Option String) (st : LiveState) :
    Option LiveState :=
  if Browser.accepts (cfg.wsUrl ++ "/ws/" ++ templateText sid) then
    some { st with
      wsRef := some ⟨cfg.wsUrl ++ "/ws/" ++ templateText sid, .CONNECTING⟩
      detached := st.detached ++ st.wsRef.toList }
  else none

/-- The handler `ws.onopen` (Live.jsx 80-84). -/
def ws_onopen (st : LiveState) : LiveState :=
  { st with connectionStatus := "connected", isConnecting := false }

/-- The handler `ws.onmessage` (Live.jsx 86-95): `payload` is `event.data`. A failed parse and a
failed property read both end in the `catch`, which only logs. -/
def ws_onmessage (payload : String) (st : LiveState) : LiveState :=
  match JSON_parse payload with
  | none =>
      { st with consoleErrors := st.consoleErrors ++ ["Error parsing WebSocket message:"] }
  | some data =>
      match data.getProp (utf16 "type") with
      | .throws =>
          { st with consoleErrors := st.consoleErrors ++ ["Error parsing WebSocket message:"] }
      | .undefined => st
      | .value t =>
          match t with
          | .str s => if s = utf16 "prediction" then { st with prediction := some data } else st
          | _ => st

/-- The handler `ws.onerror` (Live.jsx 97-100). -/
def ws_onerror (st : LiveState) : LiveState :=
  { st with
    consoleErrors := st.consoleErrors ++ ["WebSocket error:"]
    connectionStatus := "error" }

/-- The handler `ws.onclose` (Live.jsx 102-105). -/
def ws_onclose (st : LiveState) : LiveState :=
  { st with connectionStatus := "disconnected" }

/-- The callback `handleFeatures(features)` (Live.jsx 111-113). -/
def handleFeatures (features : FeatureFrame) (st : LiveState) : LiveState :=
  { st with featureQueueRef := st.featureQueueRef ++ [features] }

/-- The send tick `sendQueuedFeatures()` (Live.jsx 116-130), run at time `now`. -/
def sendQueuedFeatures (now : Nat) (st : LiveState) : LiveState :=
  match st.wsRef with
  | none => st
  | some ws =>
      if ws.readyState ≠ .OPEN then st
      else
        match st.featureQueueRef.getLast? with
        | none => st
        | some features =>
            { st with
              featureQueueRef := []
              wire := st.wire ++ [(ws.url, ⟨"features", now, features⟩)] }

/-- The handler `startSession` up to its `await fetch(...)` (Live.jsx 33-47). -/
def startSession_call (cfg : Config) (st : LiveState) : LiveState :=
  { st with
    isConnecting := true
    requests := st.requests ++ [⟨"POST", cfg.apiUrl ++ "/api/v1/sessions"⟩]
    awaiting := st.awaiting ++ [.startSession] }

/-- The handler `startSession` from the point where the create-session exchange has finished
(Live.jsx 49-73), at time `now`. Every failure ends in the `catch`; so does a throw
of the `WebSocket` constructor, which comes after `setSessionId(sid)`. -/
def startSession_resume [Browser] (cfg : Config) (now : Nat) (result : CreateResult)
    (st : LiveState) : LiveState :=
  let st0 := { st with awaiting := st.awaiting.erase .startSession }
  match result with
  | .created sid =>
      let st1 := { st0 with sessionId := sid }
      match connectWebSocket cfg sid st1 with
      | some st2 =>
          let st3 := { st2 with isActive := true, startTime := some now }
          let (id, st4) := setInterval cfg.featureExtraction.extractionIntervalMs st3
          { st4 with sendIntervalRef := some id }
      | none =>
          { st1 with
            consoleErrors := st1.consoleErrors ++ ["Error starting session:"]
            alerts := st1.alerts ++ ["Failed to start session. Make sure the backend is running."]
            isConnecting := false }
  | _ =>
      { st0 with
        consoleErrors := st0.consoleErrors ++ ["Error starting session:"]
        alerts := st0.alerts ++ ["Failed to start session. Make sure the backend is running."]
        isConnecting := false }

/-- The handler `startSession` run without anything else happening during its `await`. -/
def startSession [Browser] (cfg : Config) (now : Nat) (result : CreateResult)
    (st : LiveState) : LiveState :=
  startSession_resume cfg now result (startSession_call cfg st)

/-- JavaScript truthiness of the `sessionId` cell. -/
def truthySessionId (sessionId : Option String) : Option String :=
  match sessionId with
  | some s => if s.isEmpty then none else some s
  | none => none

/-- The handler `endSession` up to its `await fetch(...)` (Live.jsx 133-151). -/
def endSession_call (cfg : Config) (st : LiveState) : LiveState :=
  let st1 := { st with isActive := false }
  let st2 := match st1.sendIntervalRef with
    | some id => if id ≠ 0 then clearInterval id st1 else st1
    | none => st1
  let st3 := match st2.wsRef with
    | some ws => { st2 with wsRef := some ws.close }
    | none => st2
  match truthySessionId st.sessionId with
  | some sid =>
      { st3 with
        requests := st3.requests ++ [⟨"POST", cfg.apiUrl ++ "/api/v1/sessions/" ++ sid ++ "/end"⟩]
        awaiting := st3.awaiting ++ [.endSession] }
  | none => st3

/-- The call `navigate(path)` of the router (App.jsx 52-57): the route changes and
`Live` is unmounted. React then discards the `useState` cells of the component.
The record is left as it is and from here on shows what the cells held last;
no component holds these values any more: `mounted` is false, no event of the
page is enabled, and `heldCells` is `none`. -/
def navigate (path : String) (st : LiveState) : LiveState :=
  { st with navigations := st.navigations ++ [path] }

/-- The handler `endSession` from the point where its request has finished (Live.jsx 152-155):
`navigate('/history')` when the request resolved, the `catch` when it was rejected. -/
def endSession_resume (result : EndResult) (st : LiveState) : LiveState :=
  let st0 := { st with awaiting := st.awaiting.erase .endSession }
  match result with
  | .resolved => navigate "/history" st0
  | .rejected => { st0 with consoleErrors := st0.consoleErrors ++ ["Error ending session:"] }

/-- The handler `endSession` run without anything else happening during its `await`; when no
request is issued (falsy `sessionId`) there is nothing to resume. -/
def endSession (cfg : Config) (result : EndResult) (st : LiveState) : LiveState :=
  match truthySessionId st.sessionId with
  | some _ => endSession_resume result (endSession_call cfg st)
  | none => endSession_call cfg st

/-- The callback of the duration timer (Live.jsx 25-27). -/
def durationTick (now : Nat) (st : LiveState) : LiveState :=
  match st.startTime with
  | some t0 => { st with duration := Int.fdiv ((now : Int) - (t0 : Int)) 1000 }
  | none => st

/-! ## What the page renders (Live.jsx 174-242) -/

/-- The Start Session button is rendered in the `!isActive` branch (Live.jsx 182-189). -/
def startButtonRendered (st : LiveState) : Bool := !st.isActive

/-- The Start Session button carries `disabled={isConnecting}` (Live.jsx 185). -/
def startButtonDisabled (st : LiveState) : Bool := st.isConnecting

/-- The End Session button is rendered in the `isActive` branch (Live.jsx 190-197). -/
def endButtonRendered (st : LiveState) : Bool := st.isActive

/-- The component `CameraCapture` is rendered in the `isActive` branch (Live.jsx 225-226). -/
def cameraRendered (st : LiveState) : Bool := st.isActive

/-- The page is mounted until `navigate('/history')` replaces it. -/
def mounted (st : LiveState) : Bool := st.navigations.isEmpty

/-- The values of a session held in `useState` cells of `Live` (Live.jsx 9-15). -/
structure SessionCells where
  sessionId : Option String
  duration : Int
  startTime : Option Nat
  prediction : Option Json

/-- What can be read of the session: the cells of the mounted component. Once
`Live` is unmounted its cells are gone, and there is nothing to read. -/
def heldCells (st : LiveState) : Option SessionCells :=
  if mounted st then some ⟨st.sessionId, st.duration, st.startTime, st.prediction⟩ else none

/-! ## Runs of the page -/

/-- The socket an event belongs to: the one in `wsRef`, or an earlier one. -/
inductive SocketRef where
  | current
  | detached (i : Nat)
deriving DecidableEq, Repr

/-- Everything that can happen to a mounted Live page. -/
inductive Event where
  | clickStart
  | createDone (now : Nat) (result : CreateResult)
  | clickEnd
  | endDone (result : EndResult)
  | features (f : FeatureFrame)
  | tick (now : Nat)
  | durationTimer (now : Nat)
  | wsOpen (r : SocketRef)
  | wsMessage (r : SocketRef) (payload : String)
  | wsError (r : SocketRef)
  | wsClose (r : SocketRef)
deriving Repr

/-- The `readyState` of the socket an event belongs to, if that socket exists. -/
def readyStateOf (r : SocketRef) (st : LiveState) : Option ReadyState :=
  match r with
  | .current => st.wsRef.map (fun ws => ws.readyState)
  | .detached i => (st.detached.get? i).map (fun ws => ws.readyState)

/-- The browser moves a socket to a new `readyState`. -/
def setReadyState (r : SocketRef) (rs : ReadyState) (st : LiveState) : LiveState :=
  match r with
  | .current => { st with wsRef := st.wsRef.map (fun ws => { ws with readyState := rs }) }
  | .detached i =>
      { st with detached := st.detached.modify (fun ws => { ws with readyState := rs }) i }

/-- One event: the browser-side change followed by the handler the page registered. -/
def step [Browser] (cfg : Config) (st : LiveState) : Event → LiveState
  | .clickStart => startSession_call cfg st
  | .createDone now result => startSession_resume cfg now result st
  | .clickEnd => endSession_call cfg st
  | .endDone result => endSession_resume result st
  | .features f => handleFeatures f st
  | .tick now => sendQueuedFeatures now st
  | .durationTimer now => durationTick now st
  | .wsOpen r => ws_onopen (setReadyState r .OPEN st)
  | .wsMessage _ payload => ws_onmessage payload st
  | .wsError r => ws_onerror (setReadyState r .CLOSED st)
  | .wsClose r => ws_onclose (setReadyState r .CLOSED st)

/-- Whether an event can happen in a state: a button can be clicked when it is
rendered and not disabled, a continuation resumes when it is suspended, a timer
fires when it is armed, a socket event follows the socket's `readyState`. The
capture component may deliver features at any time. -/
def enabled (st : LiveState) : Event → Bool
  | .clickStart => mounted st && startButtonRendered st && !startButtonDisabled st
  | .createDone _ _ => mounted st && st.awaiting.contains .startSession
  | .clickEnd => mounted st && endButtonRendered st
  | .endDone _ => mounted st && st.awaiting.contains .endSession
  | .features _ => mounted st
  | .tick _ => mounted st && !st.timers.isEmpty
  | .durationTimer _ =>
      mounted st && st.isActive && (match st.startTime with | some t => t != 0 | none => false)
  | .wsOpen r => mounted st && readyStateOf r st == some .CONNECTING
  | .wsMessage r _ => mounted st && readyStateOf r st == some .OPEN
  | .wsError r => mounted st && (readyStateOf r st).isSome
  | .wsClose r => mounted st && (readyStateOf r st).isSome

/-- Run a list of events, enabled or not. -/
def run [Browser] (cfg : Config) (st : LiveState) (evs : List Event) : LiveState :=
  evs.foldl (step cfg) st

/-- Run a list of events, failing at the first one that is not enabled. -/
def trace [Browser] (cfg : Config) : LiveState → List Event → Option LiveState
  | st, [] => some st
  | st, ev :: evs => if enabled st ev then trace cfg (step cfg st ev) evs else none

/-- States a mounted Live page can be in. -/
inductive Reachable [Browser] (cfg : Config) : LiveState → Prop where
  | init : Reachable cfg LiveState.initial
  | step {st : LiveState} (ev : Event) :
      Reachable cfg st → enabled st ev = true → Reachable cfg (step cfg st ev)

/-- The callback `handleFeatures` called once per frame of `fs`, in order. -/
def offerAll (fs : List FeatureFrame) (st : LiveState) : LiveState :=
  fs.foldl (fun s f => handleFeatures f s) st

/-- Whether an event is a `handleFeatures` call. -/
def Event.isFeatures : Event → Bool
  | .features _ => true
  | _ => false

/-! ## `CameraCapture.jsx`: acquiring the camera -/

/-- A camera stream handed out by `getUserMedia`. -/
structure MediaStream where
  id : Nat
deriving DecidableEq, Repr

/-- State of a mounted `CameraCapture`: its `useState` cells, the effect-local
`stream`, the `srcObject` of its video element and the `lastFeaturesRef` slot. -/
structure CameraCaptureState where
  isLoading : Bool
  error : Option String
  faceDetected : Bool
  stream : Option MediaStream
  srcObject : Option MediaStream
  lastFeaturesRef : FeatureFrame
  consoleErrors : List String
deriving DecidableEq, Repr

/-- A freshly mounted `CameraCapture` (CameraCapture.jsx 5-13). -/
def CameraCaptureState.initial : CameraCaptureState :=
  { isLoading := true
    error := none
    faceDetected := false
    stream := none
    srcObject := none
    lastFeaturesRef := ⟨[], []⟩
    consoleErrors := [] }

/-- The function `setupCamera()` (CameraCapture.jsx 21-41) up to the registration of
`onloadedmetadata`; `gum` is the outcome of `getUserMedia` (`none`: rejected). The
video element is in place when the effect runs. -/
def setupCamera (gum : Option MediaStream) (cam : CameraCaptureState) : CameraCaptureState :=
  match gum with
  | some s => { cam with stream := some s, srcObject := some s }
  | none =>
      { cam with
        consoleErrors := cam.consoleErrors ++ ["Camera access error:"]
        error := some "Camera access denied. Please allow camera permissions."
        isLoading := false }

/-- The effect of `CameraCapture` (CameraCapture.jsx 15-16, 141): nothing unless
`isActive`, else `setupCamera()`. -/
def CameraCapture_effect (isActive : Bool) (gum : Option MediaStream)
    (cam : CameraCaptureState) : CameraCaptureState :=
  if !isActive then cam else setupCamera gum cam

/-- The Live page with the `CameraCapture` it renders, if any. -/
structure Page where
  live : LiveState
  camera : Option CameraCaptureState

/-- The page right after `Live` is mounted: no session, no camera component. -/
def Page.initial : Page := { live := LiveState.initial, camera := none }

/-- React commits the render of `Live` that follows a change of `isActive`:
`CameraCapture` is mounted with the prop `isActive` exactly in the `isActive`
branch (Live.jsx 225-226), and once mounted its effect runs, with `gum` the outcome
of the camera request it may make. -/
def Page.mountCamera (gum : Option MediaStream) (p : Page) : Page :=
  if cameraRendered p.live then
    { p with camera := some (CameraCapture_effect p.live.isActive gum CameraCaptureState.initial) }
  else { p with camera := none }

/-- The configuration built from an empty environment. -/
def defaultConfig : Config := config ⟨none, none⟩

/-! ## `featureExtraction.js` and the extractor callbacks of `CameraCapture.jsx` -/

/-- A landmark delivered by MediaPipe. Face landmarks carry no `visibility`
(`none`, the JavaScript `undefined`). -/
structure Landmark where
  x : Rat
  y : Rat
  z : Rat
  visibility : Option Rat
deriving DecidableEq, Repr

/-- The `results` object handed to an `onResults` callback; a property that is
missing is `none`. `multiFaceLandmarks` holds one landmark list per detected face. -/
structure Results where
  multiFaceLandmarks : Option (List (List Landmark))
  poseLandmarks : Option (List Landmark)
deriving DecidableEq, Repr

/-- The function `extractFaceKeypoints(results)` (featureExtraction.js 66-77). -/
def extractFaceKeypoints (results : Results) : List Rat :=
  match results.multiFaceLandmarks with
  | none => []
  | some [] => []
  | some (landmarks :: _) => landmarks.flatMap (fun lm => [lm.x, lm.y, lm.z])

/-- JavaScript `v || 0` on a number that may be missing: a missing and a zero value
both give 0. -/
def orZero (v : Option Rat) : Rat :=
  match v with
  | some x => if x = 0 then 0 else x
  | none => 0

/-- The function `extractPoseKeypoints(results)` (featureExtraction.js 82-93). -/
def extractPoseKeypoints (results : Results) : List Rat :=
  match results.poseLandmarks with
  | none => []
  | some landmarks => landmarks.flatMap (fun lm => [lm.x, lm.y, lm.z, orZero lm.visibility])

/-- The function `combineFeatures(faceKeypoints, poseKeypoints)`
(featureExtraction.js 98-103). -/
def combineFeatures (faceKeypoints poseKeypoints : List Rat) : FeatureFrame :=
  { face_kp := faceKeypoints, pose_kp := poseKeypoints }

/-- The function `sendFeatures()` (CameraCapture.jsx 94-103): the list of calls it
makes to `onFeatures`, each given by its argument. `Live` always passes
`handleFeatures` as `onFeatures`, so the prop is there. -/
def sendFeatures (cam : CameraCaptureState) : List FeatureFrame :=
  let features := combineFeatures cam.lastFeaturesRef.face_kp cam.lastFeaturesRef.pose_kp
  if features.face_kp.length > 0 || features.pose_kp.length > 0 then [features] else []

/-- The callback `onFaceResults(results)` (CameraCapture.jsx 71-81): the new state of
the component and the calls made to `onFeatures`. Drawing on the canvas is not
part of the state. -/
def onFaceResults (results : Results) (cam : CameraCaptureState) :
    CameraCaptureState × List FeatureFrame :=
  let faceKeypoints := extractFaceKeypoints results
  let cam1 := { cam with lastFeaturesRef := { cam.lastFeaturesRef with face_kp := faceKeypoints } }
  let cam2 := { cam1 with faceDetected := decide (faceKeypoints.length > 0) }
  (cam2, sendFeatures cam2)

/-- The callback `onPoseResults(results)` (CameraCapture.jsx 83-92): the new state of
the component and the calls made to `onFeatures`. -/
def onPoseResults (results : Results) (cam : CameraCaptureState) :
    CameraCaptureState × List FeatureFrame :=
  let poseKeypoints := extractPoseKeypoints results
  let cam1 := { cam with lastFeaturesRef := { cam.lastFeaturesRef with pose_kp := poseKeypoints } }
  (cam1, sendFeatures cam1)

/-- Whether a frame is empty: both sequences are. -/
def FeatureFrame.isEmpty (f : FeatureFrame) : Bool :=
  f.face_kp.isEmpty && f.pose_kp.isEmpty

/-! ## `JSON.stringify` of an outbound message -/

/-- One lowercase hexadecimal digit. -/
def hexDigit (n : Nat) : Char :=
  if n < 10 then Char.ofNat (48 + n) else Char.ofNat (87 + n)

/-- Four hexadecimal digits of a code unit, as in a `\u` escape. -/
def hex4 (n : Nat) : List Char :=
  [hexDigit (n / 4096 % 16), hexDigit (n / 256 % 16), hexDigit (n / 16 % 16), hexDigit (n % 16)]

/-- One character of a string as `JSON.stringify` writes it between quotes. -/
def quoteChar (c : Char) : List Char :=
  if c == '"' then ['\\', '"']
  else if c == '\\' then ['\\', '\\']
  else if c.toNat == 0x08 then ['\\', 'b']
  else if c.toNat == 0x0C then ['\\', 'f']
  else if c == '\n' then ['\\', 'n']
  else if c == '\r' then ['\\', 'r']
  else if c == '\t' then ['\\', 't']
  else if c.toNat < 0x20 then '\\' :: 'u' :: hex4 c.toNat
  else [c]

/-- A string as `JSON.stringify` writes it: quoted, with the escapes of JSON. -/
def quoteString (s : String) : List Char :=
  '"' :: s.toList.flatMap quoteChar ++ ['"']

/-- Texts separated by commas. -/
def joinComma : List (List Char) → List Char
  | [] => []
  | [x] => x
  | x :: y :: rest => x ++ ',' :: joinComma (y :: rest)

/-- An array of numbers as `JSON.stringify` writes it. How a single number is
written is the business of the built-in `Number::toString`, an argument here. -/
def stringifyNumbers (numberToString : Rat → String) (xs : List Rat) : List Char :=
  '[' :: joinComma (xs.map (fun q => (numberToString q).toList)) ++ [']']

/-- One member of an object: the quoted key, a colon, the value. -/
def stringifyMember (key : String) (value : List Char) : List Char :=
  quoteString key ++ ':' :: value

/-- An object as `JSON.stringify` writes it, from its members in insertion order. -/
def stringifyObject (members : List (List Char)) : List Char :=
  '{' :: joinComma members ++ ['}']

/-- The text `JSON.stringify` makes of a frame built by `combineFeatures`. -/
def stringifyFrame (numberToString : Rat → String) (f : FeatureFrame) : List Char :=
  stringifyObject
    [stringifyMember "face_kp" (stringifyNumbers numberToString f.face_kp),
     stringifyMember "pose_kp" (stringifyNumbers numberToString f.pose_kp)]

/-- The text `JSON.stringify` makes of the object literal in `sendQueuedFeatures`
(Live.jsx 125-129): the members `type`, `timestamp`, `features`, in this order. -/
def JSON_stringify (numberToString : Rat → String) (m : OutboundMessage) : String :=
  String.mk
    (stringifyObject
      [stringifyMember "type" (quoteString m.type),
       stringifyMember "timestamp" (numberToString (m.timestamp : Rat)).toList,
       stringifyMember "features" (stringifyFrame numberToString m.features)])

/-- What may follow a value inside an array or an object: nothing, a comma or a
closing bracket. -/
def Follow (rest : List Char) : Prop :=
  ∀ c, rest.head? = some c → c = ',' ∨ c = ']' ∨ c = '}'

/-- The text `s` is a JSON number that reads back as `q`: it is read as one decimal
literal, whatever follows it inside an array or an object, and that literal
denotes `q`. For the text JavaScript writes for a finite number this is what
`Number::toString` guarantees. -/
def ReadsBackAs (s : String) (q : Rat) : Prop :=
  ∃ d : Decimal, d.toRat = q ∧
    ∀ rest : List Char, Follow rest → parseNumber (s.toList ++ rest) = some (d, rest)

/-- The text `txt` parses to the value `v` with any fuel from `n` on, whatever
follows it inside an array or an object. -/
def Parses (txt : List Char) (v : Json) (n : Nat) : Prop :=
  ∀ fuel rest, n ≤ fuel → Follow rest → parseValue fuel (txt ++ rest) = some (v, rest)

/-- Characters that a JSON string holds as they are: no quote, no backslash, no
control character. -/
def PlainText (cs : List Char) : Prop :=
  ∀ c ∈ cs, (c == '"') = false ∧ (c == '\\') = false ∧ ¬ c.toNat < 0x20

/-- The numbers of a parsed array of numbers. -/
def Json.toNumbers : Json → Option (List Rat)
  | .arr items =>
      items.foldr
        (fun j acc =>
          match j, acc with
          | .num d, some xs => some (d.toRat :: xs)
          | _, _ => none)
        (some [])
  | _ => none

/-- The frame held by a parsed `features` value. -/
def Json.toFrame (j : Json) : Option FeatureFrame :=
  match j.getProp (utf16 "face_kp"), j.getProp (utf16 "pose_kp") with
  | .value a, .value b =>
      match a.toNumbers, b.toNumbers with
      | some face, some pose => some ⟨face, pose⟩
      | _, _ => none
  | _, _ => none

/-- Deserialising an outbound text and reading its `features`. -/
def featuresOf (text : String) : Option FeatureFrame :=
  match JSON_parse text with
  | some data =>
      match data.getProp (utf16 "features") with
      | .value v => v.toFrame
      | _ => none
  | none => none

/-- A number printer for the sample frame: 0.1, 0.2 and 0.3 in their JavaScript
spelling, and the sample timestamp 1500 for everything else. -/
def samplePrinter (q : Rat) : String :=
  if q = 1 / 10 then "0.1" else if q = 1 / 5 then "0.2" else if q = 3 / 10 then "0.3" else "1500"

/-! ## `formatDuration` of `Live.jsx` and `stressLevel` of `LiveMoodCard.jsx` -/

/-- The method `padStart(targetLength, padString)` of a string, for a pad string of
one character. -/
def padStart (targetLength : Nat) (padChar : Char) (s : String) : String :=
  String.mk (List.replicate (targetLength - s.length) padChar) ++ s

/-- The decimal digits of an integer, after a minus sign when it is negative. The
method `toString()` of a number gives exactly this for an integer of magnitude
below `2 ^ 53`. -/
def intToString : Int → String
  | .ofNat m => Nat.repr m
  | .negSucc m => "-" ++ Nat.repr (m + 1)

/-- The integer nearest to `num / den`; of two equally near the even one. -/
def roundHalfEven (num den : Nat) : Nat :=
  let q := num / den
  let r := num % den
  if 2 * r < den then q
  else if den < 2 * r then q + 1
  else if q % 2 = 0 then q else q + 1

/-- A finite number in its binary64 form: the value is `mant * 2 ^ exp`. -/
structure Double where
  mant : Int
  exp : Int
deriving DecidableEq, Repr

/-- The position of the leading bit of `n`: the `k` with `2 ^ k ≤ n < 2 ^ (k + 1)`
for a positive `n`, given `fuel` of at least `n`. -/
def log2Floor (fuel n : Nat) : Nat :=
  match fuel with
  | 0 => 0
  | fuel + 1 => if n < 2 then 0 else log2Floor fuel (n / 2) + 1

/-- The binade of the quotient of two positive integers: the `e` with
`2 ^ e ≤ a / b < 2 ^ (e + 1)`. -/
def binade (a b : Nat) : Int :=
  let d : Int := (log2Floor a a : Int) - (log2Floor b b : Int)
  if a * 2 ^ (-d).toNat < b * 2 ^ d.toNat then d - 1 else d

/-- The operator `/` on two numbers that hold integers, the divisor positive: the
quotient is rounded to the nearest number with 53 significant bits, a tie going to
the even one (IEEE 754 binary64; the quotients met here are in the normal range). -/
def Number.divide (a : Int) (b : Nat) : Double :=
  if a = 0 then ⟨0, 0⟩
  else
    let e := binade a.natAbs b - 52
    let m := roundHalfEven (a.natAbs * 2 ^ (-e).toNat) (b * 2 ^ e.toNat)
    ⟨if a < 0 then -(m : Int) else (m : Int), e⟩

/-- The function `Math.floor`. -/
def Math.floor (x : Double) : Int :=
  if 0 ≤ x.exp then x.mant * 2 ^ x.exp.toNat else Int.fdiv x.mant (2 ^ (-x.exp).toNat)

/-- The function `formatDuration(seconds)` (Live.jsx 159-163), for `seconds` a number
that holds an integer (an integer no number can hold is no argument of the
function). The quotient `seconds / 60` is a rounded one; `%` is the exact
remainder with the sign of the dividend; `numberToString` is the built-in
`toString()` of a number, applied to the two integers. -/
def formatDuration (numberToString : Int → String) (seconds : Int) : String :=
  let mins := Math.floor (Number.divide seconds 60)
  let secs := Int.tmod seconds 60
  padStart 2 '0' (numberToString mins) ++ ":" ++ padStart 2 '0' (numberToString secs)

/-- Reading a text of the form minutes, colon, seconds: the two numbers. -/
def parseDuration (text : String) : Option (Nat × Nat) :=
  match text.toList.span (fun c => c != ':') with
  | (m, ':' :: t) => some (digitsToNat m, digitsToNat t)
  | _ => none

/-- The `prediction` prop of `LiveMoodCard`, as far as `stressLevel` reads it: the
property `stress_score`, a number as the protocol declares it, or missing. -/
structure Prediction where
  stress_score : Option Rat
deriving DecidableEq, Repr

/-- The memoised value `stressLevel` (LiveMoodCard.jsx 24-29); `none` is the
`null` prediction. A missing and a zero score are falsy. -/
def stressLevel (prediction : Option Prediction) : String :=
  match prediction with
  | none => "low"
  | some p =>
      match p.stress_score with
      | none => "low"
      | some score =>
          if score = 0 then "low"
          else if score > 7 / 10 then "high"
          else if score > 4 / 10 then "moderate"
          else "low"

/-- The order of the stress levels: low, moderate, high. -/
def levelRank (level : String) : Nat :=
  if level = "high" then 2 else if level = "moderate" then 1 else 0

/-! ## Sample states and invariants used below -/

/-- A state with an open channel, an empty buffer and nothing sent yet. -/
def openState : LiveState :=
  { LiveState.initial with
    sessionId := some "abc123"
    isActive := true
    connectionStatus := "connected"
    startTime := some 1000
    wsRef := some ⟨"ws://localhost:8000/ws/abc123", .OPEN⟩
    sendIntervalRef := some 1
    timers := [⟨1, 500⟩]
    nextTimerId := 2
    requests := [⟨"POST", "http://localhost:8000/api/v1/sessions"⟩] }

/-- The first moments of a session: Start clicked, the session `abc123` created at
time 1000, the channel still connecting. -/
def startedState : LiveState :=
  run defaultConfig LiveState.initial
    [.clickStart, .createDone 1000 (.created (some "abc123"))]

/-- What holds of the session flags, the send timers and the sockets in every
state a mounted page can reach. -/
structure Inv (st : LiveState) : Prop where
  idle_timers : st.isActive = false → st.timers = []
  active_timer : st.isActive = true →
    ∃ id ms, id ≠ 0 ∧ st.sendIntervalRef = some id ∧ st.timers = [⟨id, ms⟩]
  pending : Continuation.startSession ∈ st.awaiting →
    st.isActive = false ∧ st.isConnecting = true
  pending_once : st.awaiting.count Continuation.startSession ≤ 1
  detached_ok : ∀ ws ∈ st.detached, ws.readyState ≠ .CONNECTING
  current_ok : st.isActive = false → ∀ ws, st.wsRef = some ws → ws.readyState ≠ .CONNECTING
  next_pos : st.nextTimerId ≠ 0

/-- A session in full swing: `startedState` after its channel has opened. -/
def activeState : LiveState :=
  run defaultConfig startedState [.wsOpen .current]

/-- A session whose end was requested and whose end-session request is in flight. -/
def endingState : LiveState :=
  run defaultConfig activeState [.clickEnd]

/-- A page that shows a disabled Start button and has nothing left that could
enable it: idle, `isConnecting` still true, no `startSession` call in flight, no
socket still connecting. -/
structure Stuck (st : LiveState) : Prop where
  idle : st.isActive = false
  connecting : st.isConnecting = true
  no_pending : Continuation.startSession ∉ st.awaiting
  detached_ok : ∀ ws ∈ st.detached, ws.readyState ≠ .CONNECTING
  current_ok : ∀ ws, st.wsRef = some ws → ws.readyState ≠ .CONNECTING

/-- The page once the session `abc123` has been created. -/
def startedPage : Page := { live := startedState, camera := none }

/-- Whether a parsed payload has a `type` property equal to `"prediction"`. -/
def hasPredictionType (data : Json) : Bool :=
  match data.getProp (utf16 "type") with
  | .value (.str s) => s == utf16 "prediction"
  | _ => false

/-- The prediction message of the happy path. -/
def happyPayload : String :=
  "\x7b\"type\":\"prediction\",\"emotion\":\"happy\",\"emotion_prob\":\x7b\"happy\":0.8,\"neutral\":0.2\x7d,\"stress_score\":0.3,\"advice\":\"Take a break\"\x7d"

/-- The value `happyPayload` parses to. -/
def happyData : Json :=
  .obj
    [(utf16 "type", .str (utf16 "prediction")),
     (utf16 "emotion", .str (utf16 "happy")),
     (utf16 "emotion_prob",
        .obj [(utf16 "happy", .num ⟨8, -1⟩), (utf16 "neutral", .num ⟨2, -1⟩)]),
     (utf16 "stress_score", .num ⟨3, -1⟩),
     (utf16 "advice", .str (utf16 "Take a break"))]

/-- A run of one mounted page in which a frame outlives its session: the first
session (`abc123`) loses its channel, a frame is offered and a tick finds the
channel closed; the session is ended (the end-session request fails, so the page
stays); a second session (`xyz789`) is started, its channel opens, and a tick
fires. -/
def staleRun : List Event :=
  [.clickStart, .createDone 1000 (.created (some "abc123")), .wsOpen .current,
   .wsClose .current, .features ⟨[3], [4]⟩, .tick 1600,
   .clickEnd, .endDone .rejected,
   .clickStart, .createDone 3000 (.created (some "xyz789")), .wsOpen .current, .tick 3500]

/-! ## The parser does not depend on spare fuel -/

theorem parse_fuel_succ (fuel : Nat) :
    (∀ cs r, parseValue fuel cs = some r → parseValue (fuel + 1) cs = some r) ∧
      (∀ cs acc r, parseElements fuel cs acc = some r →
        parseElements (fuel + 1) cs acc = some r) ∧
      (∀ cs acc r, parseMembers fuel cs acc = some r →
        parseMembers (fuel + 1) cs acc = some r) := by
  induction fuel with
  | zero => simp [parseValue, parseElements, parseMembers]
  | succ n ih =>
      obtain ⟨ihV, ihE, ihM⟩ := ih
      refine ⟨?_, ?_, ?_⟩
      · intro cs r h
        rw [parseValue] at h ⊢
        split at h
        · simp at h
        · rename_i c rest heq
          split_ifs at h ⊢ with h1 h2 h3 h4 h5 h6 h7
          · exact h
          · exact h
          · exact h
          · exact h
          · split at h
            · exact h
            · exact ihE _ _ _ h
          · split at h
            · exact h
            · exact ihM _ _ _ h
          · exact h
      · intro cs acc r h
        rw [parseElements] at h ⊢
        cases hv : parseValue n cs with
        | none => simp [hv] at h
        | some p =>
            obtain ⟨v, rest⟩ := p
            rw [ihV _ _ hv]
            simp only [hv] at h ⊢
            split at h
            · exact ihE _ _ _ h
            · exact h
            · simp at h
      · intro cs acc r h
        rw [parseMembers] at h ⊢
        split at h
        · split at h
          · simp at h
          · split at h
            · rename_i r2 _
              cases hv : parseValue n r2 with
              | none => simp [hv] at h
              | some p =>
                  obtain ⟨v, rest⟩ := p
                  rw [ihV _ _ hv]
                  simp only [hv] at h ⊢
                  split at h
                  · exact ihM _ _ _ h
                  · exact h
                  · simp at h
            · simp at h
        · simp at h

/-- A value parsed with some fuel is the value parsed with any larger fuel: `fuel`
only bounds the descent, it never changes a result. -/
theorem parseValue_fuel_mono (fuel fuel' : Nat) (hle : fuel ≤ fuel') (cs : List Char)
    (r : Json × List Char) (h : parseValue fuel cs = some r) :
    parseValue fuel' cs = some r := by
  induction hle with
  | refl => exact h
  | step _ ih => exact (parse_fuel_succ _).1 cs r ih

/-! ## Feature buffer -/

theorem offerAll_append (fs : List FeatureFrame) (st : LiveState) :
    offerAll fs st = { st with featureQueueRef := st.featureQueueRef ++ fs } := by
  induction fs generalizing st with
  | nil => simp [offerAll]
  | cons f fs ih =>
      have h := ih (handleFeatures f st)
      simp only [offerAll, List.foldl_cons] at h ⊢
      rw [h]
      simp [handleFeatures]

theorem step_queue_of_not_features [Browser] (cfg : Config) (st : LiveState) (ev : Event)
    (hev : ev.isFeatures = false) (hq : st.featureQueueRef = []) :
    (step cfg st ev).featureQueueRef = [] ∧ (step cfg st ev).wire = st.wire := by
  cases ev with
  | features f => simp [Event.isFeatures] at hev
  | clickStart => simp [step, startSession_call, hq]
  | createDone now result =>
      cases result with
      | created sid =>
          by_cases ha : Browser.accepts (cfg.wsUrl ++ "/ws/" ++ templateText sid) = true <;>
            simp [step, startSession_resume, connectWebSocket, setInterval, hq, ha]
      | networkError => simp [step, startSession_resume, hq]
      | notOk => simp [step, startSession_resume, hq]
      | badBody => simp [step, startSession_resume, hq]
  | clickEnd =>
      simp only [step, endSession_call]
      split <;> split <;> split <;> (try split) <;> simp_all [clearInterval]
  | endDone result => cases result <;> simp [step, endSession_resume, navigate, hq]
  | tick now =>
      simp only [step, sendQueuedFeatures]
      split
      · simp [hq]
      · split
        · simp [hq]
        · simp [hq]
  | durationTimer now =>
      simp only [step, durationTick]
      split <;> simp [hq]
  | wsOpen r => cases r <;> simp [step, ws_onopen, setReadyState, hq]
  | wsMessage r payload =>
      simp only [step, ws_onmessage]
      split
      · simp [hq]
      · split
        · simp [hq]
        · simp [hq]
        · split
          · split <;> simp [hq]
          · simp [hq]
  | wsError r => cases r <;> simp [step, ws_onerror, setReadyState, hq]
  | wsClose r => cases r <;> simp [step, ws_onclose, setReadyState, hq]

theorem run_queue_of_no_features [Browser] (cfg : Config) (evs : List Event) (st : LiveState)
    (hevs : ∀ ev ∈ evs, ev.isFeatures = false) (hq : st.featureQueueRef = []) :
    (run cfg st evs).featureQueueRef = [] ∧ (run cfg st evs).wire = st.wire := by
  induction evs generalizing st with
  | nil => simp [run, hq]
  | cons ev evs ih =>
      have h1 := step_queue_of_not_features cfg st ev (hevs ev (by simp)) hq
      have h2 := ih (step cfg st ev) (fun e he => hevs e (by simp [he])) h1.1
      simp only [run, List.foldl_cons] at h2 ⊢
      exact ⟨h2.1, h2.2.trans h1.2⟩

theorem sendQueuedFeatures_wire_ne (now : Nat) (st : LiveState)
    (h : (sendQueuedFeatures now st).wire ≠ st.wire) :
    (sendQueuedFeatures now st).featureQueueRef = [] := by
  unfold sendQueuedFeatures at h ⊢
  split
  · simp_all
  · split
    · simp_all
    · split <;> simp_all

/-- C1 (coalescing). In any state whose channel is open, after `handleFeatures` has
been called with the frames `fs` followed by `fn` (so with at least one frame), a
send tick transmits exactly one message, on the channel of the session, whose
`features` field is `fn`, the frame offered last; nothing else is transmitted and
the buffer is left empty. -/
theorem C1_coalescing (st : LiveState) (ws : WebSocket) (now : Nat)
    (fs : List FeatureFrame) (fn : FeatureFrame)
    (hws : st.wsRef = some ws) (hopen : ws.readyState = .OPEN) :
    (sendQueuedFeatures now (offerAll (fs ++ [fn]) st)).wire
        = st.wire ++ [(ws.url, ⟨"features", now, fn⟩)] ∧
      (sendQueuedFeatures now (offerAll (fs ++ [fn]) st)).featureQueueRef = [] := by
  rw [offerAll_append]
  simp [sendQueuedFeatures, hws, hopen, ← List.append_assoc]

theorem C1_coalescing_witness :
    (sendQueuedFeatures 1500
        (offerAll ([⟨[1], []⟩, ⟨[2], []⟩] ++ [⟨[3], [4]⟩]) openState)).wire
        = openState.wire ++
          [("ws://localhost:8000/ws/abc123", ⟨"features", 1500, ⟨[3], [4]⟩⟩)] ∧
      (sendQueuedFeatures 1500
        (offerAll ([⟨[1], []⟩, ⟨[2], []⟩] ++ [⟨[3], [4]⟩]) openState)).featureQueueRef = [] :=
  C1_coalescing openState ⟨"ws://localhost:8000/ws/abc123", .OPEN⟩ 1500
    [⟨[1], []⟩, ⟨[2], []⟩] ⟨[3], [4]⟩ rfl rfl

/-- C2 (no double-send, empty interval). Once a send tick has transmitted a frame,
whatever happens afterwards short of a `handleFeatures` call (further ticks
included) transmits nothing more; and from the initial state, with no
`handleFeatures` call, nothing is ever transmitted and the buffer stays empty (in
particular by a tick). -/
theorem C2_no_double_send [Browser] (cfg : Config) (st : LiveState) (now : Nat) (evs : List Event)
    (hevs : ∀ ev ∈ evs, ev.isFeatures = false) :
    ((sendQueuedFeatures now st).wire ≠ st.wire →
        (run cfg (sendQueuedFeatures now st) evs).wire = (sendQueuedFeatures now st).wire) ∧
      (run cfg LiveState.initial evs).wire = [] ∧
      (run cfg LiveState.initial evs).featureQueueRef = [] ∧
      (sendQueuedFeatures now LiveState.initial).wire = [] ∧
      (sendQueuedFeatures now LiveState.initial).featureQueueRef = [] := by
  refine ⟨fun h => ?_, ?_, ?_, ?_, ?_⟩
  · exact (run_queue_of_no_features cfg evs _ hevs (sendQueuedFeatures_wire_ne now st h)).2
  · exact (run_queue_of_no_features cfg evs _ hevs rfl).2
  · exact (run_queue_of_no_features cfg evs _ hevs rfl).1
  · rfl
  · rfl

theorem C2_no_double_send_witness :
    (∀ ev ∈ [Event.tick 2000, Event.wsClose .current, Event.tick 2500], ev.isFeatures = false) ∧
      (sendQueuedFeatures 1500 (handleFeatures ⟨[3], [4]⟩ openState)).wire
        ≠ (handleFeatures ⟨[3], [4]⟩ openState).wire ∧
      (run defaultConfig (sendQueuedFeatures 1500 (handleFeatures ⟨[3], [4]⟩ openState))
          [Event.tick 2000, Event.wsClose .current, Event.tick 2500]).wire
        = (sendQueuedFeatures 1500 (handleFeatures ⟨[3], [4]⟩ openState)).wire :=
  have h1 : ∀ ev ∈ [Event.tick 2000, Event.wsClose .current, Event.tick 2500],
      ev.isFeatures = false := by simp [Event.isFeatures]
  have h2 : (sendQueuedFeatures 1500 (handleFeatures ⟨[3], [4]⟩ openState)).wire
      ≠ (handleFeatures ⟨[3], [4]⟩ openState).wire := by
    simp [sendQueuedFeatures, handleFeatures, openState, LiveState.initial]
  ⟨h1, h2, (C2_no_double_send defaultConfig (handleFeatures ⟨[3], [4]⟩ openState) 1500
    [Event.tick 2000, Event.wsClose .current, Event.tick 2500] h1).1 h2⟩

/-! ## Reachable states -/

theorem reachable_of_trace [Browser] (cfg : Config) (evs : List Event) (st st' : LiveState)
    (hst : Reachable cfg st) (h : trace cfg st evs = some st') : Reachable cfg st' := by
  induction evs generalizing st with
  | nil =>
      simp only [trace, Option.some.injEq] at h
      exact h ▸ hst
  | cons ev evs ih =>
      simp only [trace] at h
      split at h
      · rename_i hen
        exact ih _ (Reachable.step ev hst hen) h
      · simp at h

theorem trace_eq_run [Browser] (cfg : Config) (evs : List Event) (st st' : LiveState)
    (h : trace cfg st evs = some st') : st' = run cfg st evs := by
  induction evs generalizing st with
  | nil =>
      simp only [trace, Option.some.injEq] at h
      simp [run, h]
  | cons ev evs ih =>
      simp only [trace] at h
      split at h
      · simpa [run] using ih _ h
      · simp at h

theorem startedState_reachable : Reachable defaultConfig startedState :=
  reachable_of_trace defaultConfig
    [.clickStart, .createDone 1000 (.created (some "abc123"))] LiveState.initial _
    Reachable.init rfl

/-- C3, as stated, fails: after a session has started, two `handleFeatures` calls
with no tick in between leave two frames in the buffer. -/
theorem C3_counterexample :
    Reachable defaultConfig
        (run defaultConfig startedState [.features ⟨[1], []⟩, .features ⟨[1], [2]⟩]) ∧
      ¬ ((run defaultConfig startedState
          [.features ⟨[1], []⟩, .features ⟨[1], [2]⟩]).featureQueueRef.length ≤ 1) :=
  ⟨reachable_of_trace defaultConfig [.features ⟨[1], []⟩, .features ⟨[1], [2]⟩]
      startedState _ startedState_reachable rfl, by decide⟩

/-- C3, amended. The buffer is an array to which every `handleFeatures` call
appends: after the frames `fs` it holds `fs.length` more frames than before, so it
can hold more than one. A send tick either leaves the whole state as it is or
empties the buffer while transmitting exactly one message, carrying the frame
offered last; with the channel open the buffer is empty after the tick. -/
theorem C3_buffer_is_a_queue (st : LiveState) (fs : List FeatureFrame) (now : Nat) :
    (offerAll fs st).featureQueueRef = st.featureQueueRef ++ fs ∧
      (offerAll fs st).featureQueueRef.length = st.featureQueueRef.length + fs.length ∧
      (sendQueuedFeatures now st = st ∨
        ∃ ws f, st.wsRef = some ws ∧ st.featureQueueRef.getLast? = some f ∧
          (sendQueuedFeatures now st).featureQueueRef = [] ∧
          (sendQueuedFeatures now st).wire = st.wire ++ [(ws.url, ⟨"features", now, f⟩)]) ∧
      (∀ ws, st.wsRef = some ws → ws.readyState = .OPEN →
        (sendQueuedFeatures now st).featureQueueRef = []) := by
  refine ⟨by rw [offerAll_append], by rw [offerAll_append]; simp, ?_, ?_⟩
  · cases hws : st.wsRef with
    | none => exact Or.inl (by simp [sendQueuedFeatures, hws])
    | some ws =>
        by_cases hopen : ws.readyState = .OPEN
        · cases hq : st.featureQueueRef.getLast? with
          | none => exact Or.inl (by simp [sendQueuedFeatures, hws, hq])
          | some f =>
              exact Or.inr ⟨ws, f, rfl, rfl, by simp [sendQueuedFeatures, hws, hopen, hq],
                by simp [sendQueuedFeatures, hws, hopen, hq]⟩
        · exact Or.inl (by simp [sendQueuedFeatures, hws, hopen])
  · intro ws hws hopen
    unfold sendQueuedFeatures
    simp only [hws, hopen]
    cases hq : st.featureQueueRef.getLast? with
    | none => simpa using hq
    | some f => simp

theorem C3_buffer_is_a_queue_witness :
    (handleFeatures ⟨[3], [4]⟩ openState).wsRef
        = some ⟨"ws://localhost:8000/ws/abc123", .OPEN⟩ ∧
      (offerAll [⟨[1], []⟩, ⟨[2], []⟩] (handleFeatures ⟨[3], [4]⟩ openState)).featureQueueRef.length
        = (handleFeatures ⟨[3], [4]⟩ openState).featureQueueRef.length + 2 ∧
      (sendQueuedFeatures 1500 (handleFeatures ⟨[3], [4]⟩ openState)).featureQueueRef = [] :=
  ⟨rfl,
    (C3_buffer_is_a_queue (handleFeatures ⟨[3], [4]⟩ openState)
      [⟨[1], []⟩, ⟨[2], []⟩] 1500).2.1,
    (C3_buffer_is_a_queue (handleFeatures ⟨[3], [4]⟩ openState)
      [⟨[1], []⟩, ⟨[2], []⟩] 1500).2.2.2 ⟨"ws://localhost:8000/ws/abc123", .OPEN⟩ rfl rfl⟩

theorem mem_modify_of_forall {α : Type} (P : α → Prop) (f : α → α) (hf : ∀ a, P (f a))
    (l : List α) (i : Nat) (hl : ∀ a ∈ l, P a) : ∀ a ∈ l.modify f i, P a := by
  induction l generalizing i with
  | nil => simp
  | cons x xs ih =>
      cases i with
      | zero =>
          intro a ha
          simp only [List.modify_zero_cons, List.mem_cons] at ha
          rcases ha with rfl | ha
          · exact hf x
          · exact hl a (by simp [ha])
      | succ i =>
          intro a ha
          simp only [List.modify_succ_cons, List.mem_cons] at ha
          rcases ha with rfl | ha
          · exact hl a (by simp)
          · exact ih i (fun b hb => hl b (by simp [hb])) a ha

theorem inv_initial : Inv LiveState.initial where
  idle_timers := fun _ => rfl
  active_timer := fun h => by simp [LiveState.initial] at h
  pending := fun h => by simp [LiveState.initial] at h
  pending_once := by simp [LiveState.initial]
  detached_ok := fun ws h => by simp [LiveState.initial] at h
  current_ok := fun _ ws h => by simp [LiveState.initial] at h
  next_pos := by simp [LiveState.initial]

theorem inv_clickStart (cfg : Config) (st : LiveState) (h : Inv st)
    (hen : enabled st .clickStart = true) : Inv (startSession_call cfg st) := by
  simp only [enabled, startButtonRendered, startButtonDisabled, Bool.and_eq_true,
    Bool.not_eq_true'] at hen
  obtain ⟨⟨_, hact⟩, hconn⟩ := hen
  have hnot : Continuation.startSession ∉ st.awaiting := fun hm => by
    have := (h.pending hm).2
    simp [hconn] at this
  refine ⟨h.idle_timers, h.active_timer, fun _ => ⟨hact, rfl⟩, ?_, h.detached_ok,
    h.current_ok, h.next_pos⟩
  simp [startSession_call, List.count_eq_zero_of_not_mem hnot]

theorem inv_createDone [Browser] (cfg : Config) (st : LiveState) (now : Nat) (result : CreateResult)
    (h : Inv st) (hen : enabled st (.createDone now result) = true) :
    Inv (startSession_resume cfg now result st) := by
  have hmem : Continuation.startSession ∈ st.awaiting := by
    simp only [enabled, Bool.and_eq_true] at hen
    exact List.elem_iff.mp hen.2
  obtain ⟨hact, _⟩ := h.pending hmem
  have htim := h.idle_timers hact
  have hcount : (st.awaiting.erase Continuation.startSession).count Continuation.startSession = 0 := by
    have := h.pending_once
    rw [List.count_erase_self]
    omega
  have hnot : Continuation.startSession ∉ st.awaiting.erase Continuation.startSession :=
    List.count_eq_zero.mp hcount
  cases result with
  | created sid =>
      by_cases ha : Browser.accepts (cfg.wsUrl ++ "/ws/" ++ templateText sid) = true
      · refine ⟨?_, ?_, ?_, ?_, ?_, ?_, ?_⟩
        · simp [startSession_resume, connectWebSocket, setInterval, ha]
        · intro _
          exact ⟨st.nextTimerId, cfg.featureExtraction.extractionIntervalMs, h.next_pos,
            by simp [startSession_resume, connectWebSocket, setInterval, ha],
            by simp [startSession_resume, connectWebSocket, setInterval, htim, ha]⟩
        · intro hm
          exact absurd
            (by simpa [startSession_resume, connectWebSocket, setInterval, ha] using hm) hnot
        · simp [startSession_resume, connectWebSocket, setInterval, hcount, ha]
        · intro ws hws
          simp only [startSession_resume, connectWebSocket, setInterval, ha, ↓reduceIte,
            List.mem_append, Option.mem_toList, Option.mem_def] at hws
          rcases hws with hws | hws
          · exact h.detached_ok ws hws
          · exact h.current_ok hact ws hws
        · simp [startSession_resume, connectWebSocket, setInterval, ha]
        · simp [startSession_resume, connectWebSocket, setInterval, ha]
      · have e : startSession_resume cfg now (.created sid) st
            = { st with
                awaiting := st.awaiting.erase .startSession
                sessionId := sid
                consoleErrors := st.consoleErrors ++ ["Error starting session:"]
                alerts := st.alerts
                  ++ ["Failed to start session. Make sure the backend is running."]
                isConnecting := false } := by
          simp [startSession_resume, connectWebSocket, ha]
        rw [e]
        exact ⟨h.idle_timers, h.active_timer, fun hm => absurd hm hnot,
          by simp [hcount], h.detached_ok, h.current_ok, h.next_pos⟩
  | networkError =>
      exact ⟨h.idle_timers, h.active_timer,
        fun hm => absurd (by simpa [startSession_resume] using hm) hnot,
        by simp [startSession_resume, hcount], h.detached_ok, h.current_ok, h.next_pos⟩
  | notOk =>
      exact ⟨h.idle_timers, h.active_timer,
        fun hm => absurd (by simpa [startSession_resume] using hm) hnot,
        by simp [startSession_resume, hcount], h.detached_ok, h.current_ok, h.next_pos⟩
  | badBody =>
      exact ⟨h.idle_timers, h.active_timer,
        fun hm => absurd (by simpa [startSession_resume] using hm) hnot,
        by simp [startSession_resume, hcount], h.detached_ok, h.current_ok, h.next_pos⟩

theorem inv_clickEnd (cfg : Config) (st : LiveState) (h : Inv st)
    (hen : enabled st .clickEnd = true) : Inv (endSession_call cfg st) := by
  simp only [enabled, endButtonRendered, Bool.and_eq_true] at hen
  obtain ⟨id, ms, hid, href, htim⟩ := h.active_timer hen.2
  have hnot : Continuation.startSession ∉ st.awaiting := fun hm => by
    have := (h.pending hm).1
    simp [hen.2] at this
  have hcount : st.awaiting.count Continuation.startSession = 0 :=
    List.count_eq_zero_of_not_mem hnot
  have key : ∀ st3 : LiveState, st3.isActive = false → st3.timers = [] →
      st3.awaiting = st.awaiting → st3.detached = st.detached →
      (∀ ws, st3.wsRef = some ws → ws.readyState ≠ .CONNECTING) →
      st3.nextTimerId = st.nextTimerId →
      Inv (match truthySessionId st.sessionId with
        | some sid =>
            { st3 with
              requests := st3.requests ++
                [⟨"POST", cfg.apiUrl ++ "/api/v1/sessions/" ++ sid ++ "/end"⟩]
              awaiting := st3.awaiting ++ [.endSession] }
        | none => st3) := by
    intro st3 h1 h2 h3 h4 h5 h6
    cases truthySessionId st.sessionId with
    | none =>
        exact ⟨fun _ => h2, fun ha => by simp [h1] at ha, fun hm => absurd (h3 ▸ hm) hnot,
          by rw [h3, hcount]; exact Nat.zero_le _, fun ws hws => h.detached_ok ws (h4 ▸ hws),
          fun _ => h5, h6 ▸ h.next_pos⟩
    | some sid =>
        refine ⟨fun _ => h2, fun ha => by simp [h1] at ha, fun hm => ?_, ?_,
          fun ws hws => h.detached_ok ws (h4 ▸ hws), fun _ => h5, h6 ▸ h.next_pos⟩
        · simp only [List.mem_append, List.mem_singleton, h3] at hm
          rcases hm with hm | hm
          · exact absurd hm hnot
          · cases hm
        · simp [h3, hcount]
  unfold endSession_call
  apply key
  · cases hw : st.wsRef <;> simp [href, hid, clearInterval, hw]
  · cases hw : st.wsRef <;> simp [href, hid, clearInterval, hw, htim]
  · cases hw : st.wsRef <;> simp [href, hid, clearInterval, hw]
  · cases hw : st.wsRef <;> simp [href, hid, clearInterval, hw]
  · intro ws
    cases hw : st.wsRef with
    | none => simp [href, hid, clearInterval, hw]
    | some w =>
        simp only [href, hid, clearInterval, hw, ne_eq, not_false_eq_true, ↓reduceIte,
          Option.some.injEq]
        rintro rfl
        unfold WebSocket.close
        cases hr : w.readyState <;> simp [hr]
  · cases hw : st.wsRef <;> simp [href, hid, clearInterval, hw]

theorem inv_endDone (st : LiveState) (result : EndResult) (h : Inv st) :
    Inv (endSession_resume result st) := by
  have hmem : ∀ l : List Continuation,
      Continuation.startSession ∈ l.erase .endSession ↔ Continuation.startSession ∈ l :=
    fun l => List.mem_erase_of_ne (by decide)
  have hcount : (st.awaiting.erase Continuation.endSession).count Continuation.startSession
      = st.awaiting.count Continuation.startSession :=
    List.count_erase_of_ne (by decide) _
  cases result with
  | resolved =>
      exact ⟨h.idle_timers, h.active_timer,
        fun hm => h.pending ((hmem _).mp (by simpa [endSession_resume, navigate] using hm)),
        by simpa [endSession_resume, navigate, hcount] using h.pending_once,
        h.detached_ok, h.current_ok, h.next_pos⟩
  | rejected =>
      exact ⟨h.idle_timers, h.active_timer,
        fun hm => h.pending ((hmem _).mp (by simpa [endSession_resume, navigate] using hm)),
        by simpa [endSession_resume, navigate, hcount] using h.pending_once,
        h.detached_ok, h.current_ok, h.next_pos⟩

theorem inv_of_same (st st' : LiveState) (h : Inv st)
    (h1 : st'.isActive = st.isActive) (h2 : st'.timers = st.timers)
    (h3 : st'.sendIntervalRef = st.sendIntervalRef) (h4 : st'.awaiting = st.awaiting)
    (h5 : st'.isConnecting = st.isConnecting) (h6 : st'.detached = st.detached)
    (h7 : st'.wsRef = st.wsRef) (h8 : st'.nextTimerId = st.nextTimerId) : Inv st' where
  idle_timers := by rw [h1, h2]; exact h.idle_timers
  active_timer := by rw [h1, h2, h3]; exact h.active_timer
  pending := by rw [h1, h4, h5]; exact h.pending
  pending_once := by rw [h4]; exact h.pending_once
  detached_ok := by rw [h6]; exact h.detached_ok
  current_ok := by rw [h1, h7]; exact h.current_ok
  next_pos := by rw [h8]; exact h.next_pos

theorem sendQueuedFeatures_frame (now : Nat) (st : LiveState) :
    (sendQueuedFeatures now st).isActive = st.isActive ∧
      (sendQueuedFeatures now st).timers = st.timers ∧
      (sendQueuedFeatures now st).sendIntervalRef = st.sendIntervalRef ∧
      (sendQueuedFeatures now st).awaiting = st.awaiting ∧
      (sendQueuedFeatures now st).isConnecting = st.isConnecting ∧
      (sendQueuedFeatures now st).detached = st.detached ∧
      (sendQueuedFeatures now st).wsRef = st.wsRef ∧
      (sendQueuedFeatures now st).nextTimerId = st.nextTimerId ∧
      (sendQueuedFeatures now st).sessionId = st.sessionId ∧
      (sendQueuedFeatures now st).connectionStatus = st.connectionStatus := by
  unfold sendQueuedFeatures
  split
  · simp
  · split
    · simp
    · split <;> simp

theorem ws_onmessage_frame (payload : String) (st : LiveState) :
    (ws_onmessage payload st).isActive = st.isActive ∧
      (ws_onmessage payload st).timers = st.timers ∧
      (ws_onmessage payload st).sendIntervalRef = st.sendIntervalRef ∧
      (ws_onmessage payload st).awaiting = st.awaiting ∧
      (ws_onmessage payload st).isConnecting = st.isConnecting ∧
      (ws_onmessage payload st).detached = st.detached ∧
      (ws_onmessage payload st).wsRef = st.wsRef ∧
      (ws_onmessage payload st).nextTimerId = st.nextTimerId ∧
      (ws_onmessage payload st).sessionId = st.sessionId ∧
      (ws_onmessage payload st).connectionStatus = st.connectionStatus ∧
      (ws_onmessage payload st).featureQueueRef = st.featureQueueRef ∧
      (ws_onmessage payload st).wire = st.wire := by
  unfold ws_onmessage
  split
  · simp
  · split
    · simp
    · simp
    · split
      · split <;> simp
      · simp

theorem inv_setReadyState (r : SocketRef) (rs : ReadyState) (st : LiveState) (h : Inv st)
    (hrs : rs ≠ .CONNECTING) : Inv (setReadyState r rs st) := by
  cases r with
  | current =>
      refine ⟨h.idle_timers, h.active_timer, h.pending, h.pending_once, h.detached_ok, ?_,
        h.next_pos⟩
      intro _ ws hws
      simp only [setReadyState, Option.map_eq_some'] at hws
      obtain ⟨w, _, rfl⟩ := hws
      exact hrs
  | detached i =>
      refine ⟨h.idle_timers, h.active_timer, h.pending, h.pending_once, ?_, h.current_ok,
        h.next_pos⟩
      exact mem_modify_of_forall (fun ws => ws.readyState ≠ .CONNECTING)
        (fun ws => { ws with readyState := rs }) (fun _ => hrs) st.detached i h.detached_ok

theorem inv_wsOpen (st : LiveState) (r : SocketRef) (h : Inv st)
    (hen : enabled st (.wsOpen r) = true) : Inv (ws_onopen (setReadyState r .OPEN st)) := by
  simp only [enabled, Bool.and_eq_true, beq_iff_eq] at hen
  replace hen := hen.2
  have hact : st.isActive = true := by
    cases r with
    | current =>
        cases ha : st.isActive with
        | true => rfl
        | false =>
            cases hw : st.wsRef with
            | none => simp [readyStateOf, hw] at hen
            | some ws =>
                have := h.current_ok ha ws hw
                simp [readyStateOf, hw, this] at hen
    | detached i =>
        simp only [readyStateOf, Option.map_eq_some'] at hen
        obtain ⟨ws, hw, hr⟩ := hen
        exact absurd hr (h.detached_ok ws (List.get?_mem hw))
  have h0 := inv_setReadyState r .OPEN st h (by decide)
  have hact0 : (setReadyState r .OPEN st).isActive = true := by
    cases r <;> simpa [setReadyState] using hact
  refine ⟨h0.idle_timers, h0.active_timer, fun hm => ?_, h0.pending_once, h0.detached_ok,
    h0.current_ok, h0.next_pos⟩
  have := (h0.pending hm).1
  simp [hact0] at this

theorem inv_step [Browser] (cfg : Config) (st : LiveState) (ev : Event) (h : Inv st)
    (hen : enabled st ev = true) : Inv (step cfg st ev) := by
  cases ev with
  | clickStart => exact inv_clickStart cfg st h hen
  | createDone now result => exact inv_createDone cfg st now result h hen
  | clickEnd => exact inv_clickEnd cfg st h hen
  | endDone result => exact inv_endDone st result h
  | features f => exact inv_of_same st _ h rfl rfl rfl rfl rfl rfl rfl rfl
  | tick now =>
      obtain ⟨h1, h2, h3, h4, h5, h6, h7, h8, _⟩ := sendQueuedFeatures_frame now st
      exact inv_of_same st _ h h1 h2 h3 h4 h5 h6 h7 h8
  | durationTimer now =>
      simp only [step, durationTick]
      split
      · exact inv_of_same st _ h rfl rfl rfl rfl rfl rfl rfl rfl
      · exact h
  | wsOpen r => exact inv_wsOpen st r h hen
  | wsMessage r payload =>
      obtain ⟨h1, h2, h3, h4, h5, h6, h7, h8, _⟩ := ws_onmessage_frame payload st
      exact inv_of_same st _ h h1 h2 h3 h4 h5 h6 h7 h8
  | wsError r =>
      exact inv_of_same _ _ (inv_setReadyState r .CLOSED st h (by decide))
        rfl rfl rfl rfl rfl rfl rfl rfl
  | wsClose r =>
      exact inv_of_same _ _ (inv_setReadyState r .CLOSED st h (by decide))
        rfl rfl rfl rfl rfl rfl rfl rfl

theorem inv_of_reachable [Browser] (cfg : Config) (st : LiveState) (h : Reachable cfg st) : Inv st := by
  induction h with
  | init => exact inv_initial
  | step ev _ hen ih => exact inv_step cfg _ ev ih hen

/-! ## Beginning a session -/

theorem activeState_reachable : Reachable defaultConfig activeState :=
  reachable_of_trace defaultConfig [.wsOpen .current] startedState _ startedState_reachable rfl

theorem endingState_reachable : Reachable defaultConfig endingState :=
  reachable_of_trace defaultConfig [.clickEnd] activeState _ activeState_reachable rfl

/-- C4, as stated, fails: `startSession` called on an Active session is not rejected
and does not leave the state alone; it issues a second create-session request,
replaces the session identifier and the channel, and arms a second send timer. -/
theorem C4_counterexample :
    activeState.isActive = true ∧
      ¬ (startSession defaultConfig 2000 (.created (some "xyz789")) activeState = activeState) ∧
      (startSession defaultConfig 2000 (.created (some "xyz789")) activeState).requests.length
        = activeState.requests.length + 1 ∧
      (startSession defaultConfig 2000 (.created (some "xyz789")) activeState).sessionId
        = some "xyz789" ∧
      (startSession defaultConfig 2000 (.created (some "xyz789")) activeState).timers
        = [⟨1, 500⟩, ⟨2, 500⟩] := by
  refine ⟨rfl, fun h => ?_, by decide, by decide, by decide⟩
  have h2 := congrArg LiveState.sessionId h
  revert h2
  decide

/-- C4, amended. `startSession` checks nothing and rejects nothing: in every state
its call sets `isConnecting` and issues the create-session request. What keeps it
from running twice is the page: the Start Session button can be clicked exactly
when the page is mounted, `isActive` is false and `isConnecting` is false. That
includes the time an end-session request is still in flight. -/
theorem C4_start_is_gated_by_the_page (cfg : Config) (st : LiveState) :
    (enabled st .clickStart = true ↔
        mounted st = true ∧ st.isActive = false ∧ st.isConnecting = false) ∧
      (startSession_call cfg st).isConnecting = true ∧
      (startSession_call cfg st).requests
        = st.requests ++ [⟨"POST", cfg.apiUrl ++ "/api/v1/sessions"⟩] ∧
      (startSession_call cfg st).awaiting = st.awaiting ++ [.startSession] ∧
      (Reachable defaultConfig endingState ∧
        Continuation.endSession ∈ endingState.awaiting ∧
        enabled endingState .clickStart = true) := by
  refine ⟨?_, rfl, rfl, rfl, endingState_reachable, by decide, by decide⟩
  simp [enabled, startButtonRendered, startButtonDisabled, and_assoc]

/-- C5, as stated, fails. The create-session response is ok and carries the
identifier `a#b`. The address `ws://localhost:8000/ws/a#b` has a fragment, and the
`WebSocket` constructor throws on it. `startSession`, begun from the freshly
mounted page by a click on Start, holds the identifier `a#b` afterwards, but the
session is not Active, no channel has been opened and no send timer is armed; the
failure is shown in an alert. -/
theorem C5_counterexample :
    enabled LiveState.initial .clickStart = true ∧
      Browser.accepts (defaultConfig.wsUrl ++ "/ws/" ++ "a#b") = false ∧
      (startSession defaultConfig 1000 (.created (some "a#b")) LiveState.initial).sessionId
        = some "a#b" ∧
      ¬ ((startSession defaultConfig 1000 (.created (some "a#b")) LiveState.initial).isActive
        = true) ∧
      ¬ ((startSession defaultConfig 1000 (.created (some "a#b")) LiveState.initial).wsRef
        = some ⟨defaultConfig.wsUrl ++ "/ws/" ++ "a#b", .CONNECTING⟩) ∧
      (startSession defaultConfig 1000 (.created (some "a#b")) LiveState.initial).wsRef = none ∧
      (startSession defaultConfig 1000 (.created (some "a#b")) LiveState.initial).timers = [] ∧
      (startSession defaultConfig 1000 (.created (some "a#b")) LiveState.initial).alerts
        = ["Failed to start session. Make sure the backend is running."] := by
  decide

/-- C5, amended (successful begin). Let the page, in any browser, be in any state it
can reach in which a `startSession` call awaits its create-session response, and let
the response be ok and carry `session_id = s`. When the `WebSocket` constructor
accepts the address `wsUrl + "/ws/" + s`, then after `startSession` has run to its
end the held identifier is `s`, the channel in `wsRef` is a new socket at that
address, `isActive` is true, and exactly one send timer is armed, with the interval
of `config.js`, which is 500 ms in every environment; its id is held in
`sendIntervalRef`. When the constructor throws, `startSession` ends in its `catch`:
the held identifier is `s` all the same, but the session is not active and not
connecting, the channel in `wsRef` and the timers are as before, so no send timer
is armed, and the failure is shown in an alert. The same holds of `startSession`
run in one piece from a state in which Start can be clicked. -/
theorem C5_successful_begin [Browser] (env : Env) (st : LiveState) (now : Nat) (s : String)
    (hst : Reachable (config env) st) :
    (Browser.accepts ((config env).wsUrl ++ "/ws/" ++ s) = true →
      (Continuation.startSession ∈ st.awaiting →
        (startSession_resume (config env) now (.created (some s)) st).sessionId = some s ∧
        (startSession_resume (config env) now (.created (some s)) st).wsRef
          = some ⟨(config env).wsUrl ++ "/ws/" ++ s, .CONNECTING⟩ ∧
        (startSession_resume (config env) now (.created (some s)) st).isActive = true ∧
        (startSession_resume (config env) now (.created (some s)) st).timers
          = [⟨st.nextTimerId, (config env).featureExtraction.extractionIntervalMs⟩] ∧
        (startSession_resume (config env) now (.created (some s)) st).sendIntervalRef
          = some st.nextTimerId) ∧
      (enabled st .clickStart = true →
        (startSession (config env) now (.created (some s)) st).sessionId = some s ∧
        (startSession (config env) now (.created (some s)) st).wsRef
          = some ⟨(config env).wsUrl ++ "/ws/" ++ s, .CONNECTING⟩ ∧
        (startSession (config env) now (.created (some s)) st).isActive = true ∧
        (startSession (config env) now (.created (some s)) st).timers
          = [⟨st.nextTimerId, (config env).featureExtraction.extractionIntervalMs⟩] ∧
        (startSession (config env) now (.created (some s)) st).sendIntervalRef
          = some st.nextTimerId)) ∧
    (Browser.accepts ((config env).wsUrl ++ "/ws/" ++ s) = false →
      (Continuation.startSession ∈ st.awaiting →
        (startSession_resume (config env) now (.created (some s)) st).sessionId = some s ∧
        (startSession_resume (config env) now (.created (some s)) st).isActive = false ∧
        (startSession_resume (config env) now (.created (some s)) st).isConnecting = false ∧
        (startSession_resume (config env) now (.created (some s)) st).wsRef = st.wsRef ∧
        (startSession_resume (config env) now (.created (some s)) st).timers = [] ∧
        (startSession_resume (config env) now (.created (some s)) st).alerts
          = st.alerts ++ ["Failed to start session. Make sure the backend is running."]) ∧
      (enabled st .clickStart = true →
        (startSession (config env) now (.created (some s)) st).sessionId = some s ∧
        (startSession (config env) now (.created (some s)) st).isActive = false ∧
        (startSession (config env) now (.created (some s)) st).isConnecting = false ∧
        (startSession (config env) now (.created (some s)) st).wsRef = st.wsRef ∧
        (startSession (config env) now (.created (some s)) st).timers = [] ∧
        (startSession (config env) now (.created (some s)) st).alerts
          = st.alerts ++ ["Failed to start session. Make sure the backend is running."])) ∧
    (config env).featureExtraction.extractionIntervalMs = 500 := by
  have key : Browser.accepts ((config env).wsUrl ++ "/ws/" ++ s) = true →
      ∀ st0 : LiveState, Reachable (config env) st0 →
      Continuation.startSession ∈ st0.awaiting →
      (startSession_resume (config env) now (.created (some s)) st0).sessionId = some s ∧
      (startSession_resume (config env) now (.created (some s)) st0).wsRef
        = some ⟨(config env).wsUrl ++ "/ws/" ++ s, .CONNECTING⟩ ∧
      (startSession_resume (config env) now (.created (some s)) st0).isActive = true ∧
      (startSession_resume (config env) now (.created (some s)) st0).timers
        = [⟨st0.nextTimerId, (config env).featureExtraction.extractionIntervalMs⟩] ∧
      (startSession_resume (config env) now (.created (some s)) st0).sendIntervalRef
        = some st0.nextTimerId := by
    intro ha st0 h0 hpend
    have hinv := inv_of_reachable _ _ h0
    have htim := hinv.idle_timers (hinv.pending hpend).1
    simp [startSession_resume, connectWebSocket, setInterval, templateText, htim, ha]
  have key2 : Browser.accepts ((config env).wsUrl ++ "/ws/" ++ s) = false →
      ∀ st0 : LiveState, Reachable (config env) st0 →
      Continuation.startSession ∈ st0.awaiting →
      (startSession_resume (config env) now (.created (some s)) st0).sessionId = some s ∧
      (startSession_resume (config env) now (.created (some s)) st0).isActive = false ∧
      (startSession_resume (config env) now (.created (some s)) st0).isConnecting = false ∧
      (startSession_resume (config env) now (.created (some s)) st0).wsRef = st0.wsRef ∧
      (startSession_resume (config env) now (.created (some s)) st0).timers = [] ∧
      (startSession_resume (config env) now (.created (some s)) st0).alerts
        = st0.alerts ++ ["Failed to start session. Make sure the backend is running."] := by
    intro ha st0 h0 hpend
    have hinv := inv_of_reachable _ _ h0
    have hact := (hinv.pending hpend).1
    have htim := hinv.idle_timers hact
    simp [startSession_resume, connectWebSocket, templateText, htim, hact, ha]
  refine ⟨fun ha => ⟨key ha st hst, fun hen => ?_⟩, fun ha => ⟨key2 ha st hst, fun hen => ?_⟩,
    rfl⟩
  · exact key ha (startSession_call (config env) st) (Reachable.step .clickStart hst hen)
      (by simp [startSession_call])
  · exact key2 ha (startSession_call (config env) st) (Reachable.step .clickStart hst hen)
      (by simp [startSession_call])

theorem C5_successful_begin_witness :
    (enabled LiveState.initial .clickStart = true ∧
      Browser.accepts ((config ⟨none, none⟩).wsUrl ++ "/ws/" ++ "abc123") = true ∧
      Browser.accepts ((config ⟨none, none⟩).wsUrl ++ "/ws/" ++ "a#b") = false) ∧
    ((startSession (config ⟨none, none⟩) 1000 (.created (some "abc123")) LiveState.initial).sessionId
        = some "abc123" ∧
      (startSession (config ⟨none, none⟩) 1000 (.created (some "abc123")) LiveState.initial).wsRef
        = some ⟨(config ⟨none, none⟩).wsUrl ++ "/ws/" ++ "abc123", .CONNECTING⟩ ∧
      (startSession (config ⟨none, none⟩) 1000 (.created (some "abc123")) LiveState.initial).isActive
        = true ∧
      (startSession (config ⟨none, none⟩) 1000 (.created (some "abc123")) LiveState.initial).timers
        = [⟨LiveState.initial.nextTimerId,
            (config ⟨none, none⟩).featureExtraction.extractionIntervalMs⟩] ∧
      (startSession (config ⟨none, none⟩) 1000 (.created (some "abc123")) LiveState.initial).sendIntervalRef
        = some LiveState.initial.nextTimerId) ∧
    (startSession (config ⟨none, none⟩) 1000 (.created (some "a#b")) LiveState.initial).isActive
      = false :=
  ⟨⟨rfl, by decide, by decide⟩,
    ((C5_successful_begin ⟨none, none⟩ LiveState.initial 1000 "abc123" Reachable.init).1
      (by decide)).2 rfl,
    (((C5_successful_begin ⟨none, none⟩ LiveState.initial 1000 "a#b" Reachable.init).2.1
      (by decide)).2 rfl).2.1⟩

/-- C6 (failed begin). Let the page be in any state it can reach in which a
`startSession` call awaits its create-session response. When the attempt fails (the
request throws, the response is not ok, or its body cannot be read; anything but a
created session), `startSession` ends with the session idle: not active, not
connecting, no socket created, no send timer armed, the held identifier unchanged;
the failure is shown in an alert; and Start can be clicked again. -/
theorem C6_failed_begin [Browser] (cfg : Config) (st : LiveState) (now : Nat) (result : CreateResult)
    (hst : Reachable cfg st) (hpend : Continuation.startSession ∈ st.awaiting)
    (hfail : ∀ sid, result ≠ .created sid) :
    (startSession_resume cfg now result st).isActive = false ∧
      (startSession_resume cfg now result st).isConnecting = false ∧
      (startSession_resume cfg now result st).wsRef = st.wsRef ∧
      (startSession_resume cfg now result st).detached = st.detached ∧
      (startSession_resume cfg now result st).timers = [] ∧
      (startSession_resume cfg now result st).sessionId = st.sessionId ∧
      (startSession_resume cfg now result st).alerts
        = st.alerts ++ ["Failed to start session. Make sure the backend is running."] ∧
      (startSession_resume cfg now result st).requests = st.requests ∧
      enabled (startSession_resume cfg now result st) .clickStart = mounted st := by
  have hinv := inv_of_reachable _ _ hst
  obtain ⟨hact, _⟩ := hinv.pending hpend
  have htim := hinv.idle_timers hact
  cases result with
  | created sid => exact absurd rfl (hfail sid)
  | networkError =>
      simp [startSession_resume, hact, htim, enabled, mounted, startButtonRendered,
        startButtonDisabled]
  | notOk =>
      simp [startSession_resume, hact, htim, enabled, mounted, startButtonRendered,
        startButtonDisabled]
  | badBody =>
      simp [startSession_resume, hact, htim, enabled, mounted, startButtonRendered,
        startButtonDisabled]

theorem C6_failed_begin_witness :
    Continuation.startSession ∈ (step defaultConfig LiveState.initial .clickStart).awaiting ∧
      (∀ sid, CreateResult.notOk ≠ .created sid) ∧
      (startSession_resume defaultConfig 1000 .notOk
        (step defaultConfig LiveState.initial .clickStart)).isActive = false ∧
      (startSession_resume defaultConfig 1000 .notOk
        (step defaultConfig LiveState.initial .clickStart)).isConnecting = false ∧
      (startSession_resume defaultConfig 1000 .notOk
        (step defaultConfig LiveState.initial .clickStart)).timers = [] :=
  have h := C6_failed_begin defaultConfig (step defaultConfig LiveState.initial .clickStart)
    1000 .notOk (Reachable.step .clickStart Reachable.init rfl) (by decide)
    (fun sid => by simp)
  ⟨by decide, fun sid => by simp, h.1, h.2.1, h.2.2.2.2.1⟩

/-! ## Ending a session -/

theorem stuck_of_same (st st' : LiveState) (h : Stuck st)
    (h1 : st'.isActive = st.isActive) (h4 : st'.awaiting = st.awaiting)
    (h5 : st'.isConnecting = st.isConnecting) (h6 : st'.detached = st.detached)
    (h7 : st'.wsRef = st.wsRef) : Stuck st' where
  idle := by rw [h1]; exact h.idle
  connecting := by rw [h5]; exact h.connecting
  no_pending := by rw [h4]; exact h.no_pending
  detached_ok := by rw [h6]; exact h.detached_ok
  current_ok := by rw [h7]; exact h.current_ok

theorem stuck_setReadyState (r : SocketRef) (rs : ReadyState) (st : LiveState) (h : Stuck st)
    (hrs : rs ≠ .CONNECTING) : Stuck (setReadyState r rs st) := by
  cases r with
  | current =>
      refine ⟨h.idle, h.connecting, h.no_pending, h.detached_ok, ?_⟩
      intro ws hws
      simp only [setReadyState, Option.map_eq_some'] at hws
      obtain ⟨w, _, rfl⟩ := hws
      exact hrs
  | detached i =>
      refine ⟨h.idle, h.connecting, h.no_pending, ?_, h.current_ok⟩
      exact mem_modify_of_forall (fun ws => ws.readyState ≠ .CONNECTING)
        (fun ws => { ws with readyState := rs }) (fun _ => hrs) st.detached i h.detached_ok

theorem stuck_step [Browser] (cfg : Config) (st : LiveState) (ev : Event) (h : Stuck st)
    (hen : enabled st ev = true) : Stuck (step cfg st ev) := by
  cases ev with
  | clickStart =>
      simp [enabled, startButtonDisabled, h.connecting] at hen
  | createDone now result =>
      simp only [enabled, Bool.and_eq_true] at hen
      exact absurd (List.elem_iff.mp hen.2) h.no_pending
  | clickEnd => simp [enabled, endButtonRendered, h.idle] at hen
  | endDone result =>
      have hmem : Continuation.startSession ∉ st.awaiting.erase .endSession :=
        fun hm => h.no_pending ((List.mem_erase_of_ne (by decide)).mp hm)
      cases result with
      | resolved => exact ⟨h.idle, h.connecting, hmem, h.detached_ok, h.current_ok⟩
      | rejected => exact ⟨h.idle, h.connecting, hmem, h.detached_ok, h.current_ok⟩
  | features f => exact stuck_of_same st _ h rfl rfl rfl rfl rfl
  | tick now =>
      obtain ⟨h1, _, _, h4, h5, h6, h7, _⟩ := sendQueuedFeatures_frame now st
      exact stuck_of_same st _ h h1 h4 h5 h6 h7
  | durationTimer now =>
      simp only [step, durationTick]
      split
      · exact stuck_of_same st _ h rfl rfl rfl rfl rfl
      · exact h
  | wsOpen r =>
      simp only [enabled, Bool.and_eq_true, beq_iff_eq] at hen
      replace hen := hen.2
      cases r with
      | current =>
          simp only [readyStateOf, Option.map_eq_some'] at hen
          obtain ⟨ws, hw, hr⟩ := hen
          exact absurd hr (h.current_ok ws hw)
      | detached i =>
          simp only [readyStateOf, Option.map_eq_some'] at hen
          obtain ⟨ws, hw, hr⟩ := hen
          exact absurd hr (h.detached_ok ws (List.get?_mem hw))
  | wsMessage r payload =>
      obtain ⟨h1, _, _, h4, h5, h6, h7, _⟩ := ws_onmessage_frame payload st
      exact stuck_of_same st _ h h1 h4 h5 h6 h7
  | wsError r =>
      exact stuck_of_same _ _ (stuck_setReadyState r .CLOSED st h (by decide))
        rfl rfl rfl rfl rfl
  | wsClose r =>
      exact stuck_of_same _ _ (stuck_setReadyState r .CLOSED st h (by decide))
        rfl rfl rfl rfl rfl

theorem stuck_trace [Browser] (cfg : Config) (evs : List Event) (st st' : LiveState) (h : Stuck st)
    (ht : trace cfg st evs = some st') : Stuck st' := by
  induction evs generalizing st with
  | nil =>
      simp only [trace, Option.some.injEq] at ht
      exact ht ▸ h
  | cons ev evs ih =>
      simp only [trace] at ht
      split at ht
      · rename_i hen
        exact ih _ (stuck_step cfg st ev h hen) ht
      · simp at ht

theorem stuck_after_end : Stuck (endSession defaultConfig .rejected startedState) where
  idle := by decide
  connecting := by decide
  no_pending := by decide
  detached_ok := by decide
  current_ok := by
    intro ws hws
    have h : (endSession defaultConfig .rejected startedState).wsRef
        = some ⟨"ws://localhost:8000/ws/abc123", .CLOSING⟩ := by decide
    rw [h] at hws
    cases hws
    decide

/-- C7 at its failing input. End Session is clicked on a session that was created
(`abc123`) but whose channel has not opened yet, and the end-session request fails.
`endSession` issues the request to `/api/v1/sessions/abc123/end`, clears
`isActive`, disarms the timer and closes the socket, but leaves `isConnecting`
true: the Start button is disabled, and stays so whatever happens on the page
afterwards. -/
theorem C7_end_leaves_connecting :
    Reachable defaultConfig startedState ∧
      Reachable defaultConfig (endSession defaultConfig .rejected startedState) ∧
      enabled startedState .clickEnd = true ∧
      startedState.isConnecting = true ∧
      (endSession defaultConfig .rejected startedState).requests
        = [⟨"POST", "http://localhost:8000/api/v1/sessions"⟩,
           ⟨"POST", "http://localhost:8000/api/v1/sessions/abc123/end"⟩] ∧
      (endSession defaultConfig .rejected startedState).isActive = false ∧
      (endSession defaultConfig .rejected startedState).timers = [] ∧
      (endSession defaultConfig .rejected startedState).isConnecting = true ∧
      enabled (endSession defaultConfig .rejected startedState) .clickStart = false ∧
      (∀ evs st', trace defaultConfig (endSession defaultConfig .rejected startedState) evs
          = some st' → st'.isConnecting = true ∧ enabled st' .clickStart = false) := by
  refine ⟨startedState_reachable,
    reachable_of_trace defaultConfig [.clickEnd, .endDone .rejected] startedState _
      startedState_reachable rfl,
    by decide, by decide, by decide, by decide, by decide,
    by decide, by decide, fun evs st' ht => ?_⟩
  have h := stuck_trace defaultConfig evs _ st' stuck_after_end ht
  exact ⟨h.connecting, by simp [enabled, startButtonDisabled, h.connecting]⟩

/-! ## Channel events -/

/-- C8, as stated, fails: on an Active session with an open channel, neither the
error event nor the close event of the channel clears `isActive`, disarms the send
timer or unmounts the capture component. -/
theorem C8_counterexample :
    activeState.isActive = true ∧
      ¬ ((step defaultConfig activeState (.wsError .current)).isActive = false) ∧
      ¬ ((step defaultConfig activeState (.wsError .current)).timers = []) ∧
      ¬ (cameraRendered (step defaultConfig activeState (.wsError .current)) = false) ∧
      ¬ ((step defaultConfig activeState (.wsClose .current)).isActive = false) ∧
      ¬ ((step defaultConfig activeState (.wsClose .current)).timers = []) ∧
      ¬ ((step defaultConfig activeState (.wsClose .current)).connectionStatus = "error") := by
  decide

theorem ticks_closed [Browser] (cfg : Config) (nows : List Nat) (st : LiveState)
    (h : ∀ ws, st.wsRef = some ws → ws.readyState ≠ .OPEN) :
    run cfg st (nows.map Event.tick) = st := by
  induction nows with
  | nil => rfl
  | cons now nows ih =>
      have h1 : step cfg st (.tick now) = st := by
        simp only [step, sendQueuedFeatures]
        cases hw : st.wsRef with
        | none => rfl
        | some ws => simp [h ws hw]
      simp only [run, List.map_cons, List.foldl_cons, h1]
      exact ih

/-- C8, amended. In every state, the error event of a channel only logs and sets
`connectionStatus` to `"error"`, and its close event only sets `connectionStatus`
to `"disconnected"`: `isActive`, the armed send timers, the session identifier,
the feature buffer and what was sent stay as they are, so an Active session stays
Active with its timer armed and its capture component rendered. When the event is
about the channel of the session, that channel is closed from then on, and every
send tick that follows transmits nothing and changes nothing. -/
theorem C8_transport_drop [Browser] (cfg : Config) (st : LiveState) (r : SocketRef) (nows : List Nat) :
    ((step cfg st (.wsError r)).connectionStatus = "error" ∧
      (step cfg st (.wsError r)).isActive = st.isActive ∧
      (step cfg st (.wsError r)).timers = st.timers ∧
      (step cfg st (.wsError r)).sendIntervalRef = st.sendIntervalRef ∧
      (step cfg st (.wsError r)).sessionId = st.sessionId ∧
      (step cfg st (.wsError r)).featureQueueRef = st.featureQueueRef ∧
      (step cfg st (.wsError r)).wire = st.wire ∧
      cameraRendered (step cfg st (.wsError r)) = cameraRendered st) ∧
    ((step cfg st (.wsClose r)).connectionStatus = "disconnected" ∧
      (step cfg st (.wsClose r)).isActive = st.isActive ∧
      (step cfg st (.wsClose r)).timers = st.timers ∧
      (step cfg st (.wsClose r)).sendIntervalRef = st.sendIntervalRef ∧
      (step cfg st (.wsClose r)).sessionId = st.sessionId ∧
      (step cfg st (.wsClose r)).featureQueueRef = st.featureQueueRef ∧
      (step cfg st (.wsClose r)).wire = st.wire ∧
      cameraRendered (step cfg st (.wsClose r)) = cameraRendered st) ∧
    run cfg (step cfg st (.wsError .current)) (nows.map Event.tick)
      = step cfg st (.wsError .current) ∧
    run cfg (step cfg st (.wsClose .current)) (nows.map Event.tick)
      = step cfg st (.wsClose .current) := by
  refine ⟨?_, ?_, ?_, ?_⟩
  · cases r <;> simp [step, ws_onerror, setReadyState, cameraRendered]
  · cases r <;> simp [step, ws_onclose, setReadyState, cameraRendered]
  · apply ticks_closed
    intro ws hws
    simp only [step, ws_onerror, setReadyState, Option.map_eq_some'] at hws
    obtain ⟨w, _, rfl⟩ := hws
    simp
  · apply ticks_closed
    intro ws hws
    simp only [step, ws_onclose, setReadyState, Option.map_eq_some'] at hws
    obtain ⟨w, _, rfl⟩ := hws
    simp

/-! ## Camera acquisition -/

/-- C9, as stated, fails: the camera is requested only once the session is Active,
so when the request is refused the Live page is Active, with its send timer armed
and its channel in place, and stays so; only the capture component shows the
error. -/
theorem C9_counterexample :
    startedPage.live.isActive = true ∧
      ¬ ((Page.mountCamera none startedPage).live.isActive = false) ∧
      ¬ ((Page.mountCamera none startedPage).live.timers = []) ∧
      ¬ ((Page.mountCamera none startedPage).live.wsRef = none) ∧
      (Page.mountCamera none startedPage).camera.map (fun c => c.error)
        = some (some "Camera access denied. Please allow camera permissions.") := by
  decide

/-- C9, amended. The capture component exists, and requests the camera, only while
the Live page is Active: on a page that is not active no capture component is
mounted. When the request is refused on an Active page, the component records the
error message, stops loading and holds no stream, and the state of the Live page
is unchanged: the session stays Active with its send timer and its channel. -/
theorem C9_camera_failure (p : Page) :
    (Page.mountCamera none p).live = p.live ∧
      (p.live.isActive = false → ∀ gum, (Page.mountCamera gum p).camera = none) ∧
      (p.live.isActive = true →
        (Page.mountCamera none p).camera
          = some { CameraCaptureState.initial with
                   consoleErrors := ["Camera access error:"]
                   error := some "Camera access denied. Please allow camera permissions."
                   isLoading := false } ∧
        (Page.mountCamera none p).live.isActive = true ∧
        (Page.mountCamera none p).live.timers = p.live.timers ∧
        (Page.mountCamera none p).live.wsRef = p.live.wsRef) := by
  refine ⟨?_, fun h gum => ?_, fun h => ?_⟩
  · unfold Page.mountCamera
    split <;> rfl
  · simp [Page.mountCamera, cameraRendered, h]
  · simp [Page.mountCamera, cameraRendered, h, CameraCapture_effect, setupCamera,
      CameraCaptureState.initial]

theorem C9_camera_failure_witness :
    startedPage.live.isActive = true ∧
      (Page.mountCamera none startedPage).live.isActive = true ∧
      (Page.mountCamera none Page.initial).camera = none :=
  ⟨rfl, ((C9_camera_failure startedPage).2.2 rfl).2.1,
    (C9_camera_failure Page.initial).2.1 rfl none⟩

/-! ## Inbound messages -/

set_option maxRecDepth 100000 in
theorem JSON_parse_happyPayload : JSON_parse happyPayload = some happyData := by
  rfl

theorem ws_onmessage_prediction (payload : String) (st : LiveState) :
    (ws_onmessage payload st).prediction =
      match JSON_parse payload with
      | some data => if hasPredictionType data then some data else st.prediction
      | none => st.prediction := by
  unfold ws_onmessage hasPredictionType
  cases JSON_parse payload with
  | none => rfl
  | some data =>
      cases hp : data.getProp (utf16 "type") with
      | throws => simp [hp]
      | undefined => simp [hp]
      | value t =>
          cases t with
          | str s => by_cases hs : s = utf16 "prediction" <;> simp [hp, hs]
          | null => simp [hp]
          | bool b => simp [hp]
          | num d => simp [hp]
          | arr xs => simp [hp]
          | obj ms => simp [hp]

/-- C10 (inbound handling). For every payload and every state, `ws.onmessage`
returns (a failed parse and a failed property read end in its `catch`), and the
prediction it leaves is the parsed payload exactly when the payload parses to a
value whose `type` is `"prediction"`; otherwise (another `type`, no `type`, no
parse) the prediction is the one held before. Nothing but the prediction and the
console changes. The message of the happy path becomes the prediction, and its
`stress_score` is 0.3. -/
theorem C10_inbound_filtered (payload : String) (st : LiveState) :
    ((ws_onmessage payload st).prediction =
        match JSON_parse payload with
        | some data => if hasPredictionType data then some data else st.prediction
        | none => st.prediction) ∧
      ((ws_onmessage payload st).isActive = st.isActive ∧
        (ws_onmessage payload st).isConnecting = st.isConnecting ∧
        (ws_onmessage payload st).connectionStatus = st.connectionStatus ∧
        (ws_onmessage payload st).sessionId = st.sessionId ∧
        (ws_onmessage payload st).wsRef = st.wsRef ∧
        (ws_onmessage payload st).timers = st.timers ∧
        (ws_onmessage payload st).featureQueueRef = st.featureQueueRef ∧
        (ws_onmessage payload st).wire = st.wire) ∧
      (JSON_parse happyPayload = some happyData ∧
        hasPredictionType happyData = true ∧
        (ws_onmessage happyPayload st).prediction = some happyData ∧
        happyData.getProp (utf16 "stress_score") = .value (.num ⟨3, -1⟩) ∧
        Decimal.toRat ⟨3, -1⟩ = 3 / 10) ∧
      ((ws_onmessage "\x7b\"type\":\"pong\"\x7d" st).prediction = st.prediction ∧
        (ws_onmessage "null" st).prediction = st.prediction ∧
        (ws_onmessage "\x7b\"type\":" st).prediction = st.prediction) := by
  obtain ⟨h1, h2, _, _, h5, _, h7, _, h9, h10, h11, h12⟩ := ws_onmessage_frame payload st
  have hhappy : hasPredictionType happyData = true := by decide
  refine ⟨ws_onmessage_prediction payload st, ⟨h1, h5, h10, h9, h7, h2, h11, h12⟩,
    ⟨JSON_parse_happyPayload, hhappy, ?_, by rfl, ?_⟩, ⟨?_, ?_, ?_⟩⟩
  · rw [ws_onmessage_prediction, JSON_parse_happyPayload]
    simp [hhappy]
  · norm_num [Decimal.toRat]
  · rw [ws_onmessage_prediction]
    have : JSON_parse "\x7b\"type\":\"pong\"\x7d"
        = some (.obj [(utf16 "type", .str (utf16 "pong"))]) := by rfl
    rw [this]
    have : hasPredictionType (.obj [(utf16 "type", .str (utf16 "pong"))]) = false := by decide
    simp [this]
  · rw [ws_onmessage_prediction]
    have : JSON_parse "null" = some .null := by rfl
    rw [this]
    simp [hasPredictionType, Json.getProp]
  · rw [ws_onmessage_prediction]
    have : JSON_parse "\x7b\"type\":" = none := by rfl
    rw [this]

/-! ## Ticks while the channel is not open -/

theorem sendQueuedFeatures_not_open (now : Nat) (st : LiveState)
    (h : ∀ ws, st.wsRef = some ws → ws.readyState ≠ .OPEN) : sendQueuedFeatures now st = st := by
  unfold sendQueuedFeatures
  cases hw : st.wsRef with
  | none => rfl
  | some ws => simp [h ws hw]

/-- C12 (channel-not-open tick). In every state in which the channel is absent or
its `readyState` is not `OPEN`, a send tick returns the state it was given: nothing
is transmitted, nothing is raised, the buffer and everything else stay as they
were. -/
theorem C12_tick_not_open (now : Nat) (st : LiveState)
    (h : st.wsRef = none ∨ ∃ ws, st.wsRef = some ws ∧ ws.readyState ≠ .OPEN) :
    sendQueuedFeatures now st = st := by
  apply sendQueuedFeatures_not_open
  intro ws hws
  rcases h with h | ⟨w, hw, hr⟩
  · rw [h] at hws
    cases hws
  · rw [hw] at hws
    cases hws
    exact hr

theorem C12_tick_not_open_witness :
    (handleFeatures ⟨[3], [4]⟩ startedState).wsRef
        = some ⟨"ws://localhost:8000/ws/abc123", .CONNECTING⟩ ∧
      sendQueuedFeatures 1200 (handleFeatures ⟨[3], [4]⟩ startedState)
        = handleFeatures ⟨[3], [4]⟩ startedState ∧
      sendQueuedFeatures 1200 LiveState.initial = LiveState.initial :=
  ⟨rfl,
    C12_tick_not_open 1200 (handleFeatures ⟨[3], [4]⟩ startedState)
      (Or.inr ⟨⟨"ws://localhost:8000/ws/abc123", .CONNECTING⟩, rfl, by decide⟩),
    C12_tick_not_open 1200 LiveState.initial (Or.inl rfl)⟩

/-- C13, as stated, fails: a frame that is pending at a tick fired while the channel
is still connecting stays in the buffer, and the first tick after the channel has
opened transmits it. -/
theorem C13_counterexample :
    (trace defaultConfig startedState
        [.features ⟨[3], [4]⟩, .tick 1200, .wsOpen .current, .tick 1700]).isSome = true ∧
      (run defaultConfig startedState [.features ⟨[3], [4]⟩, .tick 1200]).featureQueueRef
        = [⟨[3], [4]⟩] ∧
      ¬ ((run defaultConfig startedState [.features ⟨[3], [4]⟩, .tick 1200]).featureQueueRef
        = []) ∧
      (run defaultConfig startedState
          [.features ⟨[3], [4]⟩, .tick 1200, .wsOpen .current, .tick 1700]).wire
        = [("ws://localhost:8000/ws/abc123", ⟨"features", 1700, ⟨[3], [4]⟩⟩)] := by
  refine ⟨rfl, rfl, fun h => ?_, rfl⟩
  have h2 := congrArg List.length h
  revert h2
  decide

/-- C13, amended. A tick fired while the channel exists but is not open changes
nothing, so the frames in the buffer are retained. Once the channel has opened,
the next tick transmits the frame that was offered last before, even though it was
offered while the channel was not open, and empties the buffer. -/
theorem C13_retained_until_open (st : LiveState) (ws : WebSocket) (now later : Nat)
    (f : FeatureFrame) (hws : st.wsRef = some ws) (hclosed : ws.readyState ≠ .OPEN)
    (hq : st.featureQueueRef.getLast? = some f) :
    sendQueuedFeatures now st = st ∧
      (sendQueuedFeatures later
          (ws_onopen (setReadyState .current .OPEN (sendQueuedFeatures now st)))).wire
        = st.wire ++ [(ws.url, ⟨"features", later, f⟩)] ∧
      (sendQueuedFeatures later
          (ws_onopen (setReadyState .current .OPEN (sendQueuedFeatures now st)))).featureQueueRef
        = [] := by
  have h1 : sendQueuedFeatures now st = st :=
    sendQueuedFeatures_not_open now st (fun w hw => by
      rw [hws] at hw
      cases hw
      exact hclosed)
  rw [h1]
  refine ⟨rfl, ?_, ?_⟩ <;>
    simp [sendQueuedFeatures, ws_onopen, setReadyState, hws, hq]

theorem C13_retained_until_open_witness :
    (handleFeatures ⟨[3], [4]⟩ startedState).wsRef
        = some ⟨"ws://localhost:8000/ws/abc123", .CONNECTING⟩ ∧
      (sendQueuedFeatures 1700
          (ws_onopen (setReadyState .current .OPEN
            (sendQueuedFeatures 1200 (handleFeatures ⟨[3], [4]⟩ startedState))))).wire
        = (handleFeatures ⟨[3], [4]⟩ startedState).wire
          ++ [("ws://localhost:8000/ws/abc123", ⟨"features", 1700, ⟨[3], [4]⟩⟩)] :=
  ⟨rfl,
    (C13_retained_until_open (handleFeatures ⟨[3], [4]⟩ startedState)
      ⟨"ws://localhost:8000/ws/abc123", .CONNECTING⟩ 1200 1700 ⟨[3], [4]⟩ rfl (by decide)
      rfl).2.1⟩

/-! ## Empty frames -/

theorem sendFeatures_nonempty (cam : CameraCaptureState) :
    ∀ g ∈ sendFeatures cam, g.isEmpty = false := by
  intro g hg
  unfold sendFeatures at hg
  simp only [combineFeatures] at hg
  split at hg
  · rename_i hne
    simp only [List.mem_singleton] at hg
    subst hg
    simp only [gt_iff_lt, Bool.or_eq_true, decide_eq_true_eq, List.length_pos] at hne
    rcases hne with hne | hne
    · cases hf : cam.lastFeaturesRef.face_kp with
      | nil => exact absurd hf hne
      | cons a l => simp [FeatureFrame.isEmpty, hf]
    · cases hp : cam.lastFeaturesRef.pose_kp with
      | nil => exact absurd hp hne
      | cons a l => simp [FeatureFrame.isEmpty, hp]
  · simp at hg

/-- C14, as stated, fails: with the channel open, a tick after an empty frame has
been offered transmits a message, carrying that empty frame. -/
theorem C14_counterexample :
    (⟨[], []⟩ : FeatureFrame).isEmpty = true ∧
      (sendQueuedFeatures 1500 (handleFeatures ⟨[], []⟩ openState)).wire
        = [("ws://localhost:8000/ws/abc123", ⟨"features", 1500, ⟨[], []⟩⟩)] ∧
      ¬ ((sendQueuedFeatures 1500 (handleFeatures ⟨[], []⟩ openState)).wire
        = (handleFeatures ⟨[], []⟩ openState).wire) := by
  refine ⟨rfl, rfl, fun h => ?_⟩
  have h2 := congrArg List.length h
  revert h2
  decide

/-- C14, amended. The tick does not look into the frame: with the channel open it
transmits the frame offered last also when that frame is empty. Empty frames are
kept out before they reach the buffer: `sendFeatures` of the capture component,
and so `onFaceResults` and `onPoseResults`, call `onFeatures` only with a frame of
which at least one sequence is non-empty. -/
theorem C14_empty_frames_filtered_upstream (st : LiveState) (ws : WebSocket) (now : Nat)
    (fs : List FeatureFrame) (f : FeatureFrame) (cam : CameraCaptureState) (results : Results)
    (hws : st.wsRef = some ws) (hopen : ws.readyState = .OPEN) (hempty : f.isEmpty = true) :
    (sendQueuedFeatures now (offerAll (fs ++ [f]) st)).wire
        = st.wire ++ [(ws.url, ⟨"features", now, ⟨[], []⟩⟩)] ∧
      (∀ g ∈ sendFeatures cam, g.isEmpty = false) ∧
      (∀ g ∈ (onFaceResults results cam).2, g.isEmpty = false) ∧
      (∀ g ∈ (onPoseResults results cam).2, g.isEmpty = false) := by
  have hf : f = ⟨[], []⟩ := by
    cases f with
    | mk face pose =>
        simp only [FeatureFrame.isEmpty, Bool.and_eq_true, List.isEmpty_iff] at hempty
        simp [hempty.1, hempty.2]
  refine ⟨?_, sendFeatures_nonempty cam, fun g hg => sendFeatures_nonempty _ g hg,
    fun g hg => sendFeatures_nonempty _ g hg⟩
  rw [offerAll_append, hf]
  simp [sendQueuedFeatures, hws, hopen, ← List.append_assoc]

theorem C14_empty_frames_filtered_upstream_witness :
    openState.wsRef = some ⟨"ws://localhost:8000/ws/abc123", .OPEN⟩ ∧
      (sendQueuedFeatures 1500 (offerAll ([⟨[], []⟩] ++ [⟨[], []⟩]) openState)).wire
        = openState.wire
          ++ [("ws://localhost:8000/ws/abc123", ⟨"features", 1500, ⟨[], []⟩⟩)] :=
  ⟨rfl,
    (C14_empty_frames_filtered_upstream openState ⟨"ws://localhost:8000/ws/abc123", .OPEN⟩
      1500 [⟨[], []⟩] ⟨[], []⟩ CameraCaptureState.initial ⟨none, none⟩ rfl rfl rfl).1⟩

/-! ## Ending twice, and what happens after the end -/

theorem endSession_call_fields (cfg : Config) (st : LiveState) :
    (endSession_call cfg st).isActive = false ∧
      (endSession_call cfg st).sessionId = st.sessionId ∧
      (endSession_call cfg st).duration = st.duration ∧
      (endSession_call cfg st).startTime = st.startTime ∧
      (endSession_call cfg st).prediction = st.prediction ∧
      (endSession_call cfg st).isConnecting = st.isConnecting ∧
      (endSession_call cfg st).connectionStatus = st.connectionStatus ∧
      (endSession_call cfg st).featureQueueRef = st.featureQueueRef ∧
      (endSession_call cfg st).wire = st.wire ∧
      (endSession_call cfg st).sendIntervalRef = st.sendIntervalRef ∧
      (endSession_call cfg st).navigations = st.navigations ∧
      (endSession_call cfg st).wsRef = st.wsRef.map WebSocket.close := by
  unfold endSession_call
  cases h1 : st.sendIntervalRef with
  | none =>
      cases h2 : st.wsRef <;> cases h3 : truthySessionId st.sessionId <;> simp [h1, h2]
  | some id =>
      by_cases hid : id = 0 <;> cases h2 : st.wsRef <;>
        cases h3 : truthySessionId st.sessionId <;> simp [h1, h2, hid, clearInterval]

theorem endSession_call_requests (cfg : Config) (st : LiveState) :
    (endSession_call cfg st).requests =
      match truthySessionId st.sessionId with
      | some sid =>
          st.requests ++ [⟨"POST", cfg.apiUrl ++ "/api/v1/sessions/" ++ sid ++ "/end"⟩]
      | none => st.requests := by
  unfold endSession_call
  cases h1 : st.sendIntervalRef with
  | none =>
      cases h2 : st.wsRef <;> cases h3 : truthySessionId st.sessionId <;> simp [h1, h2]
  | some id =>
      by_cases hid : id = 0 <;> cases h2 : st.wsRef <;>
        cases h3 : truthySessionId st.sessionId <;> simp [h1, h2, hid, clearInterval]

theorem endSession_resume_fields (result : EndResult) (st : LiveState) :
    (endSession_resume result st).isActive = st.isActive ∧
      (endSession_resume result st).sessionId = st.sessionId ∧
      (endSession_resume result st).duration = st.duration ∧
      (endSession_resume result st).startTime = st.startTime ∧
      (endSession_resume result st).prediction = st.prediction ∧
      (endSession_resume result st).isConnecting = st.isConnecting ∧
      (endSession_resume result st).connectionStatus = st.connectionStatus ∧
      (endSession_resume result st).featureQueueRef = st.featureQueueRef ∧
      (endSession_resume result st).wire = st.wire ∧
      (endSession_resume result st).sendIntervalRef = st.sendIntervalRef ∧
      (endSession_resume result st).timers = st.timers ∧
      (endSession_resume result st).wsRef = st.wsRef ∧
      (endSession_resume result st).requests = st.requests := by
  cases result <;> simp [endSession_resume, navigate]

theorem endSession_fields (cfg : Config) (result : EndResult) (st : LiveState) :
    (endSession cfg result st).isActive = false ∧
      (endSession cfg result st).sessionId = st.sessionId ∧
      (endSession cfg result st).duration = st.duration ∧
      (endSession cfg result st).startTime = st.startTime ∧
      (endSession cfg result st).prediction = st.prediction ∧
      (endSession cfg result st).isConnecting = st.isConnecting ∧
      (endSession cfg result st).connectionStatus = st.connectionStatus ∧
      (endSession cfg result st).featureQueueRef = st.featureQueueRef ∧
      (endSession cfg result st).wire = st.wire ∧
      (endSession cfg result st).sendIntervalRef = st.sendIntervalRef ∧
      (endSession cfg result st).wsRef = st.wsRef.map WebSocket.close ∧
      (endSession cfg result st).timers = (endSession_call cfg st).timers ∧
      (endSession cfg result st).requests = (endSession_call cfg st).requests := by
  obtain ⟨c1, c2, c3, c4, c5, c6, c7, c8, c9, c10, _, c12⟩ := endSession_call_fields cfg st
  unfold endSession
  cases h : truthySessionId st.sessionId with
  | none => exact ⟨c1, c2, c3, c4, c5, c6, c7, c8, c9, c10, c12, rfl, rfl⟩
  | some sid =>
      obtain ⟨r1, r2, r3, r4, r5, r6, r7, r8, r9, r10, r11, r12, r13⟩ :=
        endSession_resume_fields result (endSession_call cfg st)
      exact ⟨r1.trans c1, r2.trans c2, r3.trans c3, r4.trans c4, r5.trans c5, r6.trans c6,
        r7.trans c7, r8.trans c8, r9.trans c9, r10.trans c10, r12.trans c12, r11, r13⟩

theorem WebSocket.close_close (ws : WebSocket) : ws.close.close = ws.close := by
  unfold WebSocket.close
  cases h : ws.readyState <;> simp [h]

theorem endSession_call_timers_of_empty (cfg : Config) (st : LiveState) (h : st.timers = []) :
    (endSession_call cfg st).timers = [] := by
  unfold endSession_call
  cases h1 : st.sendIntervalRef with
  | none =>
      cases h2 : st.wsRef <;> cases h3 : truthySessionId st.sessionId <;> simp [h1, h2, h]
  | some id =>
      by_cases hid : id = 0 <;> cases h2 : st.wsRef <;>
        cases h3 : truthySessionId st.sessionId <;> simp [h1, h2, hid, clearInterval, h]

theorem endSession_call_idle (cfg : Config) (st : LiveState) (h1 : st.isActive = false)
    (h2 : st.timers = []) (h3 : ∀ ws, st.wsRef = some ws → ws.close = ws)
    (h4 : truthySessionId st.sessionId = none) : endSession_call cfg st = st := by
  cases st with
  | mk sessionId isActive prediction isConnecting connectionStatus startTime duration wsRef
      featureQueueRef sendIntervalRef detached wire timers nextTimerId requests awaiting
      alerts consoleErrors navigations =>
      simp only at h1 h2 h3 h4
      subst h1 h2
      unfold endSession_call
      simp only [h4]
      cases sendIntervalRef with
      | none =>
          cases wsRef with
          | none => rfl
          | some ws => simp [h3 ws rfl]
      | some id =>
          by_cases hid : id = 0
          · cases wsRef with
            | none => simp [hid]
            | some ws => simp [hid, h3 ws rfl]
          · cases wsRef with
            | none => simp [hid, clearInterval]
            | some ws => simp [hid, clearInterval, h3 ws rfl]

/-- C15, as stated, fails: on an Active session, a second `endSession` right after
the first is not a no-op; it issues a second end-session request. -/
theorem C15_counterexample :
    (endSession defaultConfig .rejected activeState).requests
        = [⟨"POST", "http://localhost:8000/api/v1/sessions"⟩,
           ⟨"POST", "http://localhost:8000/api/v1/sessions/abc123/end"⟩] ∧
      (endSession defaultConfig .rejected (endSession defaultConfig .rejected activeState)).requests
        = [⟨"POST", "http://localhost:8000/api/v1/sessions"⟩,
           ⟨"POST", "http://localhost:8000/api/v1/sessions/abc123/end"⟩,
           ⟨"POST", "http://localhost:8000/api/v1/sessions/abc123/end"⟩] ∧
      ¬ (endSession defaultConfig .rejected (endSession defaultConfig .rejected activeState)
        = endSession defaultConfig .rejected activeState) := by
  refine ⟨by decide, by decide, fun h => ?_⟩
  have h2 := congrArg (fun s => s.requests.length) h
  revert h2
  decide

/-- C15, amended. Let End be clickable in a state the page can reach. After
`endSession` the session is not active and no send timer is armed. A second
`endSession` right after it keeps that (not active, no timer armed, the same
socket, the same identifier and connecting flag), but `endSession` has no guard of
its own: when the held identifier is non-empty the second call issues the
end-session request once more, and only when there is no identifier is it a
no-op. That the second call does not happen is the page's doing: the End button is
rendered only while `isActive` is true. -/
theorem C15_end_twice [Browser] (cfg : Config) (st : LiveState) (r1 r2 : EndResult)
    (hst : Reachable cfg st) (hen : enabled st .clickEnd = true) :
    ((endSession cfg r1 st).isActive = false ∧ (endSession cfg r1 st).timers = []) ∧
      ((endSession cfg r2 (endSession cfg r1 st)).isActive = false ∧
        (endSession cfg r2 (endSession cfg r1 st)).timers = [] ∧
        (endSession cfg r2 (endSession cfg r1 st)).wsRef = (endSession cfg r1 st).wsRef ∧
        (endSession cfg r2 (endSession cfg r1 st)).sessionId = (endSession cfg r1 st).sessionId ∧
        (endSession cfg r2 (endSession cfg r1 st)).isConnecting
          = (endSession cfg r1 st).isConnecting) ∧
      (∀ sid, truthySessionId st.sessionId = some sid →
        (endSession cfg r2 (endSession cfg r1 st)).requests
          = (endSession cfg r1 st).requests
            ++ [⟨"POST", cfg.apiUrl ++ "/api/v1/sessions/" ++ sid ++ "/end"⟩]) ∧
      (truthySessionId st.sessionId = none →
        endSession cfg r2 (endSession cfg r1 st) = endSession cfg r1 st) ∧
      enabled (endSession cfg r1 st) .clickEnd = false := by
  have hinv := inv_clickEnd cfg st (inv_of_reachable cfg st hst) hen
  obtain ⟨a1, a2, _, _, _, a6, _, _, _, _, a11, a12, _⟩ := endSession_fields cfg r1 st
  have htim1 : (endSession cfg r1 st).timers = [] :=
    a12.trans (hinv.idle_timers (endSession_call_fields cfg st).1)
  obtain ⟨b1, b2, _, _, _, b6, _, _, _, _, b11, b12, b13⟩ :=
    endSession_fields cfg r2 (endSession cfg r1 st)
  have hws : (endSession cfg r2 (endSession cfg r1 st)).wsRef = (endSession cfg r1 st).wsRef := by
    rw [b11, a11]
    cases st.wsRef with
    | none => rfl
    | some ws => simp [WebSocket.close_close]
  refine ⟨⟨a1, htim1⟩,
    ⟨b1, b12.trans (endSession_call_timers_of_empty cfg _ htim1), hws, b2, b6⟩, ?_, ?_, ?_⟩
  · intro sid hsid
    rw [b13, endSession_call_requests, a2, hsid]
  · intro hnone
    have hs1 : truthySessionId (endSession cfg r1 st).sessionId = none := by rw [a2, hnone]
    have : endSession cfg r2 (endSession cfg r1 st) = endSession_call cfg (endSession cfg r1 st) := by
      rw [endSession.eq_def cfg r2 (endSession cfg r1 st)]
      simp only [hs1]
    rw [this]
    apply endSession_call_idle cfg _ a1 htim1 _ hs1
    intro ws hws1
    rw [a11] at hws1
    cases hw : st.wsRef with
    | none => simp [hw] at hws1
    | some w =>
        simp only [hw, Option.map_some', Option.some.injEq] at hws1
        rw [← hws1]
        exact WebSocket.close_close w
  · simp [enabled, endButtonRendered, a1]

theorem C15_end_twice_witness :
    enabled activeState .clickEnd = true ∧
      truthySessionId activeState.sessionId = some "abc123" ∧
      (endSession defaultConfig .rejected activeState).timers = [] ∧
      (endSession defaultConfig .resolved (endSession defaultConfig .rejected activeState)).requests
        = (endSession defaultConfig .rejected activeState).requests
          ++ [⟨"POST", defaultConfig.apiUrl ++ "/api/v1/sessions/" ++ "abc123" ++ "/end"⟩] :=
  have h := C15_end_twice defaultConfig activeState .rejected .resolved activeState_reachable rfl
  ⟨rfl, by decide, h.1.2, h.2.2.1 "abc123" (by decide)⟩

/-- C16, as stated, fails: after `endSession` has completed on an Active session
(its request having failed, so the page stays), the close event of the socket it
closed still runs `ws.onclose`, which changes the connection status. -/
theorem C16_counterexample :
    (trace defaultConfig activeState
        [.clickEnd, .endDone .rejected, .wsClose .current]).isSome = true ∧
      (run defaultConfig activeState [.clickEnd, .endDone .rejected]).connectionStatus
        = "connected" ∧
      (run defaultConfig activeState
        [.clickEnd, .endDone .rejected, .wsClose .current]).connectionStatus = "disconnected" ∧
      ¬ ((run defaultConfig activeState
            [.clickEnd, .endDone .rejected, .wsClose .current]).connectionStatus
          = (run defaultConfig activeState [.clickEnd, .endDone .rejected]).connectionStatus) := by
  refine ⟨rfl, rfl, rfl, by decide⟩

/-- C16, amended. After `endSession` has completed, the socket it closed is neither
connecting nor open, so neither `onopen` nor `onmessage` can fire on it any more.
Its `onerror` and `onclose` handlers stay registered: when they fire they set the
connection status (to `"error"`, to `"disconnected"`) and leave `isActive`, the
prediction, the connecting flag and the feature buffer alone. `handleFeatures`
checks nothing: a frame passed to it by a late extractor callback is appended to
the feature buffer, and nothing else changes. -/
theorem C16_after_end [Browser] (cfg : Config) (st : LiveState) (result : EndResult)
    (payload : String) (f : FeatureFrame) :
    (enabled (endSession cfg result st) (.wsOpen .current) = false ∧
      enabled (endSession cfg result st) (.wsMessage .current payload) = false) ∧
    ((step cfg (endSession cfg result st) (.wsError .current)).connectionStatus = "error" ∧
      (step cfg (endSession cfg result st) (.wsClose .current)).connectionStatus
        = "disconnected") ∧
    ((step cfg (endSession cfg result st) (.wsError .current)).isActive = false ∧
      (step cfg (endSession cfg result st) (.wsError .current)).prediction = st.prediction ∧
      (step cfg (endSession cfg result st) (.wsError .current)).isConnecting = st.isConnecting ∧
      (step cfg (endSession cfg result st) (.wsError .current)).featureQueueRef
        = st.featureQueueRef) ∧
    ((step cfg (endSession cfg result st) (.wsClose .current)).isActive = false ∧
      (step cfg (endSession cfg result st) (.wsClose .current)).prediction = st.prediction ∧
      (step cfg (endSession cfg result st) (.wsClose .current)).isConnecting = st.isConnecting ∧
      (step cfg (endSession cfg result st) (.wsClose .current)).featureQueueRef
        = st.featureQueueRef) ∧
    ((handleFeatures f (endSession cfg result st)).featureQueueRef = st.featureQueueRef ++ [f] ∧
      (handleFeatures f (endSession cfg result st)).connectionStatus = st.connectionStatus ∧
      (handleFeatures f (endSession cfg result st)).prediction = st.prediction ∧
      (handleFeatures f (endSession cfg result st)).isConnecting = st.isConnecting ∧
      (handleFeatures f (endSession cfg result st)).isActive = false) := by
  obtain ⟨a1, _, _, _, a5, a6, a7, a8, _, _, a11, _, _⟩ := endSession_fields cfg result st
  have hrs : ∀ rs, readyStateOf .current (endSession cfg result st) = some rs →
      rs ≠ .CONNECTING ∧ rs ≠ .OPEN := by
    intro rs h
    simp only [readyStateOf, a11, Option.map_map, Option.map_eq_some', Function.comp] at h
    obtain ⟨w, _, rfl⟩ := h
    unfold WebSocket.close
    cases hw : w.readyState <;> simp [hw]
  refine ⟨⟨?_, ?_⟩, ⟨?_, ?_⟩, ⟨?_, ?_, ?_, ?_⟩, ⟨?_, ?_, ?_, ?_⟩, ⟨?_, ?_, ?_, ?_, ?_⟩⟩
  · cases h : readyStateOf .current (endSession cfg result st) with
    | none => simp [enabled, h]
    | some rs => simp [enabled, h, (hrs rs h).1]
  · cases h : readyStateOf .current (endSession cfg result st) with
    | none => simp [enabled, h]
    | some rs => simp [enabled, h, (hrs rs h).2]
  · simp [step, ws_onerror]
  · simp [step, ws_onclose]
  · simpa [step, ws_onerror, setReadyState] using a1
  · simpa [step, ws_onerror, setReadyState] using a5
  · simpa [step, ws_onerror, setReadyState] using a6
  · simpa [step, ws_onerror, setReadyState] using a8
  · simpa [step, ws_onclose, setReadyState] using a1
  · simpa [step, ws_onclose, setReadyState] using a5
  · simpa [step, ws_onclose, setReadyState] using a6
  · simpa [step, ws_onclose, setReadyState] using a8
  · simp [handleFeatures, a8]
  · simpa [handleFeatures] using a7
  · simpa [handleFeatures] using a5
  · simpa [handleFeatures] using a6
  · simpa [handleFeatures] using a1

theorem endSession_call_heldCells (cfg : Config) (st : LiveState) :
    heldCells (endSession_call cfg st) = heldCells st := by
  obtain ⟨_, c2, c3, c4, c5, _, _, _, _, _, c11, _⟩ := endSession_call_fields cfg st
  simp only [heldCells, mounted, c2, c3, c4, c5, c11]

/-- C17, as stated, fails. A session is Active with its channel open, the duration
timer has counted 3 seconds, and End Session is clicked. When the end-session
request resolves, `endSession` navigates to `/history`: the session is idle, but
`Live` is unmounted, and of the identifier `abc123`, the duration and the start
time it held nothing can be read any more. -/
theorem C17_counterexample :
    (trace defaultConfig activeState
        [.durationTimer 4200, .clickEnd, .endDone .resolved]).isSome = true ∧
      (heldCells (run defaultConfig activeState [.durationTimer 4200, .clickEnd])).map
          (fun c => (c.sessionId, c.duration, c.startTime))
        = some (some "abc123", 3, some 1000) ∧
      (run defaultConfig activeState
        [.durationTimer 4200, .clickEnd, .endDone .resolved]).isActive = false ∧
      (run defaultConfig activeState
        [.durationTimer 4200, .clickEnd, .endDone .resolved]).navigations = ["/history"] ∧
      mounted (run defaultConfig activeState
        [.durationTimer 4200, .clickEnd, .endDone .resolved]) = false ∧
      (heldCells (run defaultConfig activeState
        [.durationTimer 4200, .clickEnd, .endDone .resolved])).isSome = false := by
  decide

/-- C17, amended (retention across end). The code of `endSession` writes none of
the session identifier, the accumulated duration, the start timestamp and the last
prediction: its part before the request leaves what can be read of them as it is,
and so does its part after a rejected request. So when the end-session request is
rejected, or none is issued because the identifier is empty or missing, the
values stay readable in the idle session, on a page that is still mounted if it
was. When the request resolves, `endSession` navigates to `/history`, `Live` is
unmounted, and nothing of them can be read afterwards. In each case the duration
timer can no longer fire once `endSession` has run. -/
theorem C17_retention_across_end (cfg : Config) (st : LiveState) (result : EndResult)
    (now : Nat) :
    heldCells (endSession_call cfg st) = heldCells st ∧
    heldCells (endSession_resume .rejected st) = heldCells st ∧
    (heldCells (endSession cfg .rejected st) = heldCells st ∧
      (endSession cfg .rejected st).isActive = false ∧
      mounted (endSession cfg .rejected st) = mounted st) ∧
    (truthySessionId st.sessionId = none →
      heldCells (endSession cfg result st) = heldCells st ∧
      (endSession cfg result st).isActive = false) ∧
    (∀ sid, truthySessionId st.sessionId = some sid →
      (endSession cfg .resolved st).navigations = st.navigations ++ ["/history"] ∧
      mounted (endSession cfg .resolved st) = false ∧
      heldCells (endSession cfg .resolved st) = none ∧
      (endSession cfg .resolved st).isActive = false) ∧
    enabled (endSession cfg result st) (.durationTimer now) = false := by
  obtain ⟨a1, _⟩ := endSession_fields cfg result st
  have hcall := endSession_call_heldCells cfg st
  have hrej : ∀ st0 : LiveState, heldCells (endSession_resume .rejected st0) = heldCells st0 :=
    fun st0 => by simp [heldCells, mounted, endSession_resume]
  have hrejm : ∀ st0 : LiveState, mounted (endSession_resume .rejected st0) = mounted st0 :=
    fun st0 => by simp [mounted, endSession_resume]
  have hcallm : mounted (endSession_call cfg st) = mounted st := by
    simp only [mounted, (endSession_call_fields cfg st).2.2.2.2.2.2.2.2.2.2.1]
  refine ⟨hcall, hrej st, ⟨?_, (endSession_fields cfg .rejected st).1, ?_⟩, fun hnone => ?_,
    fun sid hsid => ?_, by simp [enabled, a1]⟩
  · unfold endSession
    cases h : truthySessionId st.sessionId with
    | none => exact hcall
    | some sid => exact (hrej _).trans hcall
  · unfold endSession
    cases h : truthySessionId st.sessionId with
    | none => exact hcallm
    | some sid => exact (hrejm _).trans hcallm
  · refine ⟨?_, a1⟩
    unfold endSession
    simp only [hnone]
    exact hcall
  · have hnav : (endSession cfg .resolved st).navigations = st.navigations ++ ["/history"] := by
      unfold endSession
      simp only [hsid, endSession_resume, navigate,
        (endSession_call_fields cfg st).2.2.2.2.2.2.2.2.2.2.1]
    refine ⟨hnav, ?_, ?_, (endSession_fields cfg .resolved st).1⟩
    · simp [mounted, hnav]
    · simp [heldCells, mounted, hnav]

theorem C17_retention_across_end_witness :
    truthySessionId activeState.sessionId = some "abc123" ∧
      truthySessionId LiveState.initial.sessionId = none ∧
      heldCells (endSession defaultConfig .rejected activeState) = heldCells activeState ∧
      heldCells (endSession defaultConfig .resolved LiveState.initial)
        = heldCells LiveState.initial ∧
      heldCells (endSession defaultConfig .resolved activeState) = none :=
  ⟨by decide, by decide,
    (C17_retention_across_end defaultConfig activeState .rejected 0).2.2.1.1,
    ((C17_retention_across_end defaultConfig LiveState.initial .resolved 0).2.2.2.1
      (by decide)).1,
    ((C17_retention_across_end defaultConfig activeState .resolved 0).2.2.2.2.1
      "abc123" (by decide)).2.2.1⟩

/-! ## Keypoint extraction and the merge step -/

theorem flatMap3_length {α β : Type} (f g h : α → β) (L : List α) :
    (L.flatMap (fun a => [f a, g a, h a])).length = 3 * L.length := by
  induction L with
  | nil => rfl
  | cons a L ih =>
      simp only [List.flatMap_cons, List.length_append, List.length_cons, List.length_nil, ih]
      omega

theorem flatMap3_get {α β : Type} (f g h : α → β) (L : List α) (i : Nat) (a : α)
    (ha : L[i]? = some a) :
    (L.flatMap (fun a => [f a, g a, h a]))[3 * i]? = some (f a) ∧
      (L.flatMap (fun a => [f a, g a, h a]))[3 * i + 1]? = some (g a) ∧
      (L.flatMap (fun a => [f a, g a, h a]))[3 * i + 2]? = some (h a) := by
  induction L generalizing i with
  | nil => simp at ha
  | cons b L ih =>
      cases i with
      | zero =>
          simp only [List.getElem?_cons_zero, Option.some.injEq] at ha
          subst ha
          simp [List.flatMap_cons]
      | succ j =>
          simp only [List.getElem?_cons_succ] at ha
          obtain ⟨h1, h2, h3⟩ := ih j ha
          have e0 : 3 * (j + 1) = (3 * j) + 1 + 1 + 1 := by omega
          have e1 : 3 * (j + 1) + 1 = (3 * j + 1) + 1 + 1 + 1 := by omega
          have e2 : 3 * (j + 1) + 2 = (3 * j + 2) + 1 + 1 + 1 := by omega
          simp only [List.flatMap_cons, List.cons_append, List.nil_append]
          rw [e1, e2, e0]
          simp only [List.getElem?_cons_succ]
          exact ⟨h1, h2, h3⟩

theorem flatMap4_length {α β : Type} (f g h k : α → β) (L : List α) :
    (L.flatMap (fun a => [f a, g a, h a, k a])).length = 4 * L.length := by
  induction L with
  | nil => rfl
  | cons a L ih =>
      simp only [List.flatMap_cons, List.length_append, List.length_cons, List.length_nil, ih]
      omega

theorem flatMap4_get {α β : Type} (f g h k : α → β) (L : List α) (i : Nat) (a : α)
    (ha : L[i]? = some a) :
    (L.flatMap (fun a => [f a, g a, h a, k a]))[4 * i]? = some (f a) ∧
      (L.flatMap (fun a => [f a, g a, h a, k a]))[4 * i + 1]? = some (g a) ∧
      (L.flatMap (fun a => [f a, g a, h a, k a]))[4 * i + 2]? = some (h a) ∧
      (L.flatMap (fun a => [f a, g a, h a, k a]))[4 * i + 3]? = some (k a) := by
  induction L generalizing i with
  | nil => simp at ha
  | cons b L ih =>
      cases i with
      | zero =>
          simp only [List.getElem?_cons_zero, Option.some.injEq] at ha
          subst ha
          simp [List.flatMap_cons]
      | succ j =>
          simp only [List.getElem?_cons_succ] at ha
          obtain ⟨h1, h2, h3, h4⟩ := ih j ha
          have e0 : 4 * (j + 1) = (4 * j) + 1 + 1 + 1 + 1 := by omega
          have e1 : 4 * (j + 1) + 1 = (4 * j + 1) + 1 + 1 + 1 + 1 := by omega
          have e2 : 4 * (j + 1) + 2 = (4 * j + 2) + 1 + 1 + 1 + 1 := by omega
          have e3 : 4 * (j + 1) + 3 = (4 * j + 3) + 1 + 1 + 1 + 1 := by omega
          simp only [List.flatMap_cons, List.cons_append, List.nil_append]
          rw [e1, e2, e3, e0]
          simp only [List.getElem?_cons_succ]
          exact ⟨h1, h2, h3, h4⟩

/-- C18 (face keypoints). When `multiFaceLandmarks` is missing or empty the output
is empty. Otherwise, with `L` the landmark list of the first face, the output has
length `3 * L.length`, its elements `3i`, `3i+1`, `3i+2` are the `x`, `y`, `z` of
`L[i]` for every `i` below the length of `L`, and the faces after the first (like
the pose landmarks) do not matter. -/
theorem C18_extractFaceKeypoints (results : Results) :
    (results.multiFaceLandmarks = none ∨ results.multiFaceLandmarks = some [] →
        extractFaceKeypoints results = []) ∧
      (∀ L rest, results.multiFaceLandmarks = some (L :: rest) →
        (extractFaceKeypoints results).length = 3 * L.length ∧
        (∀ i lm, L[i]? = some lm →
          (extractFaceKeypoints results)[3 * i]? = some lm.x ∧
          (extractFaceKeypoints results)[3 * i + 1]? = some lm.y ∧
          (extractFaceKeypoints results)[3 * i + 2]? = some lm.z) ∧
        extractFaceKeypoints results = extractFaceKeypoints ⟨some [L], none⟩) := by
  refine ⟨fun h => ?_, fun L rest h => ?_⟩
  · rcases h with h | h <;> simp [extractFaceKeypoints, h]
  · have e : extractFaceKeypoints results = L.flatMap (fun lm => [lm.x, lm.y, lm.z]) := by
      simp [extractFaceKeypoints, h]
    refine ⟨?_, fun i lm hi => ?_, ?_⟩
    · rw [e]
      exact flatMap3_length _ _ _ L
    · rw [e]
      exact flatMap3_get _ _ _ L i lm hi
    · rw [e]
      rfl

theorem C18_extractFaceKeypoints_witness :
    extractFaceKeypoints
        ⟨some [[⟨1, 2, 3, none⟩, ⟨4, 5, 6, none⟩], [⟨7, 8, 9, none⟩]], none⟩
        = [1, 2, 3, 4, 5, 6] ∧
      (extractFaceKeypoints
        ⟨some [[⟨1, 2, 3, none⟩, ⟨4, 5, 6, none⟩], [⟨7, 8, 9, none⟩]], none⟩).length
        = 3 * [(⟨1, 2, 3, none⟩ : Landmark), ⟨4, 5, 6, none⟩].length ∧
      (extractFaceKeypoints
        ⟨some [[⟨1, 2, 3, none⟩, ⟨4, 5, 6, none⟩], [⟨7, 8, 9, none⟩]], none⟩)[3 * 1 + 2]?
        = some 6 :=
  ⟨rfl,
    ((C18_extractFaceKeypoints
      ⟨some [[⟨1, 2, 3, none⟩, ⟨4, 5, 6, none⟩], [⟨7, 8, 9, none⟩]], none⟩).2
      [⟨1, 2, 3, none⟩, ⟨4, 5, 6, none⟩] [[⟨7, 8, 9, none⟩]] rfl).1,
    (((C18_extractFaceKeypoints
      ⟨some [[⟨1, 2, 3, none⟩, ⟨4, 5, 6, none⟩], [⟨7, 8, 9, none⟩]], none⟩).2
      [⟨1, 2, 3, none⟩, ⟨4, 5, 6, none⟩] [[⟨7, 8, 9, none⟩]] rfl).2.1 1 ⟨4, 5, 6, none⟩ rfl).2.2⟩

/-- C19 (pose keypoints). When `poseLandmarks` is missing the output is empty.
Otherwise, with `L = poseLandmarks`, the output has length `4 * L.length` and its
elements `4i .. 4i+3` are the `x`, `y`, `z` of `L[i]` and its visibility, where a
missing and a zero visibility are both emitted as 0 and any other visibility as
it is. -/
theorem C19_extractPoseKeypoints (results : Results) :
    (results.poseLandmarks = none → extractPoseKeypoints results = []) ∧
      (∀ L, results.poseLandmarks = some L →
        (extractPoseKeypoints results).length = 4 * L.length ∧
        (∀ i lm, L[i]? = some lm →
          (extractPoseKeypoints results)[4 * i]? = some lm.x ∧
          (extractPoseKeypoints results)[4 * i + 1]? = some lm.y ∧
          (extractPoseKeypoints results)[4 * i + 2]? = some lm.z ∧
          (extractPoseKeypoints results)[4 * i + 3]? = some (orZero lm.visibility))) ∧
      (orZero none = 0 ∧ orZero (some 0) = 0 ∧ ∀ v : Rat, v ≠ 0 → orZero (some v) = v) := by
  refine ⟨fun h => ?_, fun L h => ?_, rfl, by simp [orZero], fun v hv => by simp [orZero, hv]⟩
  · simp [extractPoseKeypoints, h]
  · have e : extractPoseKeypoints results
        = L.flatMap (fun lm => [lm.x, lm.y, lm.z, orZero lm.visibility]) := by
      simp [extractPoseKeypoints, h]
    refine ⟨?_, fun i lm hi => ?_⟩
    · rw [e]
      exact flatMap4_length _ _ _ _ L
    · rw [e]
      exact flatMap4_get _ _ _ _ L i lm hi

theorem C19_extractPoseKeypoints_witness :
    extractPoseKeypoints ⟨none, some [⟨1, 2, 3, some 1⟩, ⟨4, 5, 6, none⟩]⟩
        = [1, 2, 3, orZero (some 1), 4, 5, 6, orZero none] ∧
      (extractPoseKeypoints ⟨none, some [⟨1, 2, 3, some 1⟩, ⟨4, 5, 6, none⟩]⟩)[4 * 1 + 3]?
        = some (orZero none) ∧
      orZero none = 0 :=
  ⟨rfl,
    (((C19_extractPoseKeypoints ⟨none, some [⟨1, 2, 3, some 1⟩, ⟨4, 5, 6, none⟩]⟩).2.1
      [⟨1, 2, 3, some 1⟩, ⟨4, 5, 6, none⟩] rfl).2 1 ⟨4, 5, 6, none⟩ rfl).2.2.2,
    rfl⟩

/-- C20 (merge step). For every state of the capture component and every result,
`onFaceResults` sets the face slot to `extractFaceKeypoints` of the result, leaves
the pose slot as it was, and calls `onFeatures` exactly once, with the frame made
of the new face slot and the old pose slot, when at least one of the two is
non-empty, and not at all when both are empty. `onPoseResults` does the same with
the slots swapped. -/
theorem C20_merge_step (results : Results) (cam : CameraCaptureState) :
    ((onFaceResults results cam).1.lastFeaturesRef.face_kp = extractFaceKeypoints results ∧
      (onFaceResults results cam).1.lastFeaturesRef.pose_kp = cam.lastFeaturesRef.pose_kp ∧
      (onFaceResults results cam).2 =
        if extractFaceKeypoints results ≠ [] ∨ cam.lastFeaturesRef.pose_kp ≠ [] then
          [⟨extractFaceKeypoints results, cam.lastFeaturesRef.pose_kp⟩]
        else []) ∧
    ((onPoseResults results cam).1.lastFeaturesRef.pose_kp = extractPoseKeypoints results ∧
      (onPoseResults results cam).1.lastFeaturesRef.face_kp = cam.lastFeaturesRef.face_kp ∧
      (onPoseResults results cam).2 =
        if cam.lastFeaturesRef.face_kp ≠ [] ∨ extractPoseKeypoints results ≠ [] then
          [⟨cam.lastFeaturesRef.face_kp, extractPoseKeypoints results⟩]
        else []) := by
  refine ⟨⟨rfl, rfl, ?_⟩, ⟨rfl, rfl, ?_⟩⟩
  · simp only [onFaceResults, sendFeatures, combineFeatures, gt_iff_lt, List.length_pos,
      Bool.or_eq_true, decide_eq_true_eq]
  · simp only [onPoseResults, sendFeatures, combineFeatures, gt_iff_lt, List.length_pos,
      Bool.or_eq_true, decide_eq_true_eq]

/-! ## Serialising an outbound message and reading it back -/

theorem utf16_eq_flatMap (s : String) : utf16 s = s.toList.flatMap utf16Char := by
  unfold utf16
  induction s.toList with
  | nil => rfl
  | cons c cs ih => simp [List.flatMap_cons, ih]

theorem parseStringBody_plain (cs : List Char) (out : JsString) (rest : List Char)
    (h : PlainText cs) :
    parseStringBody .plain out (cs ++ '"' :: rest) = some (out ++ cs.flatMap utf16Char, rest) := by
  induction cs generalizing out with
  | nil => simp [parseStringBody]
  | cons c cs ih =>
      obtain ⟨h1, h2, h3⟩ := h c (by simp)
      have h4 := ih (out ++ utf16Char c) (fun d hd => h d (by simp [hd]))
      simp only [List.cons_append, parseStringBody, h1, h2, h3, Bool.false_eq_true, ↓reduceIte]
      rw [List.flatMap_cons, ← List.append_assoc]
      exact h4

theorem flatMap_quoteChar_plain (cs : List Char) (h : PlainText cs) :
    cs.flatMap quoteChar = cs := by
  induction cs with
  | nil => rfl
  | cons c cs ih =>
      obtain ⟨h1, h2, h3⟩ := h c (by simp)
      have hc : quoteChar c = [c] := by
        unfold quoteChar
        have e1 : (c.toNat == 0x08) = false := by
          simp only [beq_eq_false_iff_ne, ne_eq]; omega
        have e2 : (c.toNat == 0x0C) = false := by
          simp only [beq_eq_false_iff_ne, ne_eq]; omega
        have e3 : (c == '\n') = false := by
          simp only [beq_eq_false_iff_ne, ne_eq]; rintro rfl; exact h3 (by decide)
        have e4 : (c == '\r') = false := by
          simp only [beq_eq_false_iff_ne, ne_eq]; rintro rfl; exact h3 (by decide)
        have e5 : (c == '\t') = false := by
          simp only [beq_eq_false_iff_ne, ne_eq]; rintro rfl; exact h3 (by decide)
        simp [h1, h2, h3, e1, e2, e3, e4, e5]
      simp [List.flatMap_cons, hc, ih (fun d hd => h d (by simp [hd]))]

theorem quoteString_plain (s : String) (h : PlainText s.toList) :
    quoteString s = '"' :: (s.toList ++ ['"']) := by
  unfold quoteString
  rw [flatMap_quoteChar_plain s.toList h]
  rfl

theorem span_not (p : Char → Bool) (c : Char) (t : List Char) (h : p c = false) :
    (c :: t).span p = ([], c :: t) := by
  rw [List.span_eq_take_drop]
  simp [List.takeWhile_cons, List.dropWhile_cons, h]

theorem parseNumber_head (c : Char) (t : List Char) (r : Decimal × List Char)
    (h : parseNumber (c :: t) = some r) : (c == '-' || c.isDigit) = true := by
  by_cases hm : c = '-'
  · simp [hm]
  · by_cases hd : c.isDigit = true
    · simp [hd]
    · exfalso
      have hd' : c.isDigit = false := by simpa using hd
      have hsp : (c :: t).span Char.isDigit = ([], c :: t) := span_not _ c t hd'
      unfold parseNumber at h
      have hmatch : (match c :: t with
          | '-' :: r => (true, r)
          | _ => (false, c :: t)) = (false, c :: t) := by
        split
        · rename_i heq
          simp only [List.cons.injEq] at heq
          exact absurd heq.1 hm
        · rfl
      simp only [hmatch, hsp] at h
      simp at h

theorem isJsonWs_of_number_head (c : Char) (hc : (c == '-' || c.isDigit) = true) :
    isJsonWs c = false := by
  rcases Bool.or_eq_true _ _ ▸ hc with h1 | h1
  · have : c = '-' := by simpa using h1
    subst this
    decide
  · simp only [isJsonWs, Bool.or_eq_false_iff, beq_eq_false_iff_ne, ne_eq]
    refine ⟨⟨⟨?_, ?_⟩, ?_⟩, ?_⟩ <;> (rintro rfl; revert h1; decide)

theorem ne_of_number_head (c : Char) (hc : (c == '-' || c.isDigit) = true) (x : Char)
    (hx1 : x.isDigit = false) (hx2 : x ≠ '-') : (c == x) = false := by
  simp only [beq_eq_false_iff_ne, ne_eq]
  rintro rfl
  simp [hx1] at hc
  exact hx2 hc

theorem parseValue_of_parseNumber (fuel : Nat) (cs : List Char) (d : Decimal)
    (rest : List Char) (h : parseNumber cs = some (d, rest)) :
    parseValue (fuel + 1) cs = some (.num d, rest) := by
  cases cs with
  | nil => simp [parseNumber] at h
  | cons c t =>
      have hc := parseNumber_head c t _ h
      have hws := isJsonWs_of_number_head c hc
      have hne := ne_of_number_head c hc
      rw [parseValue]
      simp only [skipWs, hws, Bool.false_eq_true, ↓reduceIte,
        hne 'n' (by decide) (by decide), hne 't' (by decide) (by decide),
        hne 'f' (by decide) (by decide), hne '"' (by decide) (by decide),
        hne '[' (by decide) (by decide), hne '{' (by decide) (by decide), hc, h, Option.map_some']

theorem readsBackAs_head (s : String) (q : Rat) (h : ReadsBackAs s q) :
    ∃ c t, s.toList = c :: t ∧ (c == '-' || c.isDigit) = true := by
  obtain ⟨d, _, hd⟩ := h
  have hd := hd [','] (by simp [Follow])
  cases hs : s.toList with
  | nil =>
      rw [hs] at hd
      have h2 := parseNumber_head ',' [] _ hd
      exact absurd h2 (by decide)
  | cons c t =>
      rw [hs] at hd
      exact ⟨c, t, rfl, parseNumber_head c _ _ hd⟩

theorem parses_number (s : String) (q : Rat) (h : ReadsBackAs s q) :
    ∃ d : Decimal, d.toRat = q ∧ Parses s.toList (.num d) 1 := by
  obtain ⟨d, hq, hd⟩ := h
  refine ⟨d, hq, ?_⟩
  intro fuel rest hfuel hrest
  obtain ⟨f, rfl⟩ : ∃ f, fuel = f + 1 := ⟨fuel - 1, by omega⟩
  exact parseValue_of_parseNumber f _ d rest (hd rest hrest)

theorem skipWs_cons (c : Char) (t : List Char) (h : isJsonWs c = false) :
    skipWs (c :: t) = c :: t := by
  simp [skipWs, h]

theorem parses_string (s : String) (h : PlainText s.toList) :
    Parses (quoteString s) (.str (utf16 s)) 1 := by
  intro fuel rest hfuel _
  obtain ⟨f, rfl⟩ : ∃ f, fuel = f + 1 := ⟨fuel - 1, by omega⟩
  rw [quoteString_plain s h, parseValue]
  have hb := parseStringBody_plain s.toList [] rest h
  simp only [List.cons_append, List.append_assoc, List.singleton_append,
    skipWs_cons '"' _ (by decide)]
  simp only [List.nil_append] at hb
  simp [utf16_eq_flatMap]
  exact hb

theorem follow_cons (c : Char) (t : List Char) (h : c = ',' ∨ c = ']' ∨ c = '}') :
    Follow (c :: t) := by
  intro x hx
  simp only [List.head?_cons, Option.some.injEq] at hx
  exact hx ▸ h

theorem parseElements_items (N : Nat) (items : List (List Char × Json))
    (item : List Char × Json) (h : ∀ it ∈ item :: items, Parses it.1 it.2 N)
    (fuel : Nat) (hfuel : N + items.length + 1 ≤ fuel) (acc : List Json) (rest : List Char) :
    parseElements fuel (joinComma ((item :: items).map (fun it => it.1)) ++ ']' :: rest) acc
      = some (.arr (acc ++ (item :: items).map (fun it => it.2)), rest) := by
  induction items generalizing item acc fuel with
  | nil =>
      obtain ⟨f, rfl⟩ : ∃ f, fuel = f + 1 := ⟨fuel - 1, by omega⟩
      have hv := h item (by simp) f (']' :: rest) (by simp at hfuel; omega)
        (follow_cons _ _ (by simp))
      rw [parseElements]
      simp only [List.map_cons, List.map_nil, joinComma, hv, skipWs_cons ']' _ (by decide)]
  | cons y ys ih =>
      obtain ⟨f, rfl⟩ : ∃ f, fuel = f + 1 := ⟨fuel - 1, by omega⟩
      simp only [List.length_cons] at hfuel
      have e : joinComma ((item :: y :: ys).map (fun it => it.1)) ++ ']' :: rest
          = item.1 ++ ',' :: (joinComma ((y :: ys).map (fun it => it.1)) ++ ']' :: rest) := by
        simp [joinComma]
      have hv := h item (by simp) f
        (',' :: (joinComma ((y :: ys).map (fun it => it.1)) ++ ']' :: rest)) (by omega)
        (follow_cons _ _ (by simp))
      rw [e, parseElements]
      simp only [hv, skipWs_cons ',' _ (by decide)]
      rw [ih y (fun it hit => h it (by simp [hit])) f (by omega) (acc ++ [item.2])]
      simp

theorem parses_array (N : Nat) (items : List (List Char × Json))
    (h : ∀ it ∈ items, Parses it.1 it.2 N)
    (hhead : ∀ it ∈ items, ∃ c t, it.1 = c :: t ∧ isJsonWs c = false ∧ c ≠ ']') :
    Parses ('[' :: joinComma (items.map (fun it => it.1)) ++ [']'])
      (.arr (items.map (fun it => it.2))) (N + items.length + 2) := by
  intro fuel rest hfuel _
  obtain ⟨f, rfl⟩ : ∃ f, fuel = f + 1 := ⟨fuel - 1, by omega⟩
  cases items with
  | nil =>
      rw [parseValue]
      simp [joinComma, skipWs_cons '[' _ (by decide), skipWs_cons ']' _ (by decide)]
  | cons item items =>
      obtain ⟨c, t, hc, hws, hne⟩ := hhead item (by simp)
      have hel := parseElements_items N items item h f (by simp at hfuel; omega) [] rest
      have e : ('[' :: joinComma ((item :: items).map (fun it => it.1)) ++ [']']) ++ rest
          = '[' :: (joinComma ((item :: items).map (fun it => it.1)) ++ ']' :: rest) := by
        simp
      obtain ⟨t2, ht2⟩ : ∃ t2, joinComma ((item :: items).map (fun it => it.1)) ++ ']' :: rest
          = c :: t2 := by
        cases items with
        | nil => exact ⟨t ++ ']' :: rest, by simp [joinComma, hc]⟩
        | cons y ys => exact ⟨_, by simp [joinComma, hc]; rfl⟩
      rw [e, parseValue]
      rw [ht2] at hel ⊢
      simp only [skipWs_cons '[' _ (by decide), skipWs_cons c _ hws]
      simp only [show ('[' == 'n') = false by decide, show ('[' == 't') = false by decide,
        show ('[' == 'f') = false by decide, show ('[' == '"') = false by decide,
        show ('[' == '[') = true by decide, Bool.false_eq_true, ↓reduceIte]
      split
      · rename_i heq
        simp only [List.cons.injEq] at heq
        exact absurd heq.1 hne
      · simpa using hel

theorem joinComma_cons_append (x : List Char) (xs : List (List Char)) (rest : List Char) :
    ∃ t, joinComma (x :: xs) ++ rest = x ++ t := by
  cases xs with
  | nil => exact ⟨rest, rfl⟩
  | cons y ys => exact ⟨',' :: (joinComma (y :: ys) ++ rest), by simp [joinComma]⟩

theorem stringifyMember_append (key : String) (txt rest : List Char)
    (hkey : PlainText key.toList) :
    stringifyMember key txt ++ rest = '"' :: (key.toList ++ '"' :: ':' :: (txt ++ rest)) := by
  simp [stringifyMember, quoteString_plain key hkey]

theorem parseMembers_items (N : Nat) (ms : List (String × List Char × Json))
    (m : String × List Char × Json)
    (h : ∀ it ∈ m :: ms, PlainText it.1.toList ∧ Parses it.2.1 it.2.2 N)
    (fuel : Nat) (hfuel : N + ms.length + 1 ≤ fuel) (acc : List (JsString × Json))
    (rest : List Char) :
    parseMembers fuel
        (joinComma ((m :: ms).map (fun it => stringifyMember it.1 it.2.1)) ++ '}' :: rest) acc
      = some (.obj (acc ++ (m :: ms).map (fun it => (utf16 it.1, it.2.2))), rest) := by
  induction ms generalizing m acc fuel with
  | nil =>
      obtain ⟨f, rfl⟩ : ∃ f, fuel = f + 1 := ⟨fuel - 1, by omega⟩
      obtain ⟨hk, hp⟩ := h m (by simp)
      have hv := hp f ('}' :: rest) (by simp at hfuel; omega) (follow_cons _ _ (by simp))
      have hb := parseStringBody_plain m.1.toList [] (':' :: (m.2.1 ++ '}' :: rest)) hk
      simp only [List.nil_append] at hb
      rw [parseMembers]
      simp only [List.map_cons, List.map_nil, joinComma, stringifyMember_append _ _ _ hk,
        skipWs_cons '"' _ (by decide), hb, skipWs_cons ':' _ (by decide), hv,
        skipWs_cons '}' _ (by decide), utf16_eq_flatMap]
  | cons y ys ih =>
      obtain ⟨f, rfl⟩ : ∃ f, fuel = f + 1 := ⟨fuel - 1, by omega⟩
      simp only [List.length_cons] at hfuel
      obtain ⟨hk, hp⟩ := h m (by simp)
      have e : joinComma ((m :: y :: ys).map (fun it => stringifyMember it.1 it.2.1))
            ++ '}' :: rest
          = stringifyMember m.1 m.2.1 ++ ',' ::
            (joinComma ((y :: ys).map (fun it => stringifyMember it.1 it.2.1)) ++ '}' :: rest) := by
        simp [joinComma]
      have hv := hp f
        (',' :: (joinComma ((y :: ys).map (fun it => stringifyMember it.1 it.2.1))
          ++ '}' :: rest)) (by omega) (follow_cons _ _ (by simp))
      have hb := parseStringBody_plain m.1.toList []
        (':' :: (m.2.1 ++ ',' ::
          (joinComma ((y :: ys).map (fun it => stringifyMember it.1 it.2.1)) ++ '}' :: rest))) hk
      simp only [List.nil_append] at hb
      rw [e, parseMembers]
      simp only [stringifyMember_append _ _ _ hk, skipWs_cons '"' _ (by decide), hb,
        skipWs_cons ':' _ (by decide), hv, skipWs_cons ',' _ (by decide)]
      rw [ih y (fun it hit => h it (by simp [hit])) f (by omega)]
      simp [utf16_eq_flatMap]

theorem parses_object (N : Nat) (ms : List (String × List Char × Json))
    (m : String × List Char × Json)
    (h : ∀ it ∈ m :: ms, PlainText it.1.toList ∧ Parses it.2.1 it.2.2 N) :
    Parses (stringifyObject ((m :: ms).map (fun it => stringifyMember it.1 it.2.1)))
      (.obj ((m :: ms).map (fun it => (utf16 it.1, it.2.2)))) (N + ms.length + 2) := by
  intro fuel rest hfuel _
  obtain ⟨f, rfl⟩ : ∃ f, fuel = f + 1 := ⟨fuel - 1, by omega⟩
  have hmem := parseMembers_items N ms m h f (by omega) [] rest
  have e : stringifyObject ((m :: ms).map (fun it => stringifyMember it.1 it.2.1)) ++ rest
      = '{' :: (joinComma ((m :: ms).map (fun it => stringifyMember it.1 it.2.1))
          ++ '}' :: rest) := by
    simp [stringifyObject]
  obtain ⟨t2, ht2⟩ : ∃ t2,
      joinComma ((m :: ms).map (fun it => stringifyMember it.1 it.2.1)) ++ '}' :: rest
        = '"' :: t2 := by
    obtain ⟨t1, ht1⟩ := joinComma_cons_append (stringifyMember m.1 m.2.1)
      (ms.map (fun it => stringifyMember it.1 it.2.1)) ('}' :: rest)
    rw [List.map_cons, ht1, stringifyMember_append _ _ _ (h m (by simp)).1]
    exact ⟨_, rfl⟩
  rw [e, parseValue]
  rw [ht2] at hmem ⊢
  simp only [skipWs_cons '{' _ (by decide), skipWs_cons '"' _ (by decide)]
  simp only [show ('{' == 'n') = false by decide, show ('{' == 't') = false by decide,
    show ('{' == 'f') = false by decide, show ('{' == '"') = false by decide,
    show ('{' == '[') = false by decide, show ('{' == '{') = true by decide,
    Bool.false_eq_true, ↓reduceIte]
  simpa using hmem

theorem follow_not_digit (rest : List Char) (h : Follow rest) :
    rest.takeWhile Char.isDigit = [] ∧ rest.dropWhile Char.isDigit = rest := by
  cases rest with
  | nil => simp
  | cons c t =>
      have hc : c.isDigit = false := by
        rcases h c rfl with rfl | rfl | rfl <;> decide
      simp [List.takeWhile_cons, List.dropWhile_cons, hc]

theorem span_digits (ds rest : List Char) (hds : ∀ c ∈ ds, c.isDigit = true)
    (hrest : rest.takeWhile Char.isDigit = [] ∧ rest.dropWhile Char.isDigit = rest) :
    (ds ++ rest).span Char.isDigit = (ds, rest) := by
  rw [List.span_eq_take_drop]
  induction ds with
  | nil => simp [hrest.1, hrest.2]
  | cons c cs ih =>
      have hc := hds c (by simp)
      have := ih (fun d hd => hds d (by simp [hd]))
      simp only [Prod.mk.injEq] at this
      simp [List.takeWhile_cons, List.dropWhile_cons, hc, this.1, this.2]

theorem parseNumber_int (intDs rest : List Char) (hds : ∀ c ∈ intDs, c.isDigit = true)
    (hne : intDs ≠ []) (hlead : 1 < intDs.length → intDs.head? ≠ some '0')
    (hrest : Follow rest) :
    parseNumber (intDs ++ rest) = some (⟨(digitsToNat intDs : Int), 0⟩, rest) := by
  obtain ⟨c, t, rfl⟩ : ∃ c t, intDs = c :: t := by
    cases intDs with
    | nil => exact absurd rfl hne
    | cons c t => exact ⟨c, t, rfl⟩
  have hc : c ≠ '-' := by
    rintro rfl
    have := hds '-' (by simp)
    revert this
    decide
  have hsp := span_digits (c :: t) rest hds (follow_not_digit rest hrest)
  have hmatch : (match (c :: t) ++ rest with
      | '-' :: r => (true, r)
      | _ => (false, (c :: t) ++ rest)) = (false, (c :: t) ++ rest) := by
    split
    · rename_i heq
      simp only [List.cons_append, List.cons.injEq] at heq
      exact absurd heq.1 hc
    · rfl
  have hlead' : (decide ((c :: t).length > 1) && ((c :: t).head? == some '0')) = false := by
    by_cases hl : 1 < (c :: t).length
    · have := hlead hl
      simp only [List.head?_cons, ne_eq, Option.some.injEq] at this
      simp [this]
    · simp at hl
      simp [hl]
  unfold parseNumber
  simp only [hmatch, hsp]
  simp only [List.isEmpty_cons, hlead', Bool.or_self, Bool.false_eq_true, ↓reduceIte]
  cases rest with
  | nil => simp
  | cons x r =>
      have hx := hrest x rfl
      rcases hx with rfl | rfl | rfl
      · simp
      · simp
      · simp

theorem parseNumber_frac (intDs fracDs rest : List Char)
    (hds : ∀ c ∈ intDs, c.isDigit = true) (hne : intDs ≠ [])
    (hlead : 1 < intDs.length → intDs.head? ≠ some '0')
    (hfs : ∀ c ∈ fracDs, c.isDigit = true) (hfne : fracDs ≠ []) (hrest : Follow rest) :
    parseNumber (intDs ++ '.' :: (fracDs ++ rest))
      = some (⟨(digitsToNat (intDs ++ fracDs) : Int), - (fracDs.length : Int)⟩, rest) := by
  obtain ⟨c, t, rfl⟩ : ∃ c t, intDs = c :: t := by
    cases intDs with
    | nil => exact absurd rfl hne
    | cons c t => exact ⟨c, t, rfl⟩
  obtain ⟨g, u, rfl⟩ : ∃ g u, fracDs = g :: u := by
    cases fracDs with
    | nil => exact absurd rfl hfne
    | cons g u => exact ⟨g, u, rfl⟩
  have hc : c ≠ '-' := by
    rintro rfl
    have := hds '-' (by simp)
    revert this
    decide
  have hsp := span_digits (c :: t) ('.' :: (g :: u ++ rest)) hds
    (by simp [List.takeWhile_cons, List.dropWhile_cons, show '.'.isDigit = false by decide])
  have hsp2 := span_digits (g :: u) rest hfs (follow_not_digit rest hrest)
  have hmatch : (match (c :: t) ++ '.' :: (g :: u ++ rest) with
      | '-' :: r => (true, r)
      | _ => (false, (c :: t) ++ '.' :: (g :: u ++ rest)))
        = (false, (c :: t) ++ '.' :: (g :: u ++ rest)) := by
    split
    · rename_i heq
      simp only [List.cons_append, List.cons.injEq] at heq
      exact absurd heq.1 hc
    · rfl
  have hlead' : (decide ((c :: t).length > 1) && ((c :: t).head? == some '0')) = false := by
    by_cases hl : 1 < (c :: t).length
    · have := hlead hl
      simp only [List.head?_cons, ne_eq, Option.some.injEq] at this
      simp [this]
    · simp at hl
      simp [hl]
  unfold parseNumber
  simp only [hmatch, hsp]
  simp only [List.isEmpty_cons, hlead', Bool.or_self, Bool.false_eq_true, ↓reduceIte, hsp2]
  cases rest with
  | nil => simp
  | cons x r =>
      have hx := hrest x rfl
      rcases hx with rfl | rfl | rfl
      · simp
      · simp
      · simp

theorem parses_mono (txt : List Char) (v : Json) (n n' : Nat) (hle : n ≤ n')
    (h : Parses txt v n) : Parses txt v n' :=
  fun fuel rest hfuel hrest => h fuel rest (Nat.le_trans hle hfuel) hrest

theorem number_items (p : Rat → String) (xs : List Rat)
    (h : ∀ q ∈ xs, ReadsBackAs (p q) q) :
    ∃ ds : List Decimal, ds.map Decimal.toRat = xs ∧
      ∃ items : List (List Char × Json),
        items.map (fun it => it.1) = xs.map (fun q => (p q).toList) ∧
        items.map (fun it => it.2) = ds.map Json.num ∧
        (∀ it ∈ items, Parses it.1 it.2 1) ∧
        (∀ it ∈ items, ∃ c t, it.1 = c :: t ∧ isJsonWs c = false ∧ c ≠ ']') := by
  induction xs with
  | nil => exact ⟨[], rfl, [], rfl, rfl, by simp, by simp⟩
  | cons q qs ih =>
      obtain ⟨ds, hds, items, h1, h2, h3, h4⟩ := ih (fun x hx => h x (by simp [hx]))
      obtain ⟨d, hd, hp⟩ := parses_number (p q) q (h q (by simp))
      obtain ⟨c, t, hc, hhead⟩ := readsBackAs_head (p q) q (h q (by simp))
      refine ⟨d :: ds, by simp [hd, hds], ((p q).toList, .num d) :: items, by simp [h1],
        by simp [h2], ?_, ?_⟩
      · intro it hit
        simp only [List.mem_cons] at hit
        rcases hit with rfl | hit
        · exact hp
        · exact h3 it hit
      · intro it hit
        simp only [List.mem_cons] at hit
        rcases hit with rfl | hit
        · refine ⟨c, t, hc, isJsonWs_of_number_head c hhead, ?_⟩
          rintro rfl
          exact absurd hhead (by decide)
        · exact h4 it hit

theorem parses_numbers (p : Rat → String) (xs : List Rat)
    (h : ∀ q ∈ xs, ReadsBackAs (p q) q) :
    ∃ ds : List Decimal, ds.map Decimal.toRat = xs ∧
      Parses (stringifyNumbers p xs) (.arr (ds.map Json.num)) (xs.length + 3) := by
  obtain ⟨ds, hds, items, h1, h2, h3, h4⟩ := number_items p xs h
  refine ⟨ds, hds, ?_⟩
  have hlen : items.length = xs.length := by
    have := congrArg List.length h1
    simpa using this
  have := parses_array 1 items h3 h4
  rw [h1, h2, hlen] at this
  unfold stringifyNumbers
  exact parses_mono _ _ _ _ (by omega) this

theorem toNumbers_nums (ds : List Decimal) :
    Json.toNumbers (.arr (ds.map Json.num)) = some (ds.map Decimal.toRat) := by
  have key : ∀ l : List Decimal,
      List.foldr
        (fun (j : Json) (acc : Option (List Rat)) =>
          match j, acc with
          | .num d, some xs => some (d.toRat :: xs)
          | _, _ => none)
        (some []) (l.map Json.num) = some (l.map Decimal.toRat) := by
    intro l
    induction l with
    | nil => rfl
    | cons d l ih => simp only [List.map_cons, List.foldr_cons, ih]
  exact key ds

theorem joinComma_length (l : List (List Char)) (h : ∀ x ∈ l, x ≠ []) :
    l.length ≤ (joinComma l).length := by
  induction l with
  | nil => simp
  | cons x xs ih =>
      have hx : 1 ≤ x.length := by
        cases x with
        | nil => exact absurd rfl (h [] (by simp))
        | cons c t => simp
      cases xs with
      | nil => simpa [joinComma] using hx
      | cons y ys =>
          have := ih (fun z hz => h z (by simp [hz]))
          simp only [joinComma, List.length_append, List.length_cons] at this ⊢
          omega

theorem stringifyNumbers_length (p : Rat → String) (xs : List Rat)
    (h : ∀ q ∈ xs, ReadsBackAs (p q) q) : xs.length ≤ (stringifyNumbers p xs).length := by
  have := joinComma_length (xs.map (fun q => (p q).toList)) (fun x hx => by
    simp only [List.mem_map] at hx
    obtain ⟨q, hq, rfl⟩ := hx
    obtain ⟨c, t, hc, _⟩ := readsBackAs_head (p q) q (h q hq)
    rw [hc]
    exact List.cons_ne_nil c t)
  simp only [List.length_map] at this
  simp only [stringifyNumbers, List.length_cons, List.length_append, List.length_nil]
  omega

theorem plainText_keys :
    PlainText "type".toList ∧ PlainText "timestamp".toList ∧ PlainText "features".toList ∧
      PlainText "face_kp".toList ∧ PlainText "pose_kp".toList := by
  unfold PlainText
  decide

theorem parses_frame (p : Rat → String) (f : FeatureFrame)
    (hface : ∀ q ∈ f.face_kp, ReadsBackAs (p q) q)
    (hpose : ∀ q ∈ f.pose_kp, ReadsBackAs (p q) q) :
    ∃ fk pk : List Decimal, fk.map Decimal.toRat = f.face_kp ∧
      pk.map Decimal.toRat = f.pose_kp ∧
      Parses (stringifyFrame p f)
        (.obj [(utf16 "face_kp", .arr (fk.map Json.num)),
               (utf16 "pose_kp", .arr (pk.map Json.num))])
        (f.face_kp.length + f.pose_kp.length + 6) := by
  obtain ⟨fk, hfk, hF⟩ := parses_numbers p f.face_kp hface
  obtain ⟨pk, hpk, hP⟩ := parses_numbers p f.pose_kp hpose
  obtain ⟨_, _, _, k4, k5⟩ := plainText_keys
  refine ⟨fk, pk, hfk, hpk, ?_⟩
  have := parses_object (f.face_kp.length + f.pose_kp.length + 3)
    [("pose_kp", stringifyNumbers p f.pose_kp, .arr (pk.map Json.num))]
    ("face_kp", stringifyNumbers p f.face_kp, .arr (fk.map Json.num))
    (by
      intro it hit
      simp only [List.mem_cons, List.mem_singleton, List.not_mem_nil, or_false] at hit
      rcases hit with rfl | rfl
      · exact ⟨k4, parses_mono _ _ _ _ (by omega) hF⟩
      · exact ⟨k5, parses_mono _ _ _ _ (by omega) hP⟩)
  exact parses_mono _ _ _ _ (by simp) this

theorem parses_message (p : Rat → String) (now : Nat) (f : FeatureFrame)
    (hnow : ReadsBackAs (p (now : Rat)) (now : Rat))
    (hface : ∀ q ∈ f.face_kp, ReadsBackAs (p q) q)
    (hpose : ∀ q ∈ f.pose_kp, ReadsBackAs (p q) q) :
    ∃ (t : Decimal) (fk pk : List Decimal), t.toRat = (now : Rat) ∧
      fk.map Decimal.toRat = f.face_kp ∧ pk.map Decimal.toRat = f.pose_kp ∧
      JSON_parse (JSON_stringify p ⟨"features", now, f⟩)
        = some (.obj
            [(utf16 "type", .str (utf16 "features")),
             (utf16 "timestamp", .num t),
             (utf16 "features",
                .obj [(utf16 "face_kp", .arr (fk.map Json.num)),
                      (utf16 "pose_kp", .arr (pk.map Json.num))])]) := by
  obtain ⟨fk, pk, hfk, hpk, hfr⟩ := parses_frame p f hface hpose
  obtain ⟨t, ht, hT⟩ := parses_number (p (now : Rat)) (now : Rat) hnow
  obtain ⟨k1, k2, k3, _, _⟩ := plainText_keys
  refine ⟨t, fk, pk, ht, hfk, hpk, ?_⟩
  have hobj := parses_object (f.face_kp.length + f.pose_kp.length + 6)
    [("timestamp", (p (now : Rat)).toList, .num t),
     ("features", stringifyFrame p f,
        .obj [(utf16 "face_kp", .arr (fk.map Json.num)),
              (utf16 "pose_kp", .arr (pk.map Json.num))])]
    ("type", quoteString "features", .str (utf16 "features"))
    (by
      intro it hit
      simp only [List.mem_cons, List.mem_singleton, List.not_mem_nil, or_false] at hit
      rcases hit with rfl | rfl | rfl
      · exact ⟨k1, parses_mono _ _ _ _ (by omega) (parses_string "features" k3)⟩
      · exact ⟨k2, parses_mono _ _ _ _ (by omega) hT⟩
      · exact ⟨k3, hfr⟩)
  have hlenF := stringifyNumbers_length p f.face_kp hface
  have hlenP := stringifyNumbers_length p f.pose_kp hpose
  have hlen : f.face_kp.length + f.pose_kp.length + 4
      ≤ (JSON_stringify p ⟨"features", now, f⟩).length := by
    simp only [JSON_stringify, String.length, stringifyObject, stringifyFrame, stringifyMember,
      joinComma, List.length_cons, List.length_append, List.length_nil]
    omega
  have hrun := hobj (2 * (JSON_stringify p ⟨"features", now, f⟩).length + 2) []
    (by simp only [List.length_cons, List.length_nil]; omega) (by intro c hc; simp at hc)
  unfold JSON_parse
  have htl : (JSON_stringify p ⟨"features", now, f⟩).toList
      = stringifyObject
          ((("type", quoteString "features", Json.str (utf16 "features")) ::
            [("timestamp", (p (now : Rat)).toList, .num t),
             ("features", stringifyFrame p f,
                .obj [(utf16 "face_kp", .arr (fk.map Json.num)),
                      (utf16 "pose_kp", .arr (pk.map Json.num))])]).map
            (fun it => stringifyMember it.1 it.2.1)) := rfl
  rw [htl]
  rw [List.append_nil] at hrun
  rw [hrun]
  rfl

theorem featuresOf_message (p : Rat → String) (now : Nat) (f : FeatureFrame)
    (hnow : ReadsBackAs (p (now : Rat)) (now : Rat))
    (hface : ∀ q ∈ f.face_kp, ReadsBackAs (p q) q)
    (hpose : ∀ q ∈ f.pose_kp, ReadsBackAs (p q) q) :
    featuresOf (JSON_stringify p ⟨"features", now, f⟩) = some f := by
  obtain ⟨t, fk, pk, _, hfk, hpk, hparse⟩ := parses_message p now f hnow hface hpose
  have h1 : utf16 "pose_kp" ≠ utf16 "face_kp" := by decide
  unfold featuresOf
  rw [hparse]
  simp only [Json.getProp, lookupMember, Json.toFrame, h1, ↓reduceIte, toNumbers_nums, hfk, hpk]

/-- C11 (outbound round trip). For every frame `f`, the tick that transmits `f` hands
to `JSON.stringify` the envelope with `type` `"features"`, the time of the tick as
`timestamp`, and `f` as `features`. Let the numbers of the message be written so
that they read back as themselves (as `Number::toString` writes a finite number).
Then the serialised text parses to an object with exactly the three members
`type`, `timestamp`, `features`, in this order, whose `features` has exactly the
members `face_kp` and `pose_kp`, and deserialising it gives back `f`: the same
sequences in the same order. -/
theorem C11_outbound_round_trip (numberToString : Rat → String) (st : LiveState)
    (ws : WebSocket) (now : Nat) (f : FeatureFrame)
    (hws : st.wsRef = some ws) (hopen : ws.readyState = .OPEN)
    (hnow : ReadsBackAs (numberToString (now : Rat)) (now : Rat))
    (hface : ∀ q ∈ f.face_kp, ReadsBackAs (numberToString q) q)
    (hpose : ∀ q ∈ f.pose_kp, ReadsBackAs (numberToString q) q) :
    (sendQueuedFeatures now (handleFeatures f st)).wire
        = st.wire ++ [(ws.url, ⟨"features", now, f⟩)] ∧
      (∃ (t : Decimal) (fk pk : List Decimal), t.toRat = (now : Rat) ∧
        fk.map Decimal.toRat = f.face_kp ∧ pk.map Decimal.toRat = f.pose_kp ∧
        JSON_parse (JSON_stringify numberToString ⟨"features", now, f⟩)
          = some (.obj
              [(utf16 "type", .str (utf16 "features")),
               (utf16 "timestamp", .num t),
               (utf16 "features",
                  .obj [(utf16 "face_kp", .arr (fk.map Json.num)),
                        (utf16 "pose_kp", .arr (pk.map Json.num))])])) ∧
      featuresOf (JSON_stringify numberToString ⟨"features", now, f⟩) = some f := by
  refine ⟨?_, parses_message numberToString now f hnow hface hpose,
    featuresOf_message numberToString now f hnow hface hpose⟩
  simp [sendQueuedFeatures, handleFeatures, hws, hopen]

theorem samplePrinter_values :
    samplePrinter (1 / 10) = "0.1" ∧ samplePrinter (1 / 5) = "0.2" ∧
      samplePrinter (3 / 10) = "0.3" ∧ samplePrinter ((1500 : Nat) : Rat) = "1500" := by
  refine ⟨?_, ?_, ?_, ?_⟩ <;> norm_num [samplePrinter]

theorem samplePrinter_readsBack :
    ReadsBackAs (samplePrinter ((1500 : Nat) : Rat)) ((1500 : Nat) : Rat) ∧
      ∀ q ∈ [(1 / 10 : Rat), 1 / 5, 3 / 10], ReadsBackAs (samplePrinter q) q := by
  obtain ⟨v1, v2, v3, v4⟩ := samplePrinter_values
  refine ⟨?_, ?_⟩
  · rw [v4]
    refine ⟨⟨1500, 0⟩, by norm_num [Decimal.toRat], fun rest hrest => ?_⟩
    exact parseNumber_int "1500".toList rest (by decide) (by decide) (by decide) hrest
  · intro q hq
    simp only [List.mem_cons, List.mem_singleton, List.not_mem_nil, or_false] at hq
    rcases hq with rfl | rfl | rfl
    · rw [v1]
      refine ⟨⟨1, -1⟩, by norm_num [Decimal.toRat], fun rest hrest => ?_⟩
      exact parseNumber_frac "0".toList "1".toList rest (by decide) (by decide) (by decide)
        (by decide) (by decide) hrest
    · rw [v2]
      refine ⟨⟨2, -1⟩, by norm_num [Decimal.toRat], fun rest hrest => ?_⟩
      exact parseNumber_frac "0".toList "2".toList rest (by decide) (by decide) (by decide)
        (by decide) (by decide) hrest
    · rw [v3]
      refine ⟨⟨3, -1⟩, by norm_num [Decimal.toRat], fun rest hrest => ?_⟩
      exact parseNumber_frac "0".toList "3".toList rest (by decide) (by decide) (by decide)
        (by decide) (by decide) hrest

theorem JSON_stringify_sample :
    JSON_stringify samplePrinter ⟨"features", 1500, ⟨[1 / 10, 1 / 5, 3 / 10], []⟩⟩
      = "\x7b\"type\":\"features\",\"timestamp\":1500,\"features\":\x7b\"face_kp\":[0.1,0.2,0.3],\"pose_kp\":[]\x7d\x7d" := by
  obtain ⟨v1, v2, v3, v4⟩ := samplePrinter_values
  simp only [JSON_stringify, stringifyFrame, stringifyNumbers, List.map_cons, List.map_nil,
    v1, v2, v3, v4]
  rfl

theorem C11_outbound_round_trip_witness :
    openState.wsRef = some ⟨"ws://localhost:8000/ws/abc123", .OPEN⟩ ∧
      ReadsBackAs (samplePrinter ((1500 : Nat) : Rat)) ((1500 : Nat) : Rat) ∧
      (sendQueuedFeatures 1500 (handleFeatures ⟨[1 / 10, 1 / 5, 3 / 10], []⟩ openState)).wire
        = openState.wire ++
          [("ws://localhost:8000/ws/abc123",
            ⟨"features", 1500, ⟨[1 / 10, 1 / 5, 3 / 10], []⟩⟩)] ∧
      featuresOf
          (JSON_stringify samplePrinter ⟨"features", 1500, ⟨[1 / 10, 1 / 5, 3 / 10], []⟩⟩)
        = some ⟨[1 / 10, 1 / 5, 3 / 10], []⟩ :=
  have h := C11_outbound_round_trip samplePrinter openState
    ⟨"ws://localhost:8000/ws/abc123", .OPEN⟩ 1500 ⟨[1 / 10, 1 / 5, 3 / 10], []⟩ rfl rfl
    samplePrinter_readsBack.1 samplePrinter_readsBack.2 (fun q hq => by simp at hq)
  ⟨rfl, samplePrinter_readsBack.1, h.1, h.2.2⟩

/-! ## Frames that outlive their session -/

theorem startSession_queue [Browser] (cfg : Config) (now : Nat) (result : CreateResult) (st : LiveState) :
    (startSession_call cfg st).featureQueueRef = st.featureQueueRef ∧
      (startSession_resume cfg now result st).featureQueueRef = st.featureQueueRef ∧
      (startSession cfg now result st).featureQueueRef = st.featureQueueRef := by
  refine ⟨rfl, ?_, ?_⟩ <;>
    cases result with
    | created sid =>
        by_cases ha : Browser.accepts (cfg.wsUrl ++ "/ws/" ++ templateText sid) = true <;>
          simp [startSession, startSession_resume, startSession_call, connectWebSocket,
            setInterval, ha]
    | _ => simp [startSession, startSession_resume, startSession_call]

/-- C21 (stale frames cross session boundaries). In every state, `endSession` and
`startSession` (in each of their parts, for every outcome) leave the feature
buffer as it is. And there is a run of one mounted page, `staleRun`, in which a
frame is offered during the first session while its channel is closed, the
session is ended and a second one started with no further offer, and the first
tick of the second session with its channel open transmits that frame, on the
channel of the second session. -/
theorem C21_stale_frames (cfg : Config) (st : LiveState) (now : Nat) (create : CreateResult)
    (ended : EndResult) :
    ((endSession_call cfg st).featureQueueRef = st.featureQueueRef ∧
      (endSession_resume ended st).featureQueueRef = st.featureQueueRef ∧
      (endSession cfg ended st).featureQueueRef = st.featureQueueRef) ∧
    ((startSession_call cfg st).featureQueueRef = st.featureQueueRef ∧
      (startSession_resume cfg now create st).featureQueueRef = st.featureQueueRef ∧
      (startSession cfg now create st).featureQueueRef = st.featureQueueRef) ∧
    ((trace defaultConfig LiveState.initial staleRun).isSome = true ∧
      (run defaultConfig LiveState.initial (staleRun.take 6)).wire = [] ∧
      (run defaultConfig LiveState.initial (staleRun.take 10)).sessionId = some "xyz789" ∧
      (run defaultConfig LiveState.initial (staleRun.take 10)).featureQueueRef = [⟨[3], [4]⟩] ∧
      (run defaultConfig LiveState.initial staleRun).wire
        = [("ws://localhost:8000/ws/xyz789", ⟨"features", 3500, ⟨[3], [4]⟩⟩)]) := by
  obtain ⟨_, _, _, _, _, _, _, c8, _⟩ := endSession_call_fields cfg st
  obtain ⟨_, _, _, _, _, _, _, r8, _⟩ := endSession_resume_fields ended st
  obtain ⟨_, _, _, _, _, _, _, e8, _⟩ := endSession_fields cfg ended st
  exact ⟨⟨c8, r8, e8⟩, startSession_queue cfg now create st, rfl, rfl, rfl, rfl, rfl⟩

/-! ## Stress level -/

/-- C23 (stress classification). For every prediction the level is `"high"` exactly
when there is a score above 0.7, `"moderate"` exactly when there is a score above
0.4 and at most 0.7, and `"low"` in every other case, among them a missing
prediction, a missing score and the score 0. Hence the level does not decrease
when the score increases, in the order low, moderate, high. -/
theorem C23_stressLevel (prediction : Option Prediction) :
    (stressLevel prediction = "high" ↔
        ∃ p x, prediction = some p ∧ p.stress_score = some x ∧ x > 7 / 10) ∧
      (stressLevel prediction = "moderate" ↔
        ∃ p x, prediction = some p ∧ p.stress_score = some x ∧ 4 / 10 < x ∧ x ≤ 7 / 10) ∧
      (stressLevel prediction = "low" ↔
        ¬ ∃ p x, prediction = some p ∧ p.stress_score = some x ∧ x > 4 / 10) ∧
      (stressLevel none = "low" ∧ stressLevel (some ⟨none⟩) = "low" ∧
        stressLevel (some ⟨some 0⟩) = "low") ∧
      (∀ a b : Rat, a ≤ b →
        levelRank (stressLevel (some ⟨some a⟩)) ≤ levelRank (stressLevel (some ⟨some b⟩))) := by
  have key : ∀ x : Rat, stressLevel (some ⟨some x⟩)
      = if x > 7 / 10 then "high" else if x > 4 / 10 then "moderate" else "low" := by
    intro x
    unfold stressLevel
    by_cases h0 : x = 0
    · subst h0
      norm_num
    · simp [h0]
  refine ⟨?_, ?_, ?_, ⟨rfl, rfl, ?_⟩, ?_⟩
  · cases prediction with
    | none => simp [stressLevel]
    | some p =>
        obtain ⟨sc⟩ := p
        cases sc with
        | none => simp [stressLevel]
        | some x =>
            rw [key]
            by_cases h1 : x > 7 / 10
            · simp [h1]
            · by_cases h2 : x > 4 / 10 <;> simp [h1, h2]
  · cases prediction with
    | none => simp [stressLevel]
    | some p =>
        obtain ⟨sc⟩ := p
        cases sc with
        | none => simp [stressLevel]
        | some x =>
            rw [key]
            by_cases h1 : x > 7 / 10
            · have : ¬ x ≤ 7 / 10 := not_le.mpr h1
              simp [h1, this]
            · by_cases h2 : x > 4 / 10
              · simp [h1, h2, not_lt.mp h1]
              · simp [h1, h2]
  · cases prediction with
    | none => simp [stressLevel]
    | some p =>
        obtain ⟨sc⟩ := p
        cases sc with
        | none => simp [stressLevel]
        | some x =>
            rw [key]
            by_cases h1 : x > 7 / 10
            · have : x > 4 / 10 := lt_trans (by norm_num) h1
              simp [h1, this]
            · by_cases h2 : x > 4 / 10 <;> simp [h1, h2]
  · rw [key]
    norm_num
  · intro a b hab
    rw [key, key]
    by_cases ha1 : a > 7 / 10
    · have hb1 : b > 7 / 10 := lt_of_lt_of_le ha1 hab
      simp [ha1, hb1]
    · by_cases ha2 : a > 4 / 10
      · have hb2 : b > 4 / 10 := lt_of_lt_of_le ha2 hab
        by_cases hb1 : b > 7 / 10 <;> simp [ha1, ha2, hb1, hb2, levelRank]
      · by_cases hb1 : b > 7 / 10
        · simp [ha1, ha2, hb1, levelRank]
        · by_cases hb2 : b > 4 / 10 <;> simp [ha1, ha2, hb1, hb2, levelRank]

/-! ## Formatting a duration -/

theorem digitChar_spec : ∀ d < 10, (Nat.digitChar d).isDigit = true ∧
    (Nat.digitChar d).toNat - '0'.toNat = d := by
  decide

theorem foldl_digits (ds : List Char) (acc : Nat) :
    ds.foldl (fun n c => 10 * n + (c.toNat - '0'.toNat)) acc
      = acc * 10 ^ ds.length + digitsToNat ds := by
  unfold digitsToNat
  induction ds generalizing acc with
  | nil => simp
  | cons c cs ih =>
      simp only [List.foldl_cons, List.length_cons]
      rw [ih (10 * acc + (c.toNat - '0'.toNat)), ih (10 * 0 + (c.toNat - '0'.toNat))]
      ring

theorem digitsToNat_cons (c : Char) (cs : List Char) :
    digitsToNat (c :: cs) = (c.toNat - '0'.toNat) * 10 ^ cs.length + digitsToNat cs := by
  have := foldl_digits cs (10 * 0 + (c.toNat - '0'.toNat))
  simpa [digitsToNat] using this

theorem digitsToNat_append (a b : List Char) :
    digitsToNat (a ++ b) = digitsToNat a * 10 ^ b.length + digitsToNat b := by
  induction a with
  | nil => simp [digitsToNat]
  | cons c cs ih =>
      simp only [List.cons_append, digitsToNat_cons, ih, List.length_append]
      ring

theorem digitsToNat_zeros (k : Nat) : digitsToNat (List.replicate k '0') = 0 := by
  induction k with
  | zero => rfl
  | succ k ih => simp [List.replicate_succ, digitsToNat_cons, ih]

theorem toDigitsCore_spec (fuel n : Nat) (ds : List Char) (hfuel : n < fuel)
    (hds : ∀ c ∈ ds, c.isDigit = true) :
    digitsToNat (Nat.toDigitsCore 10 fuel n ds) = n * 10 ^ ds.length + digitsToNat ds ∧
      (∀ c ∈ Nat.toDigitsCore 10 fuel n ds, c.isDigit = true) ∧
      ds.length < (Nat.toDigitsCore 10 fuel n ds).length := by
  induction fuel generalizing n ds with
  | zero => omega
  | succ f ih =>
      have hd := digitChar_spec (n % 10) (Nat.mod_lt _ (by decide))
      have hds' : ∀ c ∈ Nat.digitChar (n % 10) :: ds, c.isDigit = true := by
        intro c hc
        simp only [List.mem_cons] at hc
        rcases hc with rfl | hc
        · exact hd.1
        · exact hds c hc
      unfold Nat.toDigitsCore
      by_cases h0 : n / 10 = 0
      · simp only [h0, ↓reduceIte]
        refine ⟨?_, hds', by simp⟩
        rw [digitsToNat_cons, hd.2]
        have : n % 10 = n := by
          have := Nat.div_add_mod n 10
          omega
        rw [this]
      · simp only [h0, ↓reduceIte]
        obtain ⟨h1, h2, h3⟩ := ih (n / 10) (Nat.digitChar (n % 10) :: ds) (by omega) hds'
        refine ⟨?_, h2, by simp only [List.length_cons] at h3; omega⟩
        rw [h1, digitsToNat_cons, hd.2]
        have hn := Nat.div_add_mod n 10
        simp only [List.length_cons, pow_succ]
        have e : n * 10 ^ ds.length = (10 * (n / 10) + n % 10) * 10 ^ ds.length := by rw [hn]
        rw [e]
        ring

theorem repr_spec (n : Nat) :
    digitsToNat (Nat.repr n).toList = n ∧ (∀ c ∈ (Nat.repr n).toList, c.isDigit = true) ∧
      1 ≤ (Nat.repr n).length := by
  obtain ⟨h1, h2, h3⟩ := toDigitsCore_spec (n + 1) n [] (by omega) (by simp)
  have e : (Nat.repr n).toList = Nat.toDigitsCore 10 (n + 1) n [] := rfl
  refine ⟨?_, ?_, ?_⟩
  · rw [e, h1]
    simp [digitsToNat]
  · rw [e]
    exact h2
  · have : (Nat.repr n).length = (Nat.toDigitsCore 10 (n + 1) n []).length := rfl
    rw [this]
    simp only [List.length_nil] at h3
    omega

theorem span_until (p : Char → Bool) (m : List Char) (c : Char) (t : List Char)
    (hm : ∀ x ∈ m, p x = true) (hc : p c = false) :
    (m ++ c :: t).span p = (m, c :: t) := by
  rw [List.span_eq_take_drop]
  induction m with
  | nil => simp [List.takeWhile_cons, List.dropWhile_cons, hc]
  | cons x xs ih =>
      have hx := hm x (by simp)
      have := ih (fun y hy => hm y (by simp [hy]))
      simp only [Prod.mk.injEq] at this
      simp [List.takeWhile_cons, List.dropWhile_cons, hx, this.1, this.2]

theorem padStart_toList (k : Nat) (c : Char) (s : String) :
    (padStart k c s).toList = List.replicate (k - s.length) c ++ s.toList := by
  simp [padStart, String.toList]

theorem padStart_length (k : Nat) (c : Char) (s : String) :
    (padStart k c s).length = (k - s.length) + s.length := by
  unfold padStart
  rw [String.length_append]
  simp only [String.length, List.length_replicate]

theorem padded_repr (n : Nat) :
    digitsToNat (padStart 2 '0' (Nat.repr n)).toList = n ∧
      (∀ c ∈ (padStart 2 '0' (Nat.repr n)).toList, c.isDigit = true) := by
  obtain ⟨h1, h2, _⟩ := repr_spec n
  rw [padStart_toList]
  refine ⟨?_, ?_⟩
  · rw [digitsToNat_append, digitsToNat_zeros, h1]
    simp
  · intro c hc
    simp only [List.mem_append, List.mem_replicate] at hc
    rcases hc with ⟨_, rfl⟩ | hc
    · decide
    · exact h2 c hc

theorem rhe_div (s P : Nat) (hP : 32 ≤ P) : roundHalfEven (s * P) 60 / P = s / 60 := by
  have hs := Nat.div_add_mod s 60
  have hr : s % 60 < 60 := Nat.mod_lt _ (by decide)
  have e1 : s * P = 60 * (s / 60 * P) + s % 60 * P := by
    conv_lhs => rw [← hs]
    ring
  have hw : s % 60 * P ≤ 59 * P := Nat.mul_le_mul_right P (by omega)
  have e2 : s * P / 60 = s / 60 * P + s % 60 * P / 60 := by
    rw [e1, Nat.mul_add_div (by decide)]
  have e3 : s * P % 60 = s % 60 * P % 60 := by
    rw [e1, Nat.mul_add_mod]
  apply Nat.div_eq_of_lt_le
  · unfold roundHalfEven
    simp only [e2, e3]
    split
    · omega
    · split
      · omega
      · split <;> omega
  · unfold roundHalfEven
    simp only [e2, e3, Nat.succ_mul]
    split
    · omega
    · split
      · omega
      · split <;> omega

theorem log2Floor_le (fuel n k : Nat) (h : n < 2 ^ (k + 1)) : log2Floor fuel n ≤ k := by
  induction fuel generalizing n k with
  | zero => simp [log2Floor]
  | succ f ih =>
      unfold log2Floor
      split
      · omega
      · rename_i h2
        cases k with
        | zero => simp at h; omega
        | succ k =>
            have : n / 2 < 2 ^ (k + 1) := by
              rw [pow_succ] at h
              omega
            have := ih (n / 2) k this
            omega

theorem floor_divide_60 (s : Nat) (hs : s < 2 ^ 53) :
    Math.floor (Number.divide (s : Int) 60) = ((s / 60 : Nat) : Int) := by
  by_cases h0 : s = 0
  · subst h0
    decide
  · have hL := log2Floor_le s s 52 hs
    have h60 : log2Floor 60 60 = 5 := by decide
    have hb : binade s 60 ≤ 47 := by
      unfold binade
      simp only [h60]
      split <;> omega
    obtain ⟨k, hk, hk5⟩ : ∃ k : Nat, binade s 60 - 52 = -(k : Int) ∧ 5 ≤ k :=
      ⟨(52 - binade s 60).toNat, by omega, by omega⟩
    have hP : 32 ≤ 2 ^ k := by
      calc 32 = 2 ^ 5 := by norm_num
        _ ≤ 2 ^ k := Nat.pow_le_pow_right (by decide) hk5
    have hneg : ¬ (0 : Int) ≤ -(k : Int) := by omega
    have hs0 : ¬ ((s : Int) = 0) := by exact_mod_cast h0
    have hsn : ¬ ((s : Int) < 0) := by omega
    unfold Math.floor Number.divide
    simp only [hs0, hsn, if_false, Int.natAbs_ofNat, hk, hneg, neg_neg, Int.toNat_ofNat,
      Int.toNat_neg_nat, pow_zero, mul_one]
    rw [← rhe_div s (2 ^ k) hP]
    rw [Int.ofNat_fdiv]
    norm_cast

theorem formatDuration_nat (numberToString : Int → String) (s : Nat) (hs : s < 2 ^ 53)
    (hprint : ∀ n : Nat, n < 2 ^ 53 → numberToString (n : Int) = Nat.repr n) :
    formatDuration numberToString (s : Int)
      = padStart 2 '0' (Nat.repr (s / 60)) ++ ":" ++ padStart 2 '0' (Nat.repr (s % 60)) := by
  have h1 := floor_divide_60 s hs
  have h2 : Int.tmod (s : Int) 60 = ((s % 60 : Nat) : Int) := (Int.ofNat_tmod s 60).symm
  have l1 : s / 60 < 2 ^ 53 := lt_of_le_of_lt (Nat.div_le_self s 60) hs
  have l2 : s % 60 < 2 ^ 53 := lt_of_le_of_lt (Nat.mod_le s 60) hs
  unfold formatDuration
  simp only [h1, h2, hprint _ l1, hprint _ l2]

theorem parseDuration_formatDuration (numberToString : Int → String) (s : Nat)
    (hs : s < 2 ^ 53)
    (hprint : ∀ n : Nat, n < 2 ^ 53 → numberToString (n : Int) = Nat.repr n) :
    parseDuration (formatDuration numberToString (s : Int)) = some (s / 60, s % 60) := by
  obtain ⟨m1, m2⟩ := padded_repr (s / 60)
  obtain ⟨t1, _⟩ := padded_repr (s % 60)
  have e : (formatDuration numberToString (s : Int)).toList
      = (padStart 2 '0' (Nat.repr (s / 60))).toList
        ++ ':' :: (padStart 2 '0' (Nat.repr (s % 60))).toList := by
    rw [formatDuration_nat numberToString s hs hprint]
    simp [String.toList]
  have hsp := span_until (fun c => c != ':') (padStart 2 '0' (Nat.repr (s / 60))).toList ':'
    (padStart 2 '0' (Nat.repr (s % 60))).toList
    (fun x hx => by
      have hd := m2 x hx
      simp only [bne_iff_ne, ne_eq]
      rintro rfl
      exact absurd hd (by decide))
    (by decide)
  unfold parseDuration
  rw [e, hsp]
  simp only [m1, t1]

/-- C22, as stated, fails. The number 67553994410557496 is `8444249301319687 * 2 ^ 3`,
so a number holds it exactly. Its quotient by 60 lies nearer to the whole number
above it than to any other number of 53 bits, so `seconds / 60` is rounded up to
1125899906842625, one more than the integer quotient, and the result reads back as
60 seconds more than were given. -/
theorem C22_counterexample :
    ((67553994410557496 : Nat) = 8444249301319687 * 2 ^ 3 ∧ (8444249301319687 : Nat) < 2 ^ 53) ∧
      ((1125899906842625 : Nat) < 2 ^ 53 ∧ intToString 1125899906842625 = "1125899906842625" ∧
        intToString 56 = "56") ∧
      formatDuration intToString 67553994410557496 = "1125899906842625:56" ∧
      (67553994410557496 : Nat) / 60 = 1125899906842624 ∧
      parseDuration (formatDuration intToString 67553994410557496)
        = some (1125899906842625, 56) ∧
      ¬ (60 * 1125899906842625 + 56 = (67553994410557496 : Nat)) := by
  decide

/-- C22, amended (formatDuration of the Live page). For every natural number `s` of
seconds below `2 ^ 53`, the integers a number holds one by one, and with the
built-in `toString()` printing such an integer as its decimal digits: the result is
`m`, a colon, `t`, where `m` is the decimal form of `s / 60` padded on the left
with `0` to at least two characters and `t` the decimal form of `s % 60`, which is
below 60, padded to exactly two characters. Read back as minutes and seconds the
result gives `s / 60` and `s % 60`, with `60 * minutes + seconds = s`, and so two
different numbers of seconds below `2 ^ 53` are never formatted alike. -/
theorem C22_formatDuration (numberToString : Int → String) (s : Nat) (hs : s < 2 ^ 53)
    (hprint : ∀ n : Nat, n < 2 ^ 53 → numberToString (n : Int) = Nat.repr n) :
    formatDuration numberToString (s : Int)
        = padStart 2 '0' (Nat.repr (s / 60)) ++ ":" ++ padStart 2 '0' (Nat.repr (s % 60)) ∧
      (digitsToNat (Nat.repr (s / 60)).toList = s / 60 ∧
        digitsToNat (Nat.repr (s % 60)).toList = s % 60) ∧
      (2 ≤ (padStart 2 '0' (Nat.repr (s / 60))).length ∧
        (Nat.repr (s / 60)).length ≤ (padStart 2 '0' (Nat.repr (s / 60))).length) ∧
      ((padStart 2 '0' (Nat.repr (s % 60))).length = 2 ∧ s % 60 < 60) ∧
      (parseDuration (formatDuration numberToString (s : Int)) = some (s / 60, s % 60) ∧
        60 * (s / 60) + s % 60 = s) ∧
      (∀ s2 : Nat, s2 < 2 ^ 53 →
        formatDuration numberToString (s : Int) = formatDuration numberToString (s2 : Int) →
        s = s2) := by
  have hlt : s % 60 < 60 := Nat.mod_lt _ (by decide)
  obtain ⟨r1, _, r3⟩ := repr_spec (s / 60)
  obtain ⟨q1, _, q3⟩ := repr_spec (s % 60)
  have q4 : (Nat.repr (s % 60)).length ≤ 2 :=
    Nat.repr_length (s % 60) 2 (by decide) (by omega)
  refine ⟨formatDuration_nat numberToString s hs hprint, ⟨r1, q1⟩, ⟨?_, ?_⟩, ⟨?_, hlt⟩,
    ⟨parseDuration_formatDuration numberToString s hs hprint, Nat.div_add_mod s 60⟩, ?_⟩
  · rw [padStart_length]
    omega
  · rw [padStart_length]
    omega
  · rw [padStart_length]
    omega
  · intro s2 hs2 h
    have h1 := parseDuration_formatDuration numberToString s hs hprint
    rw [h, parseDuration_formatDuration numberToString s2 hs2 hprint] at h1
    simp only [Option.some.injEq, Prod.mk.injEq] at h1
    have e1 := Nat.div_add_mod s 60
    have e2 := Nat.div_add_mod s2 60
    omega

theorem C22_formatDuration_witness :
    (3725 : Nat) < 2 ^ 53 ∧
      (∀ n : Nat, n < 2 ^ 53 → intToString (n : Int) = Nat.repr n) ∧
      formatDuration intToString ((3725 : Nat) : Int)
        = padStart 2 '0' (Nat.repr (3725 / 60)) ++ ":" ++ padStart 2 '0' (Nat.repr (3725 % 60)) ∧
      padStart 2 '0' (Nat.repr (3725 / 60)) ++ ":" ++ padStart 2 '0' (Nat.repr (3725 % 60))
        = "62:05" ∧
      parseDuration (formatDuration intToString ((3725 : Nat) : Int)) = some (3725 / 60, 3725 % 60) :=
  have h := C22_formatDuration intToString 3725 (by decide) (fun _ _ => rfl)
  ⟨by decide, fun _ _ => rfl, h.1, by decide, h.2.2.2.2.1.1⟩

end HAR
